import Mathlib

/-!
ESP32 e-paper data display: y-axis synthesis, x-axis ticks, text wrapping,
icon selection, API record mapping, the Domoticz panel, status texts and alert
text.

Shallow embedding of parts of `src/src/renderer.cpp`,
`src/src/display_utils.cpp` and `src/src/api_response.cpp`.

Conventions of the embedding
* C++ `int` / `int64_t` values are `Int`. In the y-axis computation and in the
  graph mapper every result on `int` is checked against the 32 bits of `int`
  (`toInt`, `staticCastInt`): a result out of range is undefined in C++ and
  is `none` here. Elsewhere the theorems speak about runs in which no signed
  overflow occurs.
* C++ `float` values are rationals. In the y-axis computation and in the graph
  mapper an operation on `float` rounds its exact result to a `float`; the
  rounding is the parameter `fl`, of which the proofs use only that it keeps
  the order and leaves the integers up to `2^24` unchanged (`RoundsLikeFloat`).
* `static_cast<int>` is truncation toward zero (`castInt`), `/` and `%` on
  `int` are `Int.tdiv` and `Int.tmod`.
* `while` loops are functions with a fuel argument that return `none`
  (or an unfinished outcome) when the fuel is used up while the loop
  condition still holds.
* Arduino `String` values are `List Char`; its member functions are embedded
  with the behaviour of the Arduino core (`WString.cpp`).
-/

namespace EpdDisplay

/-! ## Chart renderer: y-axis bounds (renderer.cpp, drawOutlookGraph / drawConsumptionGraph)

The samples are `float` values, embedded as rationals. An operation on `float`
returns its exact result rounded to a `float`; that rounding is the parameter
`fl` of the functions below. An operation on `int` whose exact result does not
fit 32 bits is undefined in C++ and has the result `none`. -/


/-- The C++ conversion `static_cast<int>(x)`: truncation toward zero. -/
def castInt (q : ℚ) : Int := Int.tdiv q.num q.den

/-- A result of arithmetic on `int`: the exact value when it lies within the 32
bits of `int`, and `none` otherwise, where the C++ operation is undefined. -/
def toInt (x : Int) : Option Int :=
  if -2147483648 ≤ x ∧ x ≤ 2147483647 then some x else none

/-- The conversion `static_cast<int>(x)` of a `float` to the 32-bit `int`:
truncation toward zero, undefined when the truncated value does not fit. -/
def staticCastInt (x : ℚ) : Option Int := toInt (castInt x)

/-- Function `modulo` of renderer.cpp:554, with `%` the C++ remainder. -/
def modulo (a b : Int) : Int :=
  let result := Int.tmod a b
  if result ≥ 0 then result else result + b

/-- Lower bound for a tick step:
`static_cast<int>(vMin - 1) - modulo(static_cast<int>(vMin - 1), step)`. The
subtraction `vMin - 1` is made on `float` and its exact result is rounded by
`fl`; the conversion and the subtraction on `int` are undefined out of range. -/
def lowerBoundFor (fl : ℚ → ℚ) (vMin : ℚ) (step : Int) : Option Int :=
  (staticCastInt (fl (vMin - 1))).bind fun c => toInt (c - modulo c step)

/-- Upper bound for a tick step:
`static_cast<int>(vMax + 1) + (step - modulo(static_cast<int>(vMax + 1), step))`,
with the `float` sum rounded by `fl` and the `int` operations undefined out of
range. -/
def upperBoundFor (fl : ℚ → ℚ) (vMax : ℚ) (step : Int) : Option Int :=
  (staticCastInt (fl (vMax + 1))).bind fun c =>
    (toInt (step - modulo c step)).bind fun d => toInt (c + d)

/-- The three locals `yTempMajorTicks`, `tempBoundMin`, `tempBoundMax`. -/
structure AxisState where
  tickStep : Int
  boundMin : Int
  boundMax : Int
deriving DecidableEq, Repr

/-- The tick count `(boundMax - boundMin) / tickStep` on `int`: the difference
and the quotient are undefined out of range, and so is a division by zero. -/
def AxisState.tickCount (s : AxisState) : Option Int :=
  (toInt (s.boundMax - s.boundMin)).bind fun d =>
    if s.tickStep = 0 then none else toInt (Int.tdiv d s.tickStep)

/-- Outcome of a loop run with fuel: the state at the exit, an undefined
operation met on the way, or fuel used up while the loop condition holds. -/
inductive Run (α : Type) where
  | done (a : α)
  | undefined
  | unfinished
deriving DecidableEq, Repr

/-- Body of the first loop: `step += 5` and both bounds are recomputed. -/
def increaseStep (fl : ℚ → ℚ) (vMin vMax : ℚ) (s : AxisState) : Option AxisState :=
  (toInt (s.tickStep + 5)).bind fun t =>
    (lowerBoundFor fl vMin t).bind fun lo =>
      (upperBoundFor fl vMax t).bind fun hi =>
        some { tickStep := t, boundMin := lo, boundMax := hi }

/-- First loop: `while ((max - min) / step > yMajorTicks) { step += 5; ... }`. -/
def stepLoop (fl : ℚ → ℚ) (vMin vMax : ℚ) (yMajorTicks : Int) :
    Nat → AxisState → Run AxisState
  | 0, s =>
    match s.tickCount with
    | none => Run.undefined
    | some c => if c > yMajorTicks then Run.unfinished else Run.done s
  | fuel + 1, s =>
    match s.tickCount with
    | none => Run.undefined
    | some c =>
      if c > yMajorTicks then
        match increaseStep fl vMin vMax s with
        | none => Run.undefined
        | some s1 => stepLoop fl vMin vMax yMajorTicks fuel s1
      else Run.done s

/-- Body of the second loop: widen the bound that is closer to its extreme. The
test `tempMin - tempBoundMin <= tempBoundMax - tempMax` is made on `float`:
each bound is converted and each difference is rounded by `fl`. -/
def widenStep (fl : ℚ → ℚ) (vMin vMax : ℚ) (s : AxisState) : Option AxisState :=
  if fl (vMin - fl (s.boundMin : ℚ)) ≤ fl (fl (s.boundMax : ℚ) - vMax) then
    (toInt (s.boundMin - s.tickStep)).bind fun lo => some { s with boundMin := lo }
  else
    (toInt (s.boundMax + s.tickStep)).bind fun hi => some { s with boundMax := hi }

/-- Second loop: `while ((max - min) / step < yMajorTicks) { widen one bound }`. -/
def widenLoop (fl : ℚ → ℚ) (vMin vMax : ℚ) (yMajorTicks : Int) :
    Nat → AxisState → Run AxisState
  | 0, s =>
    match s.tickCount with
    | none => Run.undefined
    | some c => if c < yMajorTicks then Run.unfinished else Run.done s
  | fuel + 1, s =>
    match s.tickCount with
    | none => Run.undefined
    | some c =>
      if c < yMajorTicks then
        match widenStep fl vMin vMax s with
        | none => Run.undefined
        | some s1 => widenLoop fl vMin vMax yMajorTicks fuel s1
      else Run.done s

/-- State before the loops for an initial tick step. -/
def axisInit (fl : ℚ → ℚ) (vMin vMax : ℚ) (step : Int) : Option AxisState :=
  (lowerBoundFor fl vMin step).bind fun lo =>
    (upperBoundFor fl vMax step).bind fun hi =>
      some { tickStep := step, boundMin := lo, boundMax := hi }

/-- The y-axis computation of drawOutlookGraph (renderer.cpp:751-794) and
drawConsumptionGraph (renderer.cpp:580-632): `yMajorTicks = 5`,
`yTempMajorTicks = 5`, initial bounds, then the two adjustment loops. The fuel
bounds the passes of each loop. -/
def computeYAxis (fl : ℚ → ℚ) (fuel : Nat) (vMin vMax : ℚ) : Run AxisState :=
  match axisInit fl vMin vMax 5 with
  | none => Run.undefined
  | some s0 =>
    match stepLoop fl vMin vMax 5 fuel s0 with
    | Run.done s1 => widenLoop fl vMin vMax 5 fuel s1
    | Run.undefined => Run.undefined
    | Run.unfinished => Run.unfinished

/-- The scan `tempMin = std::min(tempMin, newTemp)` over the samples after the first. -/
def seriesMin (first : ℚ) (rest : List ℚ) : ℚ := rest.foldl min first

/-- The scan `tempMax = std::max(tempMax, newTemp)` over the samples after the first. -/
def seriesMax (first : ℚ) (rest : List ℚ) : ℚ := rest.foldl max first

/-- What the proofs use of the rounding of an exact result to `float`: it keeps
the order, and it leaves the integers up to `2^24` unchanged. -/
def RoundsLikeFloat (fl : ℚ → ℚ) : Prop :=
  (∀ x y : ℚ, x ≤ y → fl x ≤ fl y) ∧
    ∀ n : Int, -16777216 ≤ n → n ≤ 16777216 → fl (n : ℚ) = (n : ℚ)

/-! ## Text layout: Arduino `String` operations used by drawMultiLnString -/

/-- An Arduino `String`, as its sequence of characters. -/
abbrev Str := List Char

/-- Conversion of an `int` argument to a 32-bit `unsigned int` parameter. -/
def toUnsigned (i : Int) : Nat := (i % 4294967296).toNat

/-- Scan of `String::lastIndexOf`: `found` is overwritten at each match. -/
def lastIndexFrom (c : Char) : Str → Nat → Int → Int
  | [], _, found => found
  | x :: xs, i, found => lastIndexFrom c xs (i + 1) (if x = c then (i : Int) else found)

/-- The call `s.lastIndexOf("c")` for a one-character pattern: the index of the
last occurrence, `-1` when there is none. -/
def lastIndexOf (s : Str) (c : Char) : Int := lastIndexFrom c s 0 (-1)

/-- The call `s.substring(left, right)`: the arguments are swapped when
`left > right`, the result is empty when the start is at or past the end, and
`right` is clamped to the length. -/
def substring (s : Str) (left right : Nat) : Str :=
  let lo := if left > right then right else left
  let hi := if left > right then left else right
  if lo ≥ s.length then []
  else (s.drop lo).take ((if hi > s.length then s.length else hi) - lo)

/-- The call `s.substring(beginIndex)`, which is `substring(beginIndex, length())`. -/
def substringFrom (s : Str) (beginIndex : Nat) : Str := substring s beginIndex s.length

/-- The call `s.remove(index)`: drops everything from `index` on; no effect when
`index` is at or past the end. -/
def remove (s : Str) (index : Nat) : Str :=
  if index ≥ s.length then s else s.take index

/-- The call `s.charAt(loc)`: the character, or the NUL character out of range. -/
def charAt (s : Str) (loc : Nat) : Char := s.getD loc (Char.ofNat 0)

/-- The literal `"..."`. -/
def ellipsisMark : Str := ['.', '.', '.']

/-! ## Text layout: drawMultiLnString (renderer.cpp:152-260)

The parameters `x`, `y`, `alignment`, `line_spacing` and `color` only place and
colour the drawn lines and are left out. `measure` is the width `w` reported by
`display.getTextBounds` for a string in the current font. -/

/-- Locals of one pass of the outer loop: `subStr`, `splitAt`, `keepLastChar`,
`cr`, `endIndex`, `w`. The field `ellipsis` is a ghost flag, set when the
statement `subStr = subStr + "..."` is executed. -/
structure ShrinkState where
  subStr : Str
  splitAt : Int
  keepLastChar : Int
  cr : Int
  endIndex : Int
  w : Nat
  ellipsis : Bool
deriving DecidableEq, Repr

/-- Locals at the head of the inner loop (renderer.cpp:167-174). -/
def lineInit (measure : Str → Nat) (textRemaining : Str) : ShrinkState :=
  { subStr := textRemaining, splitAt := 0, keepLastChar := 0, cr := 0,
    endIndex := textRemaining.length, w := measure textRemaining, ellipsis := false }

/-- Body of the inner loop (renderer.cpp:178-247). The test
`if (subStr.lastIndexOf("<"))` is a test of an `int`: it holds for every value
other than 0, `-1` (no match) included. -/
def shrinkBody (measure : Str → Nat) (maxWidth maxLines currentLine : Nat)
    (s : ShrinkState) : ShrinkState :=
  let sub1 := if s.keepLastChar ≠ 0 then
      remove s.subStr (toUnsigned ((s.subStr.length : Int) - 1))
    else s.subStr
  let split1 := if (currentLine : Int) < (maxLines : Int) - 1 then
      max (lastIndexOf sub1 ' ') (lastIndexOf sub1 '-')
    else lastIndexOf sub1 ' '
  let split2 := if lastIndexOf sub1 '<' ≠ 0 then lastIndexOf sub1 '<' - 1 else split1
  let cr2 := if lastIndexOf sub1 '<' ≠ 0 then 1 else s.cr
  if split2 ≠ -1 then
    let sub2 := substring sub1 0 (toUnsigned (split2 + 1))
    let end2 := if cr2 = 1 then split2 + 3 else split2
    let lastChar := charAt sub2 (toUnsigned end2)
    let keep3 := if lastChar = ' ' then 0 else if lastChar = '-' then 1 else s.keepLastChar
    let sub3 := if lastChar = ' ' then remove sub2 (toUnsigned end2) else sub2
    let end3 := if lastChar = ' ' then end2 - 1 else end2
    if (currentLine : Int) < (maxLines : Int) - 1 then
      { subStr := sub3, splitAt := split2, keepLastChar := keep3, cr := cr2,
        endIndex := end3, w := measure sub3, ellipsis := s.ellipsis }
    else if measure (sub3 ++ ellipsisMark) ≤ maxWidth then
      { subStr := sub3 ++ ellipsisMark, splitAt := split2, keepLastChar := keep3, cr := cr2,
        endIndex := end3, w := measure (sub3 ++ ellipsisMark), ellipsis := true }
    else
      { subStr := sub3, splitAt := split2, keepLastChar := keep3, cr := cr2,
        endIndex := end3, w := measure (sub3 ++ ellipsisMark), ellipsis := s.ellipsis }
  else
    { s with subStr := sub1, splitAt := split2, cr := cr2 }

/-- Inner loop `while (w > max_width && splitAt != -1)`; `none` when the fuel
is used up while the condition still holds. -/
def shrinkLoop (measure : Str → Nat) (maxWidth maxLines currentLine : Nat) :
    Nat → ShrinkState → Option ShrinkState
  | 0, s => if s.w > maxWidth ∧ s.splitAt ≠ -1 then none else some s
  | fuel + 1, s =>
    if s.w > maxWidth ∧ s.splitAt ≠ -1 then
      shrinkLoop measure maxWidth maxLines currentLine fuel
        (shrinkBody measure maxWidth maxLines currentLine s)
    else some s

/-- One call of `drawString` made by drawMultiLnString: the line index
`current_line`, the text drawn, and the ghost flag of its `ShrinkState`. -/
structure DrawnLine where
  line : Nat
  text : Str
  ellipsis : Bool
deriving DecidableEq, Repr

/-- What a run has drawn so far, and whether the function has returned. -/
structure Outcome where
  lines : List DrawnLine
  finished : Bool
deriving DecidableEq, Repr

/-- Outer loop `while (current_line < max_lines && !textRemaining.isEmpty())`.
The run is unfinished when the outer fuel is used up, or when an inner loop
uses up `innerFuel`; the lines drawn before that point are kept. -/
def wrapLoop (measure : Str → Nat) (maxWidth maxLines innerFuel : Nat) :
    Nat → Nat → Str → Outcome
  | 0, currentLine, textRemaining =>
    if currentLine < maxLines ∧ textRemaining ≠ [] then ⟨[], false⟩ else ⟨[], true⟩
  | fuel + 1, currentLine, textRemaining =>
    if currentLine < maxLines ∧ textRemaining ≠ [] then
      match shrinkLoop measure maxWidth maxLines currentLine innerFuel
          (lineInit measure textRemaining) with
      | none => ⟨[], false⟩
      | some s =>
        let r := wrapLoop measure maxWidth maxLines innerFuel fuel (currentLine + 1)
          (substringFrom textRemaining (toUnsigned (s.endIndex + 2 - s.keepLastChar)))
        ⟨⟨currentLine, s.subStr, s.ellipsis⟩ :: r.lines, r.finished⟩
    else ⟨[], true⟩

/-- Function drawMultiLnString: `current_line = 0`, `textRemaining = text`,
then the outer loop. The fuel bounds the passes of the outer loop and of each
inner loop. -/
def drawMultiLnString (fuel : Nat) (measure : Str → Nat) (text : Str)
    (maxWidth maxLines : Nat) : Outcome :=
  wrapLoop measure maxWidth maxLines fuel fuel 0 text

/-! ## Condition classifier (display_utils.cpp) -/

/-- Icon names used by the active `getConditionsBitmap`. -/
inductive Icon where
  | wi_day_sunny | wi_day_sunny_overcast | wi_day_cloudy | wi_cloudy | wi_fog
  | wi_showers | wi_day_rain | wi_day_rain_wind | wi_rain | wi_rain_mix
  | wi_day_snow | wi_snow | wi_day_thunderstorm | wi_thunderstorm | wi_na
deriving DecidableEq, Repr

set_option linter.unusedVariables false in
/-- Function getConditionsBitmap of display_utils.cpp:533-611. The macro
`getBitmap(icon, size)` is declared outside the listed sources and is taken as
the parameter `getBitmap`; `bitmapSize` is the template argument. -/
def getConditionsBitmap {β : Type} (getBitmap : Icon → Nat → β) (bitmapSize : Nat)
    (id : Int) (day moon cloudy windy : Bool) : β :=
  if id = 0 then getBitmap .wi_day_sunny bitmapSize
  else if id = 1 then getBitmap .wi_day_sunny_overcast bitmapSize
  else if id = 2 then getBitmap .wi_day_cloudy bitmapSize
  else if id = 3 then getBitmap .wi_cloudy bitmapSize
  else if id = 45 then getBitmap .wi_fog bitmapSize
  else if id = 48 then getBitmap .wi_fog bitmapSize
  else if id = 51 then getBitmap .wi_showers bitmapSize
  else if id = 53 then getBitmap .wi_showers bitmapSize
  else if id = 55 then getBitmap .wi_showers bitmapSize
  else if id = 56 then getBitmap .wi_showers bitmapSize
  else if id = 57 then getBitmap .wi_showers bitmapSize
  else if id = 61 then getBitmap .wi_day_rain bitmapSize
  else if id = 63 then getBitmap .wi_day_rain_wind bitmapSize
  else if id = 65 then getBitmap .wi_rain bitmapSize
  else if id = 66 then getBitmap .wi_rain_mix bitmapSize
  else if id = 67 then getBitmap .wi_rain_mix bitmapSize
  else if id = 71 then getBitmap .wi_day_snow bitmapSize
  else if id = 73 then getBitmap .wi_snow bitmapSize
  else if id = 75 then getBitmap .wi_snow bitmapSize
  else if id = 77 then getBitmap .wi_snow bitmapSize
  else if id = 80 then getBitmap .wi_rain bitmapSize
  else if id = 81 then getBitmap .wi_rain bitmapSize
  else if id = 82 then getBitmap .wi_rain bitmapSize
  else if id = 85 then getBitmap .wi_snow bitmapSize
  else if id = 86 then getBitmap .wi_snow bitmapSize
  else if id = 95 then getBitmap .wi_day_thunderstorm bitmapSize
  else if id = 96 then getBitmap .wi_thunderstorm bitmapSize
  else if id = 99 then getBitmap .wi_thunderstorm bitmapSize
  else getBitmap .wi_na bitmapSize

/-- The condition codes that have a `case` label in getConditionsBitmap. -/
def knownConditionCodes : List Int :=
  [0, 1, 2, 3, 45, 48, 51, 53, 55, 56, 57, 61, 63, 65, 66, 67, 71, 73, 75, 77,
    80, 81, 82, 85, 86, 95, 96, 99]

/-- Function isMoonInSky of display_utils.cpp:341-350; the `float` moon phase
is a rational, compared with the constants `0.f` and `1.f`. -/
def isMoonInSky (current_dt moonrise_dt moonset_dt : Int) (moon_phase : ℚ) : Bool :=
  ((decide (current_dt ≥ moonrise_dt) && decide (current_dt < moonset_dt))
    || (decide (moonrise_dt > moonset_dt) && decide (current_dt ≥ moonrise_dt)))
  && (decide (moon_phase ≠ 0) && decide (moon_phase ≠ 1))

/-! ## Chart renderer: precipitation scale and first-day search (renderer.cpp) -/

/-- The choice of `precipBoundMax` in drawOutlookGraph (renderer.cpp:796-804). -/
def precipBoundMax (precipMax : ℚ) : ℚ :=
  if precipMax > 0 then 100 else 0

/-- The divisors of the statement `yPxPerUnit = (yPos1 - yPos0) / precipBoundMax`
(renderer.cpp:888): the statement is executed once for each sample of the
series, with `precipMax` the scanned maximum of the `pop` samples. -/
def precipDivisors (firstPop : ℚ) (restPop : List ℚ) : List ℚ :=
  (firstPop :: restPop).map (fun _ => precipBoundMax (seriesMax firstPop restPop))

/-- The loop `for (int i = 1; i < 34; ++i) { firstday = i; if (graph[i].value == 0) break; }`
of drawConsumptionGraph (renderer.cpp:589-594); the first argument is the number
of passes left, `34 - i`, and `value i` is `graph[i].value`. -/
def firstDayLoop (value : Nat → Int) : Nat → Nat → Int → Int
  | 0, _, firstday => firstday
  | n + 1, i, _ =>
    if value i = 0 then (i : Int) else firstDayLoop value n (i + 1) (i : Int)

/-- The value of `firstday` before the subtraction (renderer.cpp:589-594). -/
def firstDayIndex (value : Nat → Int) : Int := firstDayLoop value 33 1 0

/-- The value of `firstday` after `firstday = firstday - DAILY_GRAPH_MAX`
(renderer.cpp:595); the constant `DAILY_GRAPH_MAX` is declared outside the
listed sources and is the parameter `dailyGraphMax`. -/
def firstDay (value : Nat → Int) (dailyGraphMax : Int) : Int :=
  firstDayIndex value - dailyGraphMax

/-! ## API record mapper: records of api_response.h

Arrays are maps from the index to the slot. A write outside the declared
bounds of an array makes the run fail (`none`), see `writeAt`. -/

/-- Record `meteo_current_t`. -/
structure meteo_current where
  dt : Int
  sunrise : Int
  sunset : Int
  temp_min : ℚ
  temp_max : ℚ
  pressure : Int
  humidity : Int
  dew_point : ℚ
  clouds : Int
  uvi : ℚ
  wind_speed : ℚ
  pop : ℚ
  weather_code : Int
  alert : Nat → Int

/-- Record `meteo_hourly_t`. -/
structure meteo_hourly where
  dt : Int
  temp : ℚ
  pressure : Int
  humidity : Int
  dew_point : ℚ
  clouds : Int
  uvi : ℚ
  visibility : Int
  wind_speed : ℚ
  wind_gust : ℚ
  wind_deg : Int
  pop : ℚ
  rain_1h : ℚ
  snow_1h : ℚ
  weather_code : Int

/-- Record `meteo_daily_t`. -/
structure meteo_daily where
  dt : Int
  sunrise : Int
  sunset : Int
  moonrise : Int
  moonset : Int
  moon_phase : ℚ
  temp_min : ℚ
  weather_code : Int
  temp_max : ℚ
  pressure : Int
  humidity : Int
  dew_point : ℚ
  clouds : Int
  uvi : ℚ
  visibility : Int
  wind_speed : ℚ
  wind_gust : ℚ
  wind_deg : Int
  pop : ℚ
  rain : ℚ
  snow : ℚ

/-- Record `domoticz_t`. -/
structure domoticz_t where
  icon : Int
  description : Str
  value : Str
deriving DecidableEq, Repr

/-- Record `domoticz_graph_t`; `dt0` and `dt1` are `dt[0]` and `dt[1]`. -/
structure domoticz_graph_t where
  value : Int
  prev_value : Int
  dt0 : Char
  dt1 : Char
deriving DecidableEq, Repr

/-- Capacity of `hourly` (`METEO_NUM_HOURLY`). -/
def METEO_NUM_HOURLY : Nat := 24

/-- Capacity of `daily` (`METEO_NUM_DAILY`). -/
def METEO_NUM_DAILY : Nat := 8

/-- Capacity of `data` (`domoticz_t data[7]`). -/
def DATA_CAPACITY : Nat := 7

/-- Capacity of `graph` (`domoticz_graph_t graph[35]`). -/
def GRAPH_CAPACITY : Nat := 35

/-- Record `requested_data_t`. -/
structure requested_data where
  current : meteo_current
  hourly : Nat → meteo_hourly
  daily : Nat → meteo_daily
  data : Nat → domoticz_t
  graph : Nat → domoticz_graph_t
  memo : Str

/-- An assignment to fields of `arr[i]` for an array of `capacity` slots:
`none` when `i` is outside the array. -/
def writeAt {α : Type} (capacity : Nat) (arr : Nat → α) (i : Nat) (f : α → α) :
    Option (Nat → α) :=
  if i < capacity then some (Function.update arr i (f (arr i))) else none

/-- ArduinoJson `DeserializationError`; only `Ok` converts to `false`. -/
inductive DeserializationError where
  | Ok | EmptyInput | IncompleteInput | InvalidInput | NoMemory | TooDeep
deriving DecidableEq, Repr

/-! ## API record mapper: deserialize_Meteo_API (api_response.cpp:25-120)

The call `deserializeJson(doc, json)` belongs to the JSON library: its result
`error` and the field values of `doc` are inputs. A missing member or array
element reads as 0, as `as<T>()` does. -/

/-- The members of the forecast document that the mapper reads. -/
structure MeteoDoc where
  current_dt : Int
  current_sunrise : Int
  current_sunset : Int
  current_pressure : Int
  current_humidity : Int
  current_dew_point : ℚ
  current_clouds : Int
  current_uvi : ℚ
  current_wind_speed : ℚ
  daily_time : List Int
  temperature_2m_max : List ℚ
  temperature_2m_min : List ℚ
  wind_speed_10m_max : List ℚ
  precipitation_probability_max : List ℚ
  weather_code : List Int
  uv_index_max : List ℚ

/-- Lines 54-71: the alert reset and the members of `doc["current"]`. -/
def meteoCurrent (doc : MeteoDoc) (r : requested_data) : requested_data :=
  let alert0 := Function.update (Function.update (Function.update r.current.alert 0 0) 1 0) 2 0
  { r with current :=
      { r.current with
        alert := Function.update alert0 0 1
        dt := doc.current_dt
        sunrise := doc.current_sunrise
        sunset := doc.current_sunset
        pressure := doc.current_pressure
        humidity := doc.current_humidity
        dew_point := doc.current_dew_point
        clouds := doc.current_clouds
        uvi := doc.current_uvi
        wind_speed := doc.current_wind_speed } }

/-- Lines 80-91: element 0 of the daily arrays goes to `r.current`. -/
def meteoToday (doc : MeteoDoc) (v : Int) (i : Nat) (r : requested_data) : requested_data :=
  { r with current :=
      { r.current with
        dt := v
        temp_max := doc.temperature_2m_max.getD i 0
        temp_min := doc.temperature_2m_min.getD i 0
        wind_speed := doc.wind_speed_10m_max.getD i 0
        pop := doc.precipitation_probability_max.getD i 0
        weather_code := doc.weather_code.getD i 0
        uvi := doc.uv_index_max.getD i 0 } }

/-- Lines 94-99: the fields written to `r.daily[i-1]`. -/
def meteoDay (doc : MeteoDoc) (v : Int) (i : Nat) (d : meteo_daily) : meteo_daily :=
  { d with
    dt := v
    temp_min := doc.temperature_2m_min.getD i 0
    temp_max := doc.temperature_2m_max.getD i 0
    weather_code := doc.weather_code.getD i 0 }

/-- The loop `for (JsonVariant v : ListTime)` of lines 76-108, with its counter
`i` and the `break` at `i == METEO_NUM_DAILY - 1`. -/
def meteoDailyLoop (doc : MeteoDoc) : List Int → Nat → requested_data → Option requested_data
  | [], _, r => some r
  | v :: rest, i, r =>
    let written : Option requested_data :=
      if i = 0 then some (meteoToday doc v i r)
      else (writeAt METEO_NUM_DAILY r.daily (i - 1) (meteoDay doc v i)).map
        (fun daily => { r with daily := daily })
    match written with
    | none => none
    | some r1 =>
      if i = METEO_NUM_DAILY - 1 then some r1
      else meteoDailyLoop doc rest (i + 1) r1

/-- The loop of lines 112-117 that fills `r.hourly[i]` for
`1 <= i < HOURLY_GRAPH_MAX`; the first argument is the number of passes left.
`rand n` is the value of the `n`-th call of `random(10, 30)`. -/
def fakeHourlyLoop (rand : Nat → Int) : Nat → Nat → requested_data → Option requested_data
  | 0, _, r => some r
  | n + 1, i, r =>
    match writeAt METEO_NUM_HOURLY r.hourly i (fun h =>
        { h with
          temp := (rand (2 * (i - 1)) : ℚ)
          pop := (rand (2 * (i - 1) + 1) : ℚ)
          dt := r.current.dt + (i : Int) * 3600 }) with
    | none => none
    | some hourly => fakeHourlyLoop rand n (i + 1) { r with hourly := hourly }

/-- Function deserialize_Meteo_API. The constant `HOURLY_GRAPH_MAX` is declared
outside the listed sources and is the parameter `hourlyGraphMax`. The result is
the returned error and the destination record. -/
def deserialize_Meteo_API (error : DeserializationError) (doc : MeteoDoc)
    (hourlyGraphMax : Nat) (rand : Nat → Int) (r : requested_data) :
    Option (DeserializationError × requested_data) :=
  if error ≠ DeserializationError.Ok then some (error, r)
  else
    match meteoDailyLoop doc doc.daily_time 0 (meteoCurrent doc r) with
    | none => none
    | some r1 =>
      match fakeHourlyLoop rand (hourlyGraphMax - 1) 1 r1 with
      | none => none
      | some r2 => some (error, r2)

/-! ## API record mapper: deserialize_Domoticz_API_GRAPH (api_response.cpp:123-181) -/

/-- One element of `doc["result"]` or `doc["resultprev"]`: the members `d`,
`v1` and `v2`. The pointer `v["d"].as<const char *>()` is null (`none`) when the
member is missing or is not a string. -/
structure GraphSample where
  d : Option Str
  v1 : ℚ
  v2 : ℚ

/-- The read `p[i]` through a `const char *`: a character of the string, the
terminating NUL at `i = length`, and undefined (`none`) through a null pointer
or past the terminator. -/
def cstrAt (p : Option Str) (i : Nat) : Option Char :=
  match p with
  | none => none
  | some s => if i ≤ s.length then some (charAt s i) else none

/-- Lines 150-156: the fields written to `r.graph[i]` from a current-period
sample: `day[8]`, `day[9]`, and the `float` sum `v1 + v2` (rounded by `fl`)
converted to the `int` field `value`, which is undefined when it does not fit. -/
def graphValue (fl : ℚ → ℚ) (v : GraphSample) (g : domoticz_graph_t) :
    Option domoticz_graph_t :=
  (cstrAt v.d 8).bind fun c8 =>
    (cstrAt v.d 9).bind fun c9 =>
      (staticCastInt (fl (v.v1 + v.v2))).bind fun n =>
        some { g with dt0 := c8, dt1 := c9, value := n }

/-- Line 172: the field written to `r.graph[i]` from a previous-period sample. -/
def graphPrevValue (fl : ℚ → ℚ) (v : GraphSample) (g : domoticz_graph_t) :
    Option domoticz_graph_t :=
  (staticCastInt (fl (v.v1 + v.v2))).bind fun n => some { g with prev_value := n }

/-- The loops of lines 147-163 and 168-178: write `r.graph[i]`, `i += 1`,
`if (i > 32) break`. The argument `f` is the assignment of the loop. -/
def graphLoop (f : GraphSample → domoticz_graph_t → Option domoticz_graph_t) :
    List GraphSample → Nat → requested_data → Option requested_data
  | [], _, r => some r
  | v :: rest, i, r =>
    match (f v (r.graph i)).bind (fun g => writeAt GRAPH_CAPACITY r.graph i (fun _ => g)) with
    | none => none
    | some graph =>
      if i + 1 > 32 then some { r with graph := graph }
      else graphLoop f rest (i + 1) { r with graph := graph }

/-- Function deserialize_Domoticz_API_GRAPH. -/
def deserialize_Domoticz_API_GRAPH (fl : ℚ → ℚ) (error : DeserializationError)
    (result resultprev : List GraphSample) (r : requested_data) :
    Option (DeserializationError × requested_data) :=
  if error ≠ DeserializationError.Ok then some (error, r)
  else
    match graphLoop (graphValue fl) result 0 r with
    | none => none
    | some r1 =>
      match graphLoop (graphPrevValue fl) resultprev 0 r1 with
      | none => none
      | some r2 => some (error, r2)

/-- A sample whose day can be read: `d` is a string of at least nine
characters, so that `day[8]` and `day[9]` lie in it or on its terminator. -/
def GraphSample.hasDay (v : GraphSample) : Bool := (cstrAt v.d 9).isSome

/-- A sample whose `float` sum `v1 + v2` fits the `int` field. -/
def GraphSample.sumFits (fl : ℚ → ℚ) (v : GraphSample) : Bool :=
  (staticCastInt (fl (v.v1 + v.v2))).isSome

/-! ## API record mapper: deserialize_Domoticz_API_IDX (api_response.cpp:184-262) -/

/-- One element of `doc["result"]`: the members `idx`, `Type`, `Name`, `Data`. -/
structure DomoticzEntry where
  idx : Int
  type : Str
  name : Str
  data : Str
deriving DecidableEq, Repr

/-- The literal `"Humidity"`. -/
def humidityWord : Str := ['H', 'u', 'm', 'i', 'd', 'i', 't', 'y']

/-- The literal `"Temp"`. -/
def tempWord : Str := ['T', 'e', 'm', 'p']

/-- The literal `"Memoire"`. -/
def memoireWord : Str := ['M', 'e', 'm', 'o', 'i', 'r', 'e']

/-- Lines 215-218: `icon = 9`, `description = Name`, `value = Data`. -/
def entrySlot (v : DomoticzEntry) : domoticz_t :=
  { icon := 9, description := v.name, value := v.data }

/-- Lines 225-244: the `else if` chain after the memo test; `remove(0, 9)`
drops the first nine characters. -/
def classifyEntry (v : DomoticzEntry) (d : domoticz_t) : domoticz_t :=
  if v.type = humidityWord then
    { d with
      icon := 3
      value := if humidityWord.isPrefixOf d.value then d.value.drop 9 else d.value }
  else if v.type = tempWord then { d with icon := 4 }
  else if v.idx = 124 then { d with icon := 2 }
  else if v.idx = 35 then { d with icon := 1 }
  else d

/-- The loop `for (JsonVariant v : result)` of lines 209-251 with its counter
`i`: the `continue` of the memo entry skips the test `i > 4` and `++i`. The
result is the final `i` and the record. -/
def idxLoop : List DomoticzEntry → Nat → requested_data → Option (Nat × requested_data)
  | [], i, r => some (i, r)
  | v :: rest, i, r =>
    match writeAt DATA_CAPACITY r.data i (fun _ => entrySlot v) with
    | none => none
    | some data1 =>
      if v.idx = 125 then idxLoop rest i { r with data := data1, memo := v.data }
      else
        match writeAt DATA_CAPACITY data1 i (classifyEntry v) with
        | none => none
        | some data2 =>
          if i > 4 then some (i, { r with data := data2 })
          else idxLoop rest (i + 1) { r with data := data2 }

/-- Function deserialize_Domoticz_API_IDX. The string
`String(percentageHeapFree) + " %"` built from the heap counters is the
parameter `heapText`. -/
def deserialize_Domoticz_API_IDX (error : DeserializationError)
    (result : List DomoticzEntry) (heapText : Str) (r : requested_data) :
    Option (DeserializationError × requested_data) :=
  if error ≠ DeserializationError.Ok then some (error, r)
  else
    match idxLoop result 0 r with
    | none => none
    | some (i, r1) =>
      match writeAt DATA_CAPACITY r1.data i
          (fun _ => { icon := 5, description := memoireWord, value := heapText }) with
      | none => none
      | some data => some (error, { r1 with data := data })

/-! ## Reference notions for the claims on the mappers -/

/-- The entries of a feed that are not the memo (`idx` other than 125). -/
def nonMemoEntries (feed : List DomoticzEntry) : List DomoticzEntry :=
  feed.filter (fun v => decide (v.idx ≠ 125))

/-- The entries of a feed that the loop reads when its counter starts at `i`:
all entries up to and including the non-memo entry met with `i > 4`. -/
def entriesRead : List DomoticzEntry → Nat → List DomoticzEntry
  | [], _ => []
  | v :: rest, i =>
    if v.idx = 125 then v :: entriesRead rest i
    else if i > 4 then [v]
    else v :: entriesRead rest (i + 1)

/-- The `Data` of the last memo entry of a list, or `old` when there is none. -/
def lastMemo (old : Str) : List DomoticzEntry → Str
  | [] => old
  | v :: rest => lastMemo (if v.idx = 125 then v.data else old) rest

/-- A record with every field zero or empty. -/
def zeroRecord : requested_data :=
  { current :=
      { dt := 0, sunrise := 0, sunset := 0, temp_min := 0, temp_max := 0, pressure := 0,
        humidity := 0, dew_point := 0, clouds := 0, uvi := 0, wind_speed := 0, pop := 0,
        weather_code := 0, alert := fun _ => 0 }
    hourly := fun _ =>
      { dt := 0, temp := 0, pressure := 0, humidity := 0, dew_point := 0, clouds := 0,
        uvi := 0, visibility := 0, wind_speed := 0, wind_gust := 0, wind_deg := 0, pop := 0,
        rain_1h := 0, snow_1h := 0, weather_code := 0 }
    daily := fun _ =>
      { dt := 0, sunrise := 0, sunset := 0, moonrise := 0, moonset := 0, moon_phase := 0,
        temp_min := 0, weather_code := 0, temp_max := 0, pressure := 0, humidity := 0,
        dew_point := 0, clouds := 0, uvi := 0, visibility := 0, wind_speed := 0,
        wind_gust := 0, wind_deg := 0, pop := 0, rain := 0, snow := 0 }
    data := fun _ => { icon := 0, description := [], value := [] }
    graph := fun _ => { value := 0, prev_value := 0, dt0 := Char.ofNat 0, dt1 := Char.ofNat 0 }
    memo := [] }

/-- A forecast document with three days: minima 10, 5, 8 and maxima 20, 15, 18. -/
def threeDayDoc : MeteoDoc :=
  { current_dt := 0, current_sunrise := 0, current_sunset := 0, current_pressure := 0,
    current_humidity := 0, current_dew_point := 0, current_clouds := 0, current_uvi := 0,
    current_wind_speed := 0
    daily_time := [0, 1, 2]
    temperature_2m_max := [20, 15, 18]
    temperature_2m_min := [10, 5, 8]
    wind_speed_10m_max := [], precipitation_probability_max := [], weather_code := [],
    uv_index_max := [] }

/-- A forecast document with nine days, with timestamps 100 to 108. -/
def nineDayDoc : MeteoDoc :=
  { current_dt := 0, current_sunrise := 0, current_sunset := 0, current_pressure := 0,
    current_humidity := 0, current_dew_point := 0, current_clouds := 0, current_uvi := 0,
    current_wind_speed := 0
    daily_time := [100, 101, 102, 103, 104, 105, 106, 107, 108]
    temperature_2m_max := [], temperature_2m_min := [], wind_speed_10m_max := [],
    precipitation_probability_max := [], weather_code := [], uv_index_max := [] }

/-- A graph feed of 34 samples, each with `v1 + v2 = 7`. -/
def thirtyFourSamples : List GraphSample :=
  List.replicate 34 { d := some "2024-01-15".toList, v1 := 3, v2 := 4 }

/-- A sensor feed: six temperature sensors followed by the memo entry. -/
def sixSensorsThenMemo : List DomoticzEntry :=
  [ { idx := 1, type := tempWord, name := ['a'], data := ['1'] },
    { idx := 2, type := tempWord, name := ['b'], data := ['2'] },
    { idx := 3, type := tempWord, name := ['c'], data := ['3'] },
    { idx := 4, type := tempWord, name := ['d'], data := ['4'] },
    { idx := 5, type := tempWord, name := ['e'], data := ['5'] },
    { idx := 6, type := tempWord, name := ['f'], data := ['6'] },
    { idx := 125, type := [], name := ['m'], data := ['n', 'o', 't', 'e'] } ]

/-! ## Status texts and icons (display_utils.cpp) -/

/-- The descriptor macros returned by getWiFidesc; their texts are locale
strings declared outside the listed sources. -/
inductive WiFiText where
  | TXT_WIFI_NO_CONNECTION | TXT_WIFI_EXCELLENT | TXT_WIFI_GOOD | TXT_WIFI_FAIR | TXT_WIFI_WEAK
deriving DecidableEq, Repr

/-- The bitmaps returned by getWiFiBitmap16. -/
inductive WiFiBitmap where
  | wifi_x_16x16 | wifi_16x16 | wifi_3_bar_16x16 | wifi_2_bar_16x16 | wifi_1_bar_16x16
deriving DecidableEq, Repr

/-- Function getWiFidesc of display_utils.cpp:281-303. -/
def getWiFidesc (rssi : Int) : WiFiText :=
  if rssi = 0 then WiFiText.TXT_WIFI_NO_CONNECTION
  else if rssi ≥ -50 then WiFiText.TXT_WIFI_EXCELLENT
  else if rssi ≥ -60 then WiFiText.TXT_WIFI_GOOD
  else if rssi ≥ -70 then WiFiText.TXT_WIFI_FAIR
  else WiFiText.TXT_WIFI_WEAK

/-- Function getWiFiBitmap16 of display_utils.cpp:307-329. -/
def getWiFiBitmap16 (rssi : Int) : WiFiBitmap :=
  if rssi = 0 then WiFiBitmap.wifi_x_16x16
  else if rssi ≥ -50 then WiFiBitmap.wifi_16x16
  else if rssi ≥ -60 then WiFiBitmap.wifi_3_bar_16x16
  else if rssi ≥ -70 then WiFiBitmap.wifi_2_bar_16x16
  else WiFiBitmap.wifi_1_bar_16x16

/-- Conversion of a value to `uint32_t`. -/
def toUInt32 (i : Int) : Nat := (i % 4294967296).toNat

/-- The argument of `pow` in calcBatPercent: `1.724 * (v - minv) / (maxv - minv)`,
with the differences computed on `uint32_t`. -/
def batRatio (v minv maxv : Nat) : ℚ :=
  (1.724 : ℚ) * (toUInt32 ((v : Int) - (minv : Int)) : ℚ)
    / (toUInt32 ((maxv : Int) - (minv : Int)) : ℚ)

/-- The rest of calcBatPercent for a value `y` of `pow`:
`uint32_t p = 105 - (105 / (1 + y)); return p >= 100 ? 100 : p;`. The
initialisation converts the `double` to `uint32_t`, which drops the fraction. -/
def batPercentOf (y : ℚ) : Nat :=
  let p := toUInt32 (castInt (105 - 105 / (1 + y)))
  if p ≥ 100 then 100 else p

/-- Function calcBatPercent of display_utils.cpp:86-97 ("normal" curve). The
library function `pow` is a parameter. -/
def calcBatPercent (pow : ℚ → ℚ → ℚ) (v minv maxv : Nat) : Nat :=
  batPercentOf (pow (batRatio v minv maxv) (5.5 : ℚ))

/-! ## Alert text (display_utils.cpp) -/

/-- The call `s.setCharAt(loc, c)`: no effect when `loc` is past the end. -/
def setCharAt (s : Str) (loc : Nat) (c : Char) : Str :=
  if loc < s.length then s.set loc c else s

/-- The test of toTitleCase on the character before the current one. -/
def startsWord (c : Char) : Bool := c == ' ' || c == '-' || c == '('

/-- The loop `for (int i = 1; i < text.length(); ++i)` of toTitleCase; the first
argument is the number of passes left. `toUpperCase` and `toLowerCase` act on
the basic latin letters. -/
def titleCaseLoop : Nat → Nat → Str → Str
  | 0, _, text => text
  | n + 1, i, text =>
    titleCaseLoop n (i + 1)
      (if startsWord (charAt text (i - 1)) then setCharAt text i (charAt text i).toUpper
        else setCharAt text i (charAt text i).toLower)

/-- Function toTitleCase of display_utils.cpp:175-194. -/
def toTitleCase (text : Str) : Str :=
  titleCaseLoop (text.length - 1) 1 (setCharAt text 0 (charAt text 0).toUpper)

/-- The `while` loop of truncateExtraAlertInfo, returning the final `lastChar`;
the first argument bounds the number of passes (`i` grows up to the length). -/
def truncateLoop (text : Str) : Nat → Nat → Nat → Nat
  | 0, _, lastChar => lastChar
  | n + 1, i, lastChar =>
    if i < text.length ∧ charAt text i ≠ ',' ∧ charAt text i ≠ '.' ∧ charAt text i ≠ '(' then
      truncateLoop text n (i + 1) (if charAt text i ≠ ' ' then i + 1 else lastChar)
    else lastChar

/-- Function truncateExtraAlertInfo of display_utils.cpp:203-226: `i = 1`,
`lastChar = i`, the loop, then `text = text.substring(0, lastChar)`. -/
def truncateExtraAlertInfo (text : Str) : Str :=
  if text = [] then text
  else substring text 0 (truncateLoop text text.length 1 1)

/-! ## Error panel (renderer.cpp:995-1016) -/

/-- Type `alignment_t`. -/
inductive alignment_t where
  | LEFT | RIGHT | CENTER
deriving DecidableEq, Repr

/-- The drawing calls made by drawError, with their arguments. -/
inductive DrawCall where
  | drawString (x y : Int) (text : Str) (alignment : alignment_t)
  | drawMultiLnString (x y : Int) (text : Str) (alignment : alignment_t)
      (max_width max_lines : Nat) (line_spacing : Int)
  | drawInvertedBitmap (x y w h : Int)
deriving DecidableEq, Repr

/-- Conversion of an `int` argument to a `uint16_t` parameter. -/
def toUInt16 (i : Int) : Nat := (i % 65536).toNat

/-- Function drawError, as the list of its drawing calls. The constants
`USABLE_WIDTH` and `USABLE_HEIGHT` are declared outside the listed sources and
are parameters; `/` is the C++ integer division. -/
def drawError (usableWidth usableHeight : Int) (errMsgLn1 errMsgLn2 : Str) : List DrawCall :=
  (if errMsgLn2 ≠ [] then
      [ DrawCall.drawString (Int.tdiv usableWidth 2)
          (Int.tdiv usableHeight 2 + Int.tdiv 196 2 + 21) errMsgLn1 alignment_t.CENTER,
        DrawCall.drawString (Int.tdiv usableWidth 2)
          (Int.tdiv usableHeight 2 + Int.tdiv 196 2 + 21 + 55) errMsgLn2 alignment_t.CENTER ]
    else
      [ DrawCall.drawMultiLnString (Int.tdiv usableWidth 2)
          (Int.tdiv usableHeight 2 + Int.tdiv 196 2 + 21) errMsgLn1 alignment_t.CENTER
          (toUInt16 (usableWidth - 200)) 2 55 ])
  ++ [ DrawCall.drawInvertedBitmap (Int.tdiv usableWidth 2 - Int.tdiv 196 2)
        (Int.tdiv usableHeight 2 - Int.tdiv 196 2 - 21 - 100) 196 196 ]

/-! ## Consumption graph: indices read (renderer.cpp:597-607, 685-689) -/

/-- The indices `i + firstday` of `graph` read by drawConsumptionGraph, for
`0 <= i < DAILY_GRAPH_MAX`. -/
def consumptionReadIndices (value : Nat → Int) (dailyGraphMax : Nat) : List Int :=
  (List.range dailyGraphMax).map
    (fun i : Nat => (i : Int) + firstDay value (dailyGraphMax : Int))

/-- A forecast document without the member `daily`: every daily array is empty. -/
def noDailyDoc : MeteoDoc :=
  { current_dt := 0, current_sunrise := 0, current_sunset := 0, current_pressure := 0,
    current_humidity := 0, current_dew_point := 0, current_clouds := 0, current_uvi := 0,
    current_wind_speed := 0
    daily_time := [], temperature_2m_max := [], temperature_2m_min := [],
    wind_speed_10m_max := [], precipitation_probability_max := [], weather_code := [],
    uv_index_max := [] }

/-- The result of the loop of toTitleCase on the characters that follow a
character `prev` of the text being rewritten. -/
def titleCaseFrom (prev : Char) : Str → Str
  | [] => []
  | c :: cs =>
    (if startsWord prev then c.toUpper else c.toLower)
      :: titleCaseFrom (if startsWord prev then c.toUpper else c.toLower) cs

/-! ## Consumption graph: sample scan and plotted samples (renderer.cpp:583-607, 678-689) -/

/-- A read of `graph[idx].value`: `none` when `idx` is outside the 35 slots. -/
def graphValueAt (value : Nat → Int) (idx : Int) : Option Int :=
  if 0 ≤ idx ∧ idx < (GRAPH_CAPACITY : Int) then some (value idx.toNat) else none

/-- The loop `for (int i = 1; i < DAILY_GRAPH_MAX; ++i)` of lines 597-607 on the
pair `(valMin, valMax)`; the first argument is the number of passes left. The
assignment `newTemp = graph[i + firstday].value` converts the `int` to `float`,
which rounds it by `fl`. -/
def consumptionScanLoop (fl : ℚ → ℚ) (value : Nat → Int) (firstday : Int) :
    Nat → Int → ℚ × ℚ → Option (ℚ × ℚ)
  | 0, _, acc => some acc
  | n + 1, i, acc =>
    match graphValueAt value (i + firstday) with
    | none => none
    | some v =>
      consumptionScanLoop fl value firstday n (i + 1)
        (min acc.1 (fl (v : ℚ)), max acc.2 (fl (v : ℚ)))

/-- Lines 583-607: `valMin = graph[0].value; valMax = valMin;`, the first-day
search, then the scan of `graph[i + firstday]` for `1 <= i < DAILY_GRAPH_MAX`. -/
def consumptionExtremes (fl : ℚ → ℚ) (value : Nat → Int) (dailyGraphMax : Nat) :
    Option (ℚ × ℚ) :=
  consumptionScanLoop fl value (firstDay value (dailyGraphMax : Int)) (dailyGraphMax - 1) 1
    (fl (value 0 : ℚ), fl (value 0 : ℚ))

/-- Lines 583-632: the extremes of the scan, then the y-axis computation; a
read outside the array makes the run undefined. -/
def consumptionAxis (fl : ℚ → ℚ) (fuel : Nat) (value : Nat → Int) (dailyGraphMax : Nat) :
    Run AxisState :=
  match consumptionExtremes fl value dailyGraphMax with
  | none => Run.undefined
  | some e => computeYAxis fl fuel e.1 e.2

/-- The sample plotted at position `i` (line 687): `graph[i + firstday].value`. -/
def consumptionPlotted (value : Nat → Int) (dailyGraphMax : Nat) (i : Nat) : Option Int :=
  graphValueAt value ((i : Int) + firstDay value (dailyGraphMax : Int))

/-- Lines 678 and 687 before rounding:
`yPos1 - (yPxPerUnit * (graph[i + firstday].value - valBoundMin))` with
`yPxPerUnit = (yPos1 - yPos0) / static_cast<float>(valBoundMax - valBoundMin)`. -/
def consumptionPlotY (yPos0 yPos1 : Int) (s : AxisState) (v : Int) : ℚ :=
  (yPos1 : ℚ) - ((yPos1 - yPos0 : Int) : ℚ) / ((s.boundMax - s.boundMin : Int) : ℚ)
    * ((v - s.boundMin : Int) : ℚ)

/-- A series of `w + 1` days for a window of `w` days: 10 every day but 500 on
the second day (`graph[1]`), then the zero that ends the data. -/
def spikeGraph (w : Nat) : Nat → Int :=
  fun i => if i = 1 then 500 else if i ≤ w then 10 else 0

/-! ## Outlook graph: x-axis ticks (renderer.cpp:845-846, 895-924) -/

/-- Line 846:
`static_cast<int>(ceil(HOURLY_GRAPH_MAX / static_cast<float>(xMaxTicks)))` with
`xMaxTicks = 8`. -/
def hourInterval (hourlyGraphMax : Nat) : Int :=
  castInt ((⌈(hourlyGraphMax : ℚ) / 8⌉ : Int) : ℚ)

/-- The sample indices `i` of the loop of line 865 at which
`(i % hourInterval) == 0` holds and a tick is drawn (line 895). -/
def xTickIndices (hourlyGraphMax : Nat) : List Nat :=
  (List.range hourlyGraphMax).filter
    (fun i : Nat => decide (Int.tmod (i : Int) (hourInterval hourlyGraphMax) = 0))

/-- The test `(HOURLY_GRAPH_MAX % hourInterval) == 0` of line 911, under which
the last tick mark is drawn at `xPos0 + HOURLY_GRAPH_MAX * xInterval`. -/
def drawsLastTick (hourlyGraphMax : Nat) : Bool :=
  decide (Int.tmod (hourlyGraphMax : Int) (hourInterval hourlyGraphMax) = 0)

/-! ## Domoticz panel: rows of drawDomoticz (renderer.cpp:475-503) -/

/-- What drawDomoticz draws for one device: the row `y`, whether the accent bar
is drawn (`(i + 1) % 2 == 0`), the argument of `hackicon`, and the two texts. -/
structure DomoticzRow where
  row : Nat
  slot : Nat
  shaded : Bool
  icon : Int
  description : Str
  value : Str
deriving DecidableEq, Repr

/-- The drawing made for `data[i]` on row `y`. -/
def domoticzRow (data : Nat → domoticz_t) (y i : Nat) : DomoticzRow :=
  { row := y, slot := i, shaded := decide ((i + 1) % 2 = 0), icon := (data i).icon,
    description := (data i).description, value := (data i).value }

/-- The loop `for (int y = 0; y < 5; ++y)` with its second counter `i`; the
first argument is the number of passes left. -/
def drawDomoticzLoop (data : Nat → domoticz_t) : Nat → Nat → Nat → List DomoticzRow
  | 0, _, _ => []
  | n + 1, y, i =>
    (if (data i).icon > 0 then [domoticzRow data y i] else [])
      ++ drawDomoticzLoop data n (y + 1) (i + 1)

/-- The device rows drawn by drawDomoticz: `i = 0`, then five passes. -/
def drawDomoticz (data : Nat → domoticz_t) : List DomoticzRow :=
  drawDomoticzLoop data 5 0 0

/-- The text `ab<br>cd`. -/
def brText : Str := ['a', 'b', '<', 'b', 'r', '>', 'c', 'd']

/-! ## Loop invariants used in the proofs -/

/-- Invariant of the first loop, for the converted extremes `a` and `b`: a
positive step, small against the padded span, and bounds computed from it. -/
def StepInv (a b : Int) (s : AxisState) : Prop :=
  0 < s.tickStep ∧ 4 * s.tickStep ≤ b - a + 20 ∧
    s.boundMin = a - modulo a s.tickStep ∧
    s.boundMax = b + (s.tickStep - modulo b s.tickStep)

/-- Invariant of the second loop: a positive step, bounds outside the converted
extremes, and a span below six steps. -/
def WidenInv (a b : Int) (s : AxisState) : Prop :=
  0 < s.tickStep ∧ 4 * s.tickStep ≤ b - a + 20 ∧ s.boundMin ≤ a ∧ b < s.boundMax ∧
    s.boundMax - s.boundMin < 6 * s.tickStep

/-- Invariant of the inner loop for the ghost flag: once the ellipsis has been
appended, the pass is on line `maxLines - 1`, `w` is the width of `subStr`,
`w <= maxWidth`, and `subStr` ends with the ellipsis. -/
def EllipsisInv (measure : Str → Nat) (maxWidth maxLines currentLine : Nat)
    (s : ShrinkState) : Prop :=
  s.ellipsis = true →
    currentLine + 1 = maxLines ∧ measure s.subStr ≤ maxWidth ∧ s.w ≤ maxWidth ∧
      ∃ p, s.subStr = p ++ ellipsisMark

/-- Invariant of both loops for the grid: the step is a positive multiple of 5
and both bounds are multiples of the step. -/
def GridInv (s : AxisState) : Prop :=
  0 < s.tickStep ∧ 5 ∣ s.tickStep ∧ s.tickStep ∣ s.boundMin ∧ s.tickStep ∣ s.boundMax

/-! # Theorems -/

/-! ### Arithmetic of `castInt`, `toInt` and `modulo` -/

theorem tmod_gt_neg (a b : Int) (hb : 0 < b) : -b < Int.tmod a b := by
  rcases le_or_lt 0 a with ha | ha
  · have := Int.tmod_nonneg b ha
    omega
  · have h1 : Int.tmod a b = -Int.tmod (-a) b := by
      rw [Int.tmod_def, Int.tmod_def, Int.neg_tdiv]
      ring
    have h2 := Int.tmod_lt_of_pos (-a) hb
    omega

theorem modulo_nonneg (a b : Int) (hb : 0 < b) : 0 ≤ modulo a b := by
  have h := tmod_gt_neg a b hb
  unfold modulo
  simp only
  split <;> omega

theorem modulo_lt (a b : Int) (hb : 0 < b) : modulo a b < b := by
  have h := Int.tmod_lt_of_pos a hb
  unfold modulo
  simp only
  split <;> omega

theorem castInt_of_nonneg (q : ℚ) (hq : 0 ≤ q) : castInt q = ⌊q⌋ := by
  unfold castInt
  have hn : 0 ≤ q.num := Rat.num_nonneg.mpr hq
  rw [Int.tdiv_eq_ediv hn (by positivity), ← Rat.floor_def]

theorem castInt_of_neg (q : ℚ) (hq : q < 0) : castInt q = ⌈q⌉ := by
  unfold castInt
  have hn : 0 ≤ (-q).num := Rat.num_nonneg.mpr (by linarith)
  have h1 : Int.tdiv q.num q.den = -⌊-q⌋ := by
    rw [Rat.floor_def, ← Int.tdiv_eq_ediv hn (by positivity)]
    simp [Int.neg_tdiv]
  rw [h1, Int.floor_neg, neg_neg]

theorem castInt_lt (q : ℚ) : (castInt q : ℚ) < q + 1 := by
  rcases le_or_lt 0 q with hq | hq
  · rw [castInt_of_nonneg q hq]
    have := Int.floor_le q
    linarith
  · rw [castInt_of_neg q hq]
    exact Int.ceil_lt_add_one q

theorem lt_castInt (q : ℚ) : q - 1 < (castInt q : ℚ) := by
  rcases le_or_lt 0 q with hq | hq
  · rw [castInt_of_nonneg q hq]
    have := Int.lt_floor_add_one q
    linarith
  · rw [castInt_of_neg q hq]
    have := Int.le_ceil q
    linarith

theorem castInt_intCast (n : Int) : castInt (n : ℚ) = n := by
  simp [castInt]

/-- Truncation toward zero keeps the order. -/
theorem castInt_mono {x y : ℚ} (h : x ≤ y) : castInt x ≤ castInt y := by
  rcases le_or_lt 0 x with hx | hx
  · rw [castInt_of_nonneg x hx, castInt_of_nonneg y (le_trans hx h)]
    exact Int.floor_mono h
  · rcases le_or_lt 0 y with hy | hy
    · rw [castInt_of_neg x hx, castInt_of_nonneg y hy]
      have h1 : ⌈x⌉ ≤ 0 := Int.ceil_le.mpr (by exact_mod_cast le_of_lt hx)
      have h2 : 0 ≤ ⌊y⌋ := Int.floor_nonneg.mpr hy
      omega
    · rw [castInt_of_neg x hx, castInt_of_neg y hy]
      exact Int.ceil_mono h

theorem toInt_of_range {x : Int} (h1 : -2147483648 ≤ x) (h2 : x ≤ 2147483647) :
    toInt x = some x := by
  simp only [toInt, if_pos (And.intro h1 h2)]

theorem toInt_of_gt {x : Int} (h : 2147483647 < x) : toInt x = none := by
  have hc : ¬ (-2147483648 ≤ x ∧ x ≤ 2147483647) := by omega
  simp only [toInt, if_neg hc]

theorem toInt_eq_some {x y : Int} (h : toInt x = some y) :
    y = x ∧ -2147483648 ≤ x ∧ x ≤ 2147483647 := by
  unfold toInt at h
  split_ifs at h with hc
  simp only [Option.some.injEq] at h
  exact ⟨h.symm, hc⟩

/-- For a non-negative span and a positive step the C++ quotient exceeds `n`
exactly when the span holds `n + 1` whole steps. -/
theorem tdiv_gt_iff (d step n : Int) (hd : 0 ≤ d) (hs : 0 < step) :
    n < Int.tdiv d step ↔ (n + 1) * step ≤ d := by
  rw [Int.tdiv_eq_ediv hd (le_of_lt hs)]
  rw [← Int.le_ediv_iff_mul_le hs]
  omega

theorem tdiv_add_step (d step : Int) (hd : 0 ≤ d) (hs : 0 < step) :
    Int.tdiv (d + step) step = Int.tdiv d step + 1 := by
  rw [Int.tdiv_eq_ediv hd (le_of_lt hs), Int.tdiv_eq_ediv (by omega) (le_of_lt hs)]
  have := Int.add_mul_ediv_right d 1 (ne_of_gt hs)
  simpa using this

theorem tdiv_le_self_of_nonneg (d step : Int) (hd : 0 ≤ d) (hs : 0 < step) :
    0 ≤ Int.tdiv d step ∧ Int.tdiv d step ≤ d := by
  refine ⟨Int.tdiv_nonneg hd (le_of_lt hs), ?_⟩
  rw [Int.tdiv_eq_ediv hd (le_of_lt hs)]
  exact Int.ediv_le_self _ hd

theorem dvd_sub_modulo (a b : Int) : b ∣ a - modulo a b := by
  unfold modulo
  simp only
  split
  · rw [Int.tmod_def]
    exact ⟨a.tdiv b, by ring⟩
  · rw [Int.tmod_def]
    exact ⟨a.tdiv b - 1, by ring⟩

theorem dvd_add_step_sub_modulo (a b : Int) : b ∣ a + (b - modulo a b) := by
  have h := dvd_sub_modulo a b
  have : a + (b - modulo a b) = (a - modulo a b) + b := by ring
  rw [this]
  exact dvd_add h (dvd_refl b)

/-- Two multiples of a positive step that differ are at least one step apart. -/
theorem multiple_gap (step a b : Int) (ha : step ∣ a) (hb : step ∣ b)
    (hlt : a < b) : a + step ≤ b := by
  have hd : step ∣ b - a := dvd_sub hb ha
  have := Int.le_of_dvd (by omega) hd
  omega

/-! ### The bounds and the tick count on `int` -/

theorem lowerBoundFor_eq (fl : ℚ → ℚ) (vMin : ℚ) (step a : Int)
    (ha : staticCastInt (fl (vMin - 1)) = some a) (hs : 0 < step)
    (hr : -2147483648 ≤ a - step) :
    lowerBoundFor fl vMin step = some (a - modulo a step) := by
  have h1 := modulo_nonneg a step hs
  have h2 := modulo_lt a step hs
  obtain ⟨-, -, h3⟩ := toInt_eq_some ha
  have hcast : castInt (fl (vMin - 1)) = a := (toInt_eq_some ha).1.symm
  rw [hcast] at h3
  simp only [lowerBoundFor, ha, Option.some_bind]
  exact toInt_of_range (by omega) (by omega)

theorem upperBoundFor_eq (fl : ℚ → ℚ) (vMax : ℚ) (step b : Int)
    (hb : staticCastInt (fl (vMax + 1)) = some b) (hs : 0 < step)
    (hs2 : step ≤ 2147483647) (hr : b + step ≤ 2147483647) :
    upperBoundFor fl vMax step = some (b + (step - modulo b step)) := by
  have h1 := modulo_nonneg b step hs
  have h2 := modulo_lt b step hs
  obtain ⟨hcast, h3, -⟩ := toInt_eq_some hb
  rw [← hcast] at h3
  simp only [upperBoundFor, hb, Option.some_bind]
  rw [toInt_of_range (by omega) (by omega)]
  simp only [Option.some_bind]
  exact toInt_of_range (by omega) (by omega)

theorem tickCount_eq (s : AxisState) (hs : 0 < s.tickStep) (h1 : 0 ≤ s.boundMax - s.boundMin)
    (h2 : s.boundMax - s.boundMin ≤ 2147483647) :
    s.tickCount = some (Int.tdiv (s.boundMax - s.boundMin) s.tickStep) := by
  obtain ⟨h3, h4⟩ := tdiv_le_self_of_nonneg _ _ h1 hs
  have hne : ¬ s.tickStep = 0 := by omega
  simp only [AxisState.tickCount, toInt_of_range (x := s.boundMax - s.boundMin) (by omega) h2,
    Option.some_bind, if_neg hne]
  exact toInt_of_range (by omega) (by omega)

/-! ### The two adjustment loops -/

theorem stepInv_bounds {a b : Int} {s : AxisState} (h : StepInv a b s) :
    a - s.tickStep < s.boundMin ∧ s.boundMin ≤ a ∧ b < s.boundMax ∧
      s.boundMax ≤ b + s.tickStep := by
  obtain ⟨hs, -, hlo, hhi⟩ := h
  have h1 := modulo_nonneg a s.tickStep hs
  have h2 := modulo_lt a s.tickStep hs
  have h3 := modulo_nonneg b s.tickStep hs
  have h4 := modulo_lt b s.tickStep hs
  omega

theorem stepInv_gridInv {a b : Int} {s : AxisState} (h : StepInv a b s)
    (h5 : 5 ∣ s.tickStep) : GridInv s := by
  obtain ⟨hs, -, hlo, hhi⟩ := h
  refine ⟨hs, h5, ?_, ?_⟩
  · rw [hlo]; exact dvd_sub_modulo _ _
  · rw [hhi]; exact dvd_add_step_sub_modulo _ _

theorem stepInv_tickCount {a b : Int} {s : AxisState} (h : StepInv a b s) (hab : a ≤ b)
    (ha1 : -16777216 ≤ a) (hb1 : b ≤ 16777216) :
    s.tickCount = some (Int.tdiv (s.boundMax - s.boundMin) s.tickStep) := by
  have hb := stepInv_bounds h
  obtain ⟨hs, hsmall, -, -⟩ := h
  exact tickCount_eq s hs (by omega) (by omega)

/-- While the first loop still runs, the padded span exceeds four steps. -/
theorem span_gt_of_tooMany {a b : Int} {s : AxisState} (h : StepInv a b s) (hab : a ≤ b)
    (hc : 5 < Int.tdiv (s.boundMax - s.boundMin) s.tickStep) :
    4 * s.tickStep < b - a := by
  have hb := stepInv_bounds h
  obtain ⟨hs, -, -, -⟩ := h
  have := (tdiv_gt_iff _ _ 5 (by omega) hs).mp hc
  omega

theorem increaseStep_of_stepInv (fl : ℚ → ℚ) (vMin vMax : ℚ) {a b : Int} {s : AxisState}
    (ha : staticCastInt (fl (vMin - 1)) = some a)
    (hb : staticCastInt (fl (vMax + 1)) = some b)
    (hab : a ≤ b) (ha1 : -16777216 ≤ a) (hb1 : b ≤ 16777216) (h : StepInv a b s)
    (hc : 5 < Int.tdiv (s.boundMax - s.boundMin) s.tickStep) :
    ∃ s', increaseStep fl vMin vMax s = some s' ∧ StepInv a b s' ∧
      s'.tickStep = s.tickStep + 5 := by
  have hspan := span_gt_of_tooMany h hab hc
  obtain ⟨hs, hsmall, -, -⟩ := h
  refine ⟨⟨s.tickStep + 5, a - modulo a (s.tickStep + 5),
    b + (s.tickStep + 5 - modulo b (s.tickStep + 5))⟩, ?_,
    ⟨by show 0 < s.tickStep + 5; omega, by show 4 * (s.tickStep + 5) ≤ b - a + 20; omega,
      rfl, rfl⟩, rfl⟩
  simp only [increaseStep, toInt_of_range (x := s.tickStep + 5) (by omega) (by omega),
    Option.some_bind,
    lowerBoundFor_eq fl vMin (s.tickStep + 5) a ha (by omega) (by omega),
    upperBoundFor_eq fl vMax (s.tickStep + 5) b hb (by omega) (by omega) (by omega)]

/-- The first loop ends within the fuel once the fuel covers the padded span,
and it ends with the invariant and at most five ticks. -/
theorem stepLoop_finishes (fl : ℚ → ℚ) (vMin vMax : ℚ) {a b : Int}
    (ha : staticCastInt (fl (vMin - 1)) = some a)
    (hb : staticCastInt (fl (vMax + 1)) = some b)
    (hab : a ≤ b) (ha1 : -16777216 ≤ a) (hb1 : b ≤ 16777216) :
    ∀ (fuel : Nat) (s : AxisState), StepInv a b s → 5 ∣ s.tickStep →
      (b - a - 4 * s.tickStep).toNat ≤ fuel →
      ∃ s', stepLoop fl vMin vMax 5 fuel s = Run.done s' ∧ StepInv a b s' ∧
        5 ∣ s'.tickStep ∧ Int.tdiv (s'.boundMax - s'.boundMin) s'.tickStep ≤ 5 := by
  intro fuel
  induction fuel with
  | zero =>
    intro s hinv h5 hfuel
    have htc := stepInv_tickCount hinv hab ha1 hb1
    by_cases hc : Int.tdiv (s.boundMax - s.boundMin) s.tickStep > 5
    · have := span_gt_of_tooMany hinv hab hc
      omega
    · exact ⟨s, by simp only [stepLoop, htc, if_neg hc], hinv, h5, by omega⟩
  | succ n ih =>
    intro s hinv h5 hfuel
    have htc := stepInv_tickCount hinv hab ha1 hb1
    by_cases hc : Int.tdiv (s.boundMax - s.boundMin) s.tickStep > 5
    · have hspan := span_gt_of_tooMany hinv hab hc
      obtain ⟨s1, hstep, hinv1, hstep1⟩ :=
        increaseStep_of_stepInv fl vMin vMax ha hb hab ha1 hb1 hinv hc
      obtain ⟨s', hrun, hinv', h5', hcount⟩ := ih s1 hinv1
        (by rw [hstep1]; exact dvd_add h5 (dvd_refl 5)) (by rw [hstep1]; omega)
      exact ⟨s', by simp only [stepLoop, htc, if_pos hc, hstep, hrun], hinv', h5', hcount⟩
    · exact ⟨s, by simp only [stepLoop, htc, if_neg hc], hinv, h5, by omega⟩

theorem StepInv.widenInv {a b : Int} {s : AxisState} (h : StepInv a b s) (hab : a ≤ b)
    (hc : Int.tdiv (s.boundMax - s.boundMin) s.tickStep ≤ 5) : WidenInv a b s := by
  have hb := stepInv_bounds h
  obtain ⟨hs, hsmall, -, -⟩ := h
  have hiff := tdiv_gt_iff (s.boundMax - s.boundMin) s.tickStep 5 (by omega) hs
  have hnot : ¬ (5 + 1) * s.tickStep ≤ s.boundMax - s.boundMin := fun hcon => by
    have := hiff.mpr hcon
    omega
  exact ⟨hs, hsmall, hb.2.1, hb.2.2.1, by omega⟩

theorem widenInv_tickCount {a b : Int} {s : AxisState} (h : WidenInv a b s) (hab : a ≤ b)
    (ha1 : -16777216 ≤ a) (hb1 : b ≤ 16777216) :
    s.tickCount = some (Int.tdiv (s.boundMax - s.boundMin) s.tickStep) := by
  obtain ⟨hs, hsmall, hlo, hhi, hspan⟩ := h
  exact tickCount_eq s hs (by omega) (by omega)

theorem widenStep_of_widenInv (fl : ℚ → ℚ) (vMin vMax : ℚ) {a b : Int} {s : AxisState}
    (hab : a ≤ b) (ha1 : -16777216 ≤ a) (hb1 : b ≤ 16777216) (h : WidenInv a b s)
    (hc : Int.tdiv (s.boundMax - s.boundMin) s.tickStep < 5) :
    ∃ s', widenStep fl vMin vMax s = some s' ∧ WidenInv a b s' ∧
      s'.tickStep = s.tickStep ∧
      Int.tdiv (s'.boundMax - s'.boundMin) s'.tickStep
        = Int.tdiv (s.boundMax - s.boundMin) s.tickStep + 1 := by
  obtain ⟨hs, hsmall, hlo, hhi, hspan⟩ := h
  have hd : 0 ≤ s.boundMax - s.boundMin := by omega
  have hq := tdiv_add_step _ _ hd hs
  have hiff := tdiv_gt_iff (s.boundMax - s.boundMin) s.tickStep 4 hd hs
  have hfive : s.boundMax - s.boundMin < 5 * s.tickStep := by
    by_contra hcon
    have := hiff.mpr (by omega)
    omega
  unfold widenStep
  split
  · refine ⟨{ s with boundMin := s.boundMin - s.tickStep }, ?_, ⟨hs, hsmall, ?_, hhi, ?_⟩,
      rfl, ?_⟩
    · rw [toInt_of_range (by omega) (by omega)]
      rfl
    · show s.boundMin - s.tickStep ≤ a
      omega
    · show s.boundMax - (s.boundMin - s.tickStep) < 6 * s.tickStep
      omega
    · show Int.tdiv (s.boundMax - (s.boundMin - s.tickStep)) s.tickStep = _
      have : s.boundMax - (s.boundMin - s.tickStep) = s.boundMax - s.boundMin + s.tickStep := by
        ring
      rw [this, hq]
  · refine ⟨{ s with boundMax := s.boundMax + s.tickStep }, ?_, ⟨hs, hsmall, hlo, ?_, ?_⟩,
      rfl, ?_⟩
    · rw [toInt_of_range (by omega) (by omega)]
      rfl
    · show b < s.boundMax + s.tickStep
      omega
    · show s.boundMax + s.tickStep - s.boundMin < 6 * s.tickStep
      omega
    · show Int.tdiv (s.boundMax + s.tickStep - s.boundMin) s.tickStep = _
      have : s.boundMax + s.tickStep - s.boundMin = s.boundMax - s.boundMin + s.tickStep := by
        ring
      rw [this, hq]

/-- The second loop ends within the fuel once the fuel covers the missing ticks,
and it ends with exactly five ticks and the step it started with. -/
theorem widenLoop_finishes (fl : ℚ → ℚ) (vMin vMax : ℚ) {a b : Int}
    (hab : a ≤ b) (ha1 : -16777216 ≤ a) (hb1 : b ≤ 16777216) :
    ∀ (fuel : Nat) (s : AxisState), WidenInv a b s →
      Int.tdiv (s.boundMax - s.boundMin) s.tickStep ≤ 5 →
      (5 - Int.tdiv (s.boundMax - s.boundMin) s.tickStep).toNat ≤ fuel →
      ∃ s', widenLoop fl vMin vMax 5 fuel s = Run.done s' ∧ WidenInv a b s' ∧
        Int.tdiv (s'.boundMax - s'.boundMin) s'.tickStep = 5 ∧ s'.tickStep = s.tickStep := by
  intro fuel
  induction fuel with
  | zero =>
    intro s hinv hcount hfuel
    have htc := widenInv_tickCount hinv hab ha1 hb1
    have hc : ¬ Int.tdiv (s.boundMax - s.boundMin) s.tickStep < 5 := by omega
    exact ⟨s, by simp only [widenLoop, htc, if_neg hc], hinv, by omega, rfl⟩
  | succ n ih =>
    intro s hinv hcount hfuel
    have htc := widenInv_tickCount hinv hab ha1 hb1
    by_cases hc : Int.tdiv (s.boundMax - s.boundMin) s.tickStep < 5
    · obtain ⟨s1, hstep, hinv1, hstep1, hcnt⟩ :=
        widenStep_of_widenInv fl vMin vMax hab ha1 hb1 hinv hc
      obtain ⟨s', hrun, hinv', hfive, hstep'⟩ := ih s1 hinv1 (by omega) (by omega)
      exact ⟨s', by simp only [widenLoop, htc, if_pos hc, hstep, hrun], hinv', hfive,
        by rw [hstep', hstep1]⟩
    · exact ⟨s, by simp only [widenLoop, htc, if_neg hc], hinv, by omega, rfl⟩

/-- More fuel does not change the outcome of a finished first loop. -/
theorem stepLoop_more_fuel (fl : ℚ → ℚ) (vMin vMax : ℚ) (t : Int) :
    ∀ (fuel : Nat) (s s' : AxisState), stepLoop fl vMin vMax t fuel s = Run.done s' →
      ∀ k, stepLoop fl vMin vMax t (fuel + k) s = Run.done s' := by
  intro fuel
  induction fuel with
  | zero =>
    intro s s' h k
    cases htc : s.tickCount with
    | none => simp [stepLoop, htc] at h
    | some c =>
      by_cases hc : c > t
      · simp [stepLoop, htc, hc] at h
      · simp only [stepLoop, htc, if_neg hc] at h
        cases k with
        | zero => simp only [Nat.add_zero, stepLoop, htc, if_neg hc, h]
        | succ k => simp only [Nat.zero_add, stepLoop, htc, if_neg hc, h]
  | succ n ih =>
    intro s s' h k
    have hk : n + 1 + k = (n + k) + 1 := by omega
    rw [hk]
    cases htc : s.tickCount with
    | none => simp [stepLoop, htc] at h
    | some c =>
      by_cases hc : c > t
      · cases hst : increaseStep fl vMin vMax s with
        | none => simp [stepLoop, htc, hc, hst] at h
        | some s1 =>
          simp only [stepLoop, htc, if_pos hc, hst] at h ⊢
          exact ih _ _ h k
      · simp only [stepLoop, htc, if_neg hc] at h ⊢
        exact h

/-- More fuel does not change the outcome of a finished second loop. -/
theorem widenLoop_more_fuel (fl : ℚ → ℚ) (vMin vMax : ℚ) (t : Int) :
    ∀ (fuel : Nat) (s s' : AxisState), widenLoop fl vMin vMax t fuel s = Run.done s' →
      ∀ k, widenLoop fl vMin vMax t (fuel + k) s = Run.done s' := by
  intro fuel
  induction fuel with
  | zero =>
    intro s s' h k
    cases htc : s.tickCount with
    | none => simp [widenLoop, htc] at h
    | some c =>
      by_cases hc : c < t
      · simp [widenLoop, htc, hc] at h
      · simp only [widenLoop, htc, if_neg hc] at h
        cases k with
        | zero => simp only [Nat.add_zero, widenLoop, htc, if_neg hc, h]
        | succ k => simp only [Nat.zero_add, widenLoop, htc, if_neg hc, h]
  | succ n ih =>
    intro s s' h k
    have hk : n + 1 + k = (n + k) + 1 := by omega
    rw [hk]
    cases htc : s.tickCount with
    | none => simp [widenLoop, htc] at h
    | some c =>
      by_cases hc : c < t
      · cases hst : widenStep fl vMin vMax s with
        | none => simp [widenLoop, htc, hc, hst] at h
        | some s1 =>
          simp only [widenLoop, htc, if_pos hc, hst] at h ⊢
          exact ih _ _ h k
      · simp only [widenLoop, htc, if_neg hc] at h ⊢
        exact h

theorem gridInv_increaseStep (fl : ℚ → ℚ) (vMin vMax : ℚ) {s s' : AxisState} (h : GridInv s)
    (hstep : increaseStep fl vMin vMax s = some s') : GridInv s' := by
  obtain ⟨hs, h5, -, -⟩ := h
  simp only [increaseStep, lowerBoundFor, upperBoundFor, Option.bind_eq_some] at hstep
  obtain ⟨t, ht, lo, ⟨c, -, hlo⟩, hi, ⟨c2, -, d, hd, hhi⟩, hs'⟩ := hstep
  obtain ⟨ht1, -, -⟩ := toInt_eq_some ht
  obtain ⟨hlo1, -, -⟩ := toInt_eq_some hlo
  obtain ⟨hd1, -, -⟩ := toInt_eq_some hd
  obtain ⟨hhi1, -, -⟩ := toInt_eq_some hhi
  simp only [Option.some.injEq] at hs'
  subst hs'
  subst ht1
  refine ⟨by show 0 < s.tickStep + 5; omega, dvd_add h5 (dvd_refl 5), ?_, ?_⟩
  · show s.tickStep + 5 ∣ lo
    rw [hlo1]
    exact dvd_sub_modulo _ _
  · show s.tickStep + 5 ∣ hi
    rw [hhi1, hd1]
    exact dvd_add_step_sub_modulo _ _

theorem gridInv_widenStep (fl : ℚ → ℚ) (vMin vMax : ℚ) {s s' : AxisState} (h : GridInv s)
    (hstep : widenStep fl vMin vMax s = some s') : GridInv s' := by
  obtain ⟨hs, h5, hlo, hhi⟩ := h
  unfold widenStep at hstep
  split_ifs at hstep
  · simp only [Option.bind_eq_some, Option.some.injEq] at hstep
    obtain ⟨lo, hlo1, hs'⟩ := hstep
    obtain ⟨hlo2, -, -⟩ := toInt_eq_some hlo1
    subst hs'
    subst hlo2
    exact ⟨hs, h5, dvd_sub hlo (dvd_refl _), hhi⟩
  · simp only [Option.bind_eq_some, Option.some.injEq] at hstep
    obtain ⟨hi, hhi1, hs'⟩ := hstep
    obtain ⟨hhi2, -, -⟩ := toInt_eq_some hhi1
    subst hs'
    subst hhi2
    exact ⟨hs, h5, hlo, dvd_add hhi (dvd_refl _)⟩

theorem widenLoop_gridInv (fl : ℚ → ℚ) (vMin vMax : ℚ) (t : Int) :
    ∀ (fuel : Nat) (s s' : AxisState), widenLoop fl vMin vMax t fuel s = Run.done s' →
      GridInv s → GridInv s' := by
  intro fuel
  induction fuel with
  | zero =>
    intro s s' h hinv
    cases htc : s.tickCount with
    | none => simp [widenLoop, htc] at h
    | some c =>
      simp only [widenLoop, htc] at h
      split_ifs at h
      simp only [Run.done.injEq] at h
      exact h ▸ hinv
  | succ n ih =>
    intro s s' h hinv
    cases htc : s.tickCount with
    | none => simp [widenLoop, htc] at h
    | some c =>
      simp only [widenLoop, htc] at h
      split_ifs at h
      · cases hst : widenStep fl vMin vMax s with
        | none => simp [hst] at h
        | some s1 =>
          simp only [hst] at h
          exact ih _ _ h (gridInv_widenStep fl vMin vMax hinv hst)
      · simp only [Run.done.injEq] at h
        exact h ▸ hinv

/-- The converted extremes of samples between `-16777215` and `16777215`: both
conversions are defined, and they lie strictly outside the samples. -/
theorem castExtremes (fl : ℚ → ℚ) (hfl : RoundsLikeFloat fl) (vMin vMax : ℚ)
    (h1 : -16777215 ≤ vMin) (h2 : vMin ≤ vMax) (h3 : vMax ≤ 16777215) :
    ∃ a b : Int, staticCastInt (fl (vMin - 1)) = some a ∧
      staticCastInt (fl (vMax + 1)) = some b ∧ -16777216 ≤ a ∧ a ≤ b ∧ b ≤ 16777216 ∧
      (a : ℚ) < vMin ∧ vMax < (b : ℚ) := by
  obtain ⟨hmono, hint⟩ := hfl
  have hlow : (-16777216 : Int) ≤ castInt (fl (vMin - 1)) := by
    have h := castInt_mono (hmono ((-16777216 : Int) : ℚ) (vMin - 1) (by push_cast; linarith))
    rw [hint (-16777216) (by norm_num) (by norm_num), castInt_intCast] at h
    exact h
  have hhigh : castInt (fl (vMax + 1)) ≤ (16777216 : Int) := by
    have h := castInt_mono (hmono (vMax + 1) ((16777216 : Int) : ℚ) (by push_cast; linarith))
    rw [hint 16777216 (by norm_num) (by norm_num), castInt_intCast] at h
    exact h
  have hab : castInt (fl (vMin - 1)) ≤ castInt (fl (vMax + 1)) :=
    castInt_mono (hmono _ _ (by linarith))
  have hceil1 : ⌈vMin⌉ ≤ 16777215 := Int.ceil_le.mpr (by push_cast; linarith)
  have hceil2 : -16777215 ≤ ⌈vMin⌉ := by
    have h := Int.le_ceil vMin
    have : ((-16777215 : Int) : ℚ) ≤ (⌈vMin⌉ : ℚ) := by push_cast; linarith
    exact_mod_cast this
  have hfloor1 : -16777215 ≤ ⌊vMax⌋ := Int.le_floor.mpr (by push_cast; linarith)
  have hfloor2 : ⌊vMax⌋ ≤ 16777215 := by
    have h := Int.floor_le vMax
    have : (⌊vMax⌋ : ℚ) ≤ ((16777215 : Int) : ℚ) := by push_cast; linarith
    exact_mod_cast this
  have ha : castInt (fl (vMin - 1)) ≤ ⌈vMin⌉ - 1 := by
    have hle : vMin - 1 ≤ ((⌈vMin⌉ - 1 : Int) : ℚ) := by
      have := Int.le_ceil vMin
      push_cast
      linarith
    have h := castInt_mono (hmono _ _ hle)
    rw [hint (⌈vMin⌉ - 1) (by omega) (by omega), castInt_intCast] at h
    exact h
  have hb : ⌊vMax⌋ + 1 ≤ castInt (fl (vMax + 1)) := by
    have hle : ((⌊vMax⌋ + 1 : Int) : ℚ) ≤ vMax + 1 := by
      have := Int.floor_le vMax
      push_cast
      linarith
    have h := castInt_mono (hmono _ _ hle)
    rw [hint (⌊vMax⌋ + 1) (by omega) (by omega), castInt_intCast] at h
    exact h
  refine ⟨castInt (fl (vMin - 1)), castInt (fl (vMax + 1)),
    toInt_of_range (by omega) (by omega), toInt_of_range (by omega) (by omega),
    hlow, hab, hhigh, ?_, ?_⟩
  · have hq : (castInt (fl (vMin - 1)) : ℚ) ≤ ((⌈vMin⌉ - 1 : Int) : ℚ) := by exact_mod_cast ha
    have := Int.ceil_lt_add_one vMin
    push_cast at hq
    linarith
  · have hq : ((⌊vMax⌋ + 1 : Int) : ℚ) ≤ (castInt (fl (vMax + 1)) : ℚ) := by exact_mod_cast hb
    have := Int.lt_floor_add_one vMax
    push_cast at hq
    linarith

/-- Both loops end for every fuel from some `N` on, always in the same states:
the initial state `s0`, the state `s1` after the first loop and the state `s2`
after the second; `s2` has exactly five ticks and bounds outside the converted
extremes, and the three states are on the grid. -/
theorem yAxis_run (fl : ℚ → ℚ) (vMin vMax : ℚ) {a b : Int}
    (ha : staticCastInt (fl (vMin - 1)) = some a)
    (hb : staticCastInt (fl (vMax + 1)) = some b)
    (hab : a ≤ b) (ha1 : -16777216 ≤ a) (hb1 : b ≤ 16777216) :
    ∃ (N : Nat) (s0 s1 s2 : AxisState), axisInit fl vMin vMax 5 = some s0 ∧
      (∀ k, stepLoop fl vMin vMax 5 (N + k) s0 = Run.done s1) ∧
      (∀ k, widenLoop fl vMin vMax 5 (N + k) s1 = Run.done s2) ∧
      (∀ k, computeYAxis fl (N + k) vMin vMax = Run.done s2) ∧
      s2.boundMin ≤ a ∧ b < s2.boundMax ∧ s2.tickCount = some 5 ∧
      GridInv s0 ∧ GridInv s1 ∧ GridInv s2 := by
  have hinit : axisInit fl vMin vMax 5
      = some ⟨5, a - modulo a 5, b + (5 - modulo b 5)⟩ := by
    simp only [axisInit, lowerBoundFor_eq fl vMin 5 a ha (by norm_num) (by omega),
      upperBoundFor_eq fl vMax 5 b hb (by norm_num) (by norm_num) (by omega),
      Option.some_bind]
  have hinv0 : StepInv a b ⟨5, a - modulo a 5, b + (5 - modulo b 5)⟩ :=
    ⟨by norm_num, by show 4 * (5 : Int) ≤ b - a + 20; omega, rfl, rfl⟩
  obtain ⟨s1, hrun1, hinv1, h51, hcount1⟩ := stepLoop_finishes fl vMin vMax ha hb hab ha1 hb1
    (max 5 (b - a).toNat) _ hinv0 (dvd_refl 5) (by show (b - a - 4 * (5 : Int)).toNat ≤ _; omega)
  have hw1 := hinv1.widenInv hab hcount1
  have hnn : 0 ≤ Int.tdiv (s1.boundMax - s1.boundMin) s1.tickStep :=
    Int.tdiv_nonneg (by have := hw1.2.2.1; have := hw1.2.2.2.1; omega) (le_of_lt hw1.1)
  obtain ⟨s2, hrun2, hinv2, hfive, -⟩ := widenLoop_finishes fl vMin vMax hab ha1 hb1
    (max 5 (b - a).toNat) s1 hw1 hcount1 (by omega)
  have hg0 : GridInv ⟨5, a - modulo a 5, b + (5 - modulo b 5)⟩ :=
    stepInv_gridInv hinv0 (dvd_refl 5)
  have hg1 : GridInv s1 := stepInv_gridInv hinv1 h51
  have hg2 : GridInv s2 := widenLoop_gridInv fl vMin vMax 5 _ _ _ hrun2 hg1
  have htc := widenInv_tickCount hinv2 hab ha1 hb1
  rw [hfive] at htc
  refine ⟨max 5 (b - a).toNat, _, s1, s2, hinit,
    fun k => stepLoop_more_fuel fl vMin vMax 5 _ _ _ hrun1 k,
    fun k => widenLoop_more_fuel fl vMin vMax 5 _ _ _ hrun2 k, ?_,
    hinv2.2.2.1, hinv2.2.2.2.1, htc, hg0, hg1, hg2⟩
  intro k
  simp only [computeYAxis, hinit, stepLoop_more_fuel fl vMin vMax 5 _ _ _ hrun1 k]
  exact widenLoop_more_fuel fl vMin vMax 5 _ _ _ hrun2 k

/-! ### Sample scan -/

theorem foldl_min_le_foldl_max (l : List ℚ) :
    ∀ a b : ℚ, a ≤ b → l.foldl min a ≤ l.foldl max b := by
  induction l with
  | nil => intro a b h; simpa using h
  | cons x xs ih =>
    intro a b h
    simp only [List.foldl_cons]
    exact ih _ _ (le_trans (min_le_right a x) (le_max_right b x))

theorem seriesMin_le_seriesMax (first : ℚ) (rest : List ℚ) :
    seriesMin first rest ≤ seriesMax first rest :=
  foldl_min_le_foldl_max rest first first le_rfl

theorem foldl_min_le (l : List ℚ) : ∀ a x : ℚ, x = a ∨ x ∈ l → l.foldl min a ≤ x := by
  induction l with
  | nil => intro a x h; simp at h; simp [h]
  | cons y ys ih =>
    intro a x h
    simp only [List.foldl_cons]
    rcases h with h | h
    · exact le_trans (ih (min a y) (min a y) (Or.inl rfl)) (h ▸ min_le_left a y)
    · rcases List.mem_cons.mp h with h | h
      · exact le_trans (ih (min a y) (min a y) (Or.inl rfl)) (h ▸ min_le_right a y)
      · exact ih _ _ (Or.inr h)

theorem le_foldl_max (l : List ℚ) : ∀ a x : ℚ, x = a ∨ x ∈ l → x ≤ l.foldl max a := by
  induction l with
  | nil => intro a x h; simp at h; simp [h]
  | cons y ys ih =>
    intro a x h
    simp only [List.foldl_cons]
    rcases h with h | h
    · exact le_trans (h ▸ le_max_left a y) (ih (max a y) (max a y) (Or.inl rfl))
    · rcases List.mem_cons.mp h with h | h
      · exact le_trans (h ▸ le_max_right a y) (ih (max a y) (max a y) (Or.inl rfl))
      · exact ih _ _ (Or.inr h)

/-- Every sample lies between the scanned minimum and maximum. -/
theorem seriesMin_le_sample (first : ℚ) (rest : List ℚ) (x : ℚ) (hx : x ∈ first :: rest) :
    seriesMin first rest ≤ x ∧ x ≤ seriesMax first rest := by
  have h : x = first ∨ x ∈ rest := List.mem_cons.mp hx
  exact ⟨foldl_min_le rest first x h, le_foldl_max rest first x h⟩

theorem le_foldl_min (c : ℚ) (l : List ℚ) :
    ∀ a : ℚ, c ≤ a → (∀ x ∈ l, c ≤ x) → c ≤ l.foldl min a := by
  induction l with
  | nil => intro a h _; simpa using h
  | cons y ys ih =>
    intro a h hall
    simp only [List.foldl_cons]
    exact ih _ (le_min h (hall y (List.mem_cons_self y ys)))
      (fun x hx => hall x (List.mem_cons_of_mem y hx))

theorem foldl_max_le (c : ℚ) (l : List ℚ) :
    ∀ a : ℚ, a ≤ c → (∀ x ∈ l, x ≤ c) → l.foldl max a ≤ c := by
  induction l with
  | nil => intro a h _; simpa using h
  | cons y ys ih =>
    intro a h hall
    simp only [List.foldl_cons]
    exact ih _ (max_le h (hall y (List.mem_cons_self y ys)))
      (fun x hx => hall x (List.mem_cons_of_mem y hx))

/-! ### Claims on the y-axis -/

theorem staticCastInt_intCast (n : Int) : staticCastInt (n : ℚ) = toInt n := by
  rw [staticCastInt, castInt_intCast]

theorem computeYAxis_of_axisInit_none (fl : ℚ → ℚ) (fuel : Nat) (vMin vMax : ℚ)
    (h : axisInit fl vMin vMax 5 = none) : computeYAxis fl fuel vMin vMax = Run.undefined := by
  simp only [computeYAxis, h]

theorem stepLoop_of_tickCount_none (fl : ℚ → ℚ) (vMin vMax : ℚ) (t : Int) (fuel : Nat)
    (s : AxisState) (h : s.tickCount = none) :
    stepLoop fl vMin vMax t fuel s = Run.undefined := by
  cases fuel with
  | zero => simp only [stepLoop, h]
  | succ n => simp only [stepLoop, h]

/-- C1 (as stated, fails): for the one-sample series `3e9` the sum
`tempMax + 1` rounds to the `float` `3e9`, whose conversion to `int` is
undefined, so the computation yields no bounds, whatever the fuel. -/
theorem computeYAxis_no_bounds_at_3e9 :
    staticCastInt 3000000000 = none ∧
      ∀ (fl : ℚ → ℚ) (fuel : Nat), fl ((3000000000 : ℚ) + 1) = 3000000000 →
        computeYAxis fl fuel (seriesMin 3000000000 []) (seriesMax 3000000000 [])
          = Run.undefined := by
  have hcast : staticCastInt 3000000000 = none := by
    have h := staticCastInt_intCast 3000000000
    rw [toInt_of_gt (by norm_num)] at h
    exact_mod_cast h
  refine ⟨hcast, ?_⟩
  intro fl fuel hfl
  apply computeYAxis_of_axisInit_none
  have hup : upperBoundFor fl (seriesMax 3000000000 []) 5 = none := by
    simp only [seriesMax, List.foldl_nil, upperBoundFor, hfl, hcast, Option.none_bind]
  simp only [axisInit, hup]
  cases lowerBoundFor fl (seriesMin 3000000000 []) 5 <;> rfl

/-- C1 (amended): for every non-empty sample series (a first sample and the
rest) whose samples lie between `-16777215` and `16777215` (`2^24 - 1`, up to
which `float` holds every integer), the y-axis computation with initial tick
step 5 and target 5 ticks, applied to the scanned minimum and
maximum, finishes (for every fuel from some `N` on, in one and the same state)
with `boundMin <= vMin` and `boundMax >= vMax`. -/
theorem computeYAxis_encloses_series (fl : ℚ → ℚ) (hfl : RoundsLikeFloat fl) (first : ℚ)
    (rest : List ℚ) (hrange : ∀ x ∈ first :: rest, -16777215 ≤ x ∧ x ≤ 16777215) :
    ∃ (N : Nat) (s : AxisState),
      (∀ k, computeYAxis fl (N + k) (seriesMin first rest) (seriesMax first rest)
        = Run.done s) ∧
      (s.boundMin : ℚ) ≤ seriesMin first rest ∧
      seriesMax first rest ≤ (s.boundMax : ℚ) := by
  have hfirst := hrange first (List.mem_cons_self first rest)
  have hrest : ∀ x ∈ rest, -16777215 ≤ x ∧ x ≤ 16777215 :=
    fun x hx => hrange x (List.mem_cons_of_mem first hx)
  have hmin : -16777215 ≤ seriesMin first rest :=
    le_foldl_min _ rest first hfirst.1 (fun x hx => (hrest x hx).1)
  have hmax : seriesMax first rest ≤ 16777215 :=
    foldl_max_le _ rest first hfirst.2 (fun x hx => (hrest x hx).2)
  obtain ⟨a, b, ha, hb, ha1, hab, hb1, halt, hblt⟩ :=
    castExtremes fl hfl _ _ hmin (seriesMin_le_seriesMax first rest) hmax
  obtain ⟨N, s0, s1, s2, -, -, -, hrun, hlo, hhi, -, -, -, -⟩ :=
    yAxis_run fl _ _ ha hb hab ha1 hb1
  refine ⟨N, s2, hrun, ?_, ?_⟩
  · have h2 : (s2.boundMin : ℚ) ≤ (a : ℚ) := by exact_mod_cast hlo
    linarith
  · have h2 : (b : ℚ) < (s2.boundMax : ℚ) := by exact_mod_cast hhi
    linarith

/-- Witness for C1 (amended) at the series 3, 7, -2 with exact rounding. -/
theorem computeYAxis_encloses_series_witness :
    RoundsLikeFloat (fun x => x) ∧
      (∀ x ∈ ((3 : ℚ) :: [7, -2]), -16777215 ≤ x ∧ x ≤ 16777215) ∧
      ∃ (N : Nat) (s : AxisState),
        (∀ k, computeYAxis (fun x => x) (N + k) (seriesMin 3 [7, -2]) (seriesMax 3 [7, -2])
          = Run.done s) ∧
        (s.boundMin : ℚ) ≤ seriesMin 3 [7, -2] ∧ seriesMax 3 [7, -2] ≤ (s.boundMax : ℚ) :=
  ⟨⟨fun _ _ h => h, fun _ _ _ => rfl⟩, by
    intro x hx
    simp only [List.mem_cons, List.mem_singleton, List.not_mem_nil, or_false] at hx
    rcases hx with h | h | h <;> rw [h] <;> norm_num,
    computeYAxis_encloses_series (fun x => x) ⟨fun _ _ h => h, fun _ _ _ => rfl⟩ 3 [7, -2] (by
      intro x hx
      simp only [List.mem_cons, List.mem_singleton, List.not_mem_nil, or_false] at hx
      rcases hx with h | h | h <;> rw [h] <;> norm_num)⟩

/-- C2 (as stated, fails): for `vMin = -1.5e9 <= vMax = 1.5e9` the sums
`vMin - 1` and `vMax + 1` round to the samples themselves, the initial bounds
are `-1500000000` and `1500000005`, and their difference does not fit `int`: the
tick count is undefined at the first test of the first loop. -/
theorem computeYAxis_tickCount_undefined_for_wide_span :
    (-1500000000 : ℚ) ≤ 1500000000 ∧
      (⟨5, -1500000000, 1500000005⟩ : AxisState).tickCount = none ∧
      ∀ (fl : ℚ → ℚ) (fuel : Nat), fl ((-1500000000 : ℚ) - 1) = -1500000000 →
        fl ((1500000000 : ℚ) + 1) = 1500000000 →
        computeYAxis fl fuel (-1500000000) 1500000000 = Run.undefined := by
  have htc : (⟨5, -1500000000, 1500000005⟩ : AxisState).tickCount = none := by decide
  refine ⟨by norm_num, htc, ?_⟩
  intro fl fuel h1 h2
  have ha : staticCastInt (fl ((-1500000000 : ℚ) - 1)) = some (-1500000000) := by
    rw [h1]
    have h := staticCastInt_intCast (-1500000000)
    rw [toInt_of_range (by norm_num) (by norm_num)] at h
    exact_mod_cast h
  have hb : staticCastInt (fl ((1500000000 : ℚ) + 1)) = some 1500000000 := by
    rw [h2]
    have h := staticCastInt_intCast 1500000000
    rw [toInt_of_range (by norm_num) (by norm_num)] at h
    exact_mod_cast h
  have hinit : axisInit fl (-1500000000) 1500000000 5
      = some ⟨5, -1500000000, 1500000005⟩ := by
    simp only [axisInit, lowerBoundFor_eq fl _ 5 _ ha (by norm_num) (by norm_num),
      upperBoundFor_eq fl _ 5 _ hb (by norm_num) (by norm_num) (by norm_num),
      Option.some_bind]
    rfl
  simp only [computeYAxis, hinit, stepLoop_of_tickCount_none fl _ _ 5 fuel _ htc]

/-- C2 (amended): for every `vMin <= vMax` between `-16777215` and `16777215`
(`2^24 - 1`), both adjustment loops finish (for every fuel from some `N` on, in one and the same
state) and the final tick count `(boundMax - boundMin) / tickStep` (C++ integer
division) is exactly 5. -/
theorem computeYAxis_tickCount_eq_five (fl : ℚ → ℚ) (hfl : RoundsLikeFloat fl)
    (vMin vMax : ℚ) (hlo : -16777215 ≤ vMin) (hle : vMin ≤ vMax) (hhi : vMax ≤ 16777215) :
    ∃ (N : Nat) (s : AxisState),
      (∀ k, computeYAxis fl (N + k) vMin vMax = Run.done s) ∧ s.tickCount = some 5 := by
  obtain ⟨a, b, ha, hb, ha1, hab, hb1, -, -⟩ := castExtremes fl hfl vMin vMax hlo hle hhi
  obtain ⟨N, s0, s1, s2, -, -, -, hrun, -, -, hfive, -, -, -⟩ :=
    yAxis_run fl vMin vMax ha hb hab ha1 hb1
  exact ⟨N, s2, hrun, hfive⟩

/-- Witness for C2 (amended) at `vMin = 3`, `vMax = 7` with exact rounding. -/
theorem computeYAxis_tickCount_eq_five_witness :
    RoundsLikeFloat (fun x => x) ∧ (-16777215 : ℚ) ≤ 3 ∧ (3 : ℚ) ≤ 7 ∧ (7 : ℚ) ≤ 16777215 ∧
      ∃ (N : Nat) (s : AxisState),
        (∀ k, computeYAxis (fun x => x) (N + k) 3 7 = Run.done s) ∧ s.tickCount = some 5 :=
  ⟨⟨fun _ _ h => h, fun _ _ _ => rfl⟩, by norm_num, by norm_num, by norm_num,
    computeYAxis_tickCount_eq_five (fun x => x) ⟨fun _ _ h => h, fun _ _ _ => rfl⟩ 3 7
      (by norm_num) (by norm_num) (by norm_num)⟩

/-! ### Text layout -/

/-- The lines drawn from line index `currentLine` on fit in the remaining budget. -/
theorem wrapLoop_length_le (measure : Str → Nat) (maxWidth maxLines innerFuel : Nat) :
    ∀ (fuel currentLine : Nat) (textRemaining : Str),
      (wrapLoop measure maxWidth maxLines innerFuel fuel currentLine textRemaining).lines.length
        ≤ maxLines - currentLine := by
  intro fuel
  induction fuel with
  | zero =>
    intro cl t
    unfold wrapLoop
    split <;> simp
  | succ n ih =>
    intro cl t
    unfold wrapLoop
    split
    · rename_i hc
      split
      · simp
      · rename_i s hrun
        have := ih (cl + 1) (substringFrom t (toUnsigned (s.endIndex + 2 - s.keepLastChar)))
        simp only [List.length_cons]
        omega
    · simp

/-- A state that the loop body maps to itself while the loop condition holds
is never left, whatever the fuel. -/
theorem shrinkLoop_stuck (measure : Str → Nat) (maxWidth maxLines currentLine : Nat)
    (s : ShrinkState) (hcond : s.w > maxWidth ∧ s.splitAt ≠ -1)
    (hfix : shrinkBody measure maxWidth maxLines currentLine s = s) :
    ∀ fuel, shrinkLoop measure maxWidth maxLines currentLine fuel s = none := by
  intro fuel
  induction fuel with
  | zero => simp [shrinkLoop, hcond]
  | succ n ih =>
    rw [shrinkLoop, if_pos hcond, hfix]
    exact ih

/-- When the first pass of the inner loop on the first line reaches a state
that the body maps to itself with the loop condition still true, the call
draws nothing and never returns. -/
theorem drawMultiLnString_hangs (measure : Str → Nat) (text : Str) (maxWidth maxLines : Nat)
    (hlines : 0 < maxLines) (htext : text ≠ [])
    (hwide : measure text > maxWidth)
    (hcond : (shrinkBody measure maxWidth maxLines 0 (lineInit measure text)).w > maxWidth ∧
      (shrinkBody measure maxWidth maxLines 0 (lineInit measure text)).splitAt ≠ -1)
    (hfix : shrinkBody measure maxWidth maxLines 0
        (shrinkBody measure maxWidth maxLines 0 (lineInit measure text))
      = shrinkBody measure maxWidth maxLines 0 (lineInit measure text)) :
    ∀ fuel, drawMultiLnString fuel measure text maxWidth maxLines = ⟨[], false⟩ := by
  intro fuel
  have hinit : (lineInit measure text).w > maxWidth ∧ (lineInit measure text).splitAt ≠ -1 :=
    ⟨hwide, by simp [lineInit]⟩
  cases fuel with
  | zero => simp [drawMultiLnString, wrapLoop, hlines, htext]
  | succ n =>
    have hrun : shrinkLoop measure maxWidth maxLines 0 (n + 1) (lineInit measure text) = none := by
      rw [shrinkLoop, if_pos hinit]
      exact shrinkLoop_stuck measure maxWidth maxLines 0 _ hcond hfix n
    simp [drawMultiLnString, wrapLoop, hlines, htext, hrun]

theorem ellipsisInv_shrinkBody (measure : Str → Nat) (maxWidth maxLines currentLine : Nat)
    (hline : currentLine < maxLines) (s : ShrinkState)
    (hinv : EllipsisInv measure maxWidth maxLines currentLine s)
    (hcond : s.w > maxWidth ∧ s.splitAt ≠ -1) :
    EllipsisInv measure maxWidth maxLines currentLine
      (shrinkBody measure maxWidth maxLines currentLine s) := by
  have hfalse : s.ellipsis = false := by
    cases he : s.ellipsis with
    | false => rfl
    | true =>
      have := (hinv he).2.2.1
      omega
  unfold shrinkBody
  lift_lets
  intro sub1 split1 split2 cr2 sub2 end2 lastChar keep3 sub3 end3
  unfold EllipsisInv
  split_ifs with h1 h2 h3
  · intro h
    simp [hfalse] at h
  · intro _
    exact ⟨by omega, h3, h3, sub3, rfl⟩
  · intro h
    simp [hfalse] at h
  · intro h
    simp [hfalse] at h

theorem ellipsisInv_shrinkLoop (measure : Str → Nat) (maxWidth maxLines currentLine : Nat)
    (hline : currentLine < maxLines) :
    ∀ (fuel : Nat) (s s' : ShrinkState), EllipsisInv measure maxWidth maxLines currentLine s →
      shrinkLoop measure maxWidth maxLines currentLine fuel s = some s' →
      EllipsisInv measure maxWidth maxLines currentLine s' := by
  intro fuel
  induction fuel with
  | zero =>
    intro s s' hinv h
    unfold shrinkLoop at h
    split at h
    · simp at h
    · simp only [Option.some.injEq] at h
      exact h ▸ hinv
  | succ n ih =>
    intro s s' hinv h
    unfold shrinkLoop at h
    split at h
    · rename_i hc
      exact ih _ _ (ellipsisInv_shrinkBody measure maxWidth maxLines currentLine hline s hinv hc) h
    · simp only [Option.some.injEq] at h
      exact h ▸ hinv

theorem wrapLoop_ellipsis (measure : Str → Nat) (maxWidth maxLines innerFuel : Nat) :
    ∀ (fuel currentLine : Nat) (textRemaining : Str) (d : DrawnLine),
      d ∈ (wrapLoop measure maxWidth maxLines innerFuel fuel currentLine textRemaining).lines →
      d.ellipsis = true →
      d.line + 1 = maxLines ∧ measure d.text ≤ maxWidth ∧ ∃ p, d.text = p ++ ellipsisMark := by
  intro fuel
  induction fuel with
  | zero =>
    intro cl t d hd
    unfold wrapLoop at hd
    split at hd <;> simp at hd
  | succ n ih =>
    intro cl t d hd he
    unfold wrapLoop at hd
    split at hd
    · rename_i hc
      split at hd
      · simp at hd
      · rename_i s hrun
        simp only [List.mem_cons] at hd
        rcases hd with hd | hd
        · have hinv := ellipsisInv_shrinkLoop measure maxWidth maxLines cl hc.1 innerFuel _ s
            (by intro h; simp [lineInit] at h) hrun
          subst hd
          obtain ⟨h1, h2, -, h4⟩ := hinv he
          exact ⟨h1, h2, h4⟩
        · exact ih _ _ d hd he
    · simp at hd

/-! ### Claims on drawMultiLnString -/

/-- C3: for every text, width, line budget and measurement function (and every
fuel, hence at every point of a run) drawMultiLnString has drawn at most
`maxLines` lines; with `maxLines = 0` it returns having drawn none. -/
theorem drawMultiLnString_at_most_maxLines (fuel : Nat) (measure : Str → Nat) (text : Str)
    (maxWidth maxLines : Nat) :
    (drawMultiLnString fuel measure text maxWidth maxLines).lines.length ≤ maxLines ∧
      drawMultiLnString fuel measure text maxWidth 0 = ⟨[], true⟩ := by
  constructor
  · have := wrapLoop_length_le measure maxWidth maxLines fuel fuel 0 text
    simpa [drawMultiLnString] using this
  · cases fuel <;> simp [drawMultiLnString, wrapLoop]

/-- C4 (fails on the code): with the width of a string equal to its length,
the text "aaa bbb ccc", `max_width = 5` and `max_lines = 3`, the inner loop
never ends: for every fuel the call is unfinished. -/
theorem drawMultiLnString_inner_loop_diverges :
    ∀ fuel, (drawMultiLnString fuel List.length
      ['a', 'a', 'a', ' ', 'b', 'b', 'b', ' ', 'c', 'c', 'c'] 5 3).finished = false := by
  intro fuel
  rw [drawMultiLnString_hangs List.length _ 5 3 (by decide) (by decide) (by decide)
    (by decide) (by decide) fuel]

/-- C5 (fails on the code): with the width of a string equal to its length,
the text "hello world", `max_width = 8` and `max_lines = 2`, the prefix
"hello" ends at a space and fits, yet no line is ever drawn, whatever the fuel. -/
theorem drawMultiLnString_no_break_at_space :
    ∀ fuel, (drawMultiLnString fuel List.length
      ['h', 'e', 'l', 'l', 'o', ' ', 'w', 'o', 'r', 'l', 'd'] 8 2).lines = [] := by
  intro fuel
  rw [drawMultiLnString_hangs List.length _ 8 2 (by decide) (by decide) (by decide)
    (by decide) (by decide) fuel]

/-- C6 (fails on the code): with the width of a string equal to its length,
the unbroken token "abcdefgh", `max_width = 3` and `max_lines = 1`, the token
is never drawn: for every fuel the call is unfinished with no line drawn. -/
theorem drawMultiLnString_unbroken_token_hangs :
    ∀ fuel, drawMultiLnString fuel List.length
      ['a', 'b', 'c', 'd', 'e', 'f', 'g', 'h'] 3 1 = ⟨[], false⟩ :=
  drawMultiLnString_hangs List.length _ 3 1 (by decide) (by decide) (by decide)
    (by decide) (by decide)

/-- C7: every line that drawMultiLnString draws with the ellipsis appended is
the line of index `maxLines - 1`, its measured width (ellipsis included) is at
most `maxWidth`, and its text ends with "...". -/
theorem drawMultiLnString_ellipsis_last_line_fits (fuel : Nat) (measure : Str → Nat)
    (text : Str) (maxWidth maxLines : Nat) (d : DrawnLine)
    (hd : d ∈ (drawMultiLnString fuel measure text maxWidth maxLines).lines)
    (he : d.ellipsis = true) :
    d.line + 1 = maxLines ∧ measure d.text ≤ maxWidth ∧ ∃ p, d.text = p ++ ellipsisMark :=
  wrapLoop_ellipsis measure maxWidth maxLines fuel fuel 0 text d hd he

/-- Witness for C7: "ab<cdefgh" with width 5 and one line draws "ab...". -/
theorem drawMultiLnString_ellipsis_last_line_fits_witness :
    (⟨0, ['a', 'b', '.', '.', '.'], true⟩ : DrawnLine) ∈
        (drawMultiLnString 2 List.length ['a', 'b', '<', 'c', 'd', 'e', 'f', 'g', 'h'] 5 1).lines ∧
      (0 + 1 = 1 ∧ List.length ['a', 'b', '.', '.', '.'] ≤ 5 ∧
        ∃ p, ['a', 'b', '.', '.', '.'] = p ++ ellipsisMark) :=
  ⟨by decide,
    drawMultiLnString_ellipsis_last_line_fits 2 List.length
      ['a', 'b', '<', 'c', 'd', 'e', 'f', 'g', 'h'] 5 1 ⟨0, ['a', 'b', '.', '.', '.'], true⟩
      (by decide) rfl⟩

/-- C8: for every width, line budget, measurement function and fuel,
drawMultiLnString applied to the empty string returns having drawn no line. -/
theorem drawMultiLnString_empty (fuel : Nat) (measure : Str → Nat) (maxWidth maxLines : Nat) :
    drawMultiLnString fuel measure [] maxWidth maxLines = ⟨[], true⟩ := by
  cases fuel <;> simp [drawMultiLnString, wrapLoop]

/-! ### Claims on the condition classifier -/

/-- C9: for every integer condition code outside the known enumeration
(negative and very large codes included), every value of the four boolean
signals and every bitmap size, getConditionsBitmap returns the not-available
pictogram `wi_na`. -/
theorem getConditionsBitmap_unknown_code {β : Type} (getBitmap : Icon → Nat → β)
    (bitmapSize : Nat) (id : Int) (day moon cloudy windy : Bool)
    (h : id ∉ knownConditionCodes) :
    getConditionsBitmap getBitmap bitmapSize id day moon cloudy windy
      = getBitmap Icon.wi_na bitmapSize := by
  simp only [knownConditionCodes, List.mem_cons, List.mem_singleton, List.not_mem_nil,
    not_or, or_false] at h
  obtain ⟨h0, h1, h2, h3, h45, h48, h51, h53, h55, h56, h57, h61, h63, h65, h66, h67, h71,
    h73, h75, h77, h80, h81, h82, h85, h86, h95, h96, h99⟩ := h
  simp only [getConditionsBitmap, h0, h1, h2, h3, h45, h48, h51, h53, h55, h56, h57, h61, h63,
    h65, h66, h67, h71, h73, h75, h77, h80, h81, h82, h85, h86, h95, h96, h99, if_false]

/-- Witness for C9 at the negative code `-1`. -/
theorem getConditionsBitmap_unknown_code_witness :
    (-1 : Int) ∉ knownConditionCodes ∧
      getConditionsBitmap (fun icon size => (icon, size)) 196 (-1) true false true false
        = (Icon.wi_na, 196) :=
  ⟨by decide,
    getConditionsBitmap_unknown_code (fun icon size => (icon, size)) 196 (-1)
      true false true false (by decide)⟩

/-- C10: isMoonInSky is true exactly when the current time is in
`[moonrise, moonset)`, or moonrise is after moonset and the current time is at
or after moonrise, and the phase is neither 0 nor 1; it is false whenever the
phase is exactly 0 or exactly 1. -/
theorem isMoonInSky_iff (current_dt moonrise_dt moonset_dt : Int) (moon_phase : ℚ) :
    (isMoonInSky current_dt moonrise_dt moonset_dt moon_phase = true ↔
        ((current_dt ≥ moonrise_dt ∧ current_dt < moonset_dt) ∨
          (moonrise_dt > moonset_dt ∧ current_dt ≥ moonrise_dt)) ∧
        moon_phase ≠ 0 ∧ moon_phase ≠ 1) ∧
      isMoonInSky current_dt moonrise_dt moonset_dt 0 = false ∧
      isMoonInSky current_dt moonrise_dt moonset_dt 1 = false := by
  refine ⟨?_, ?_, ?_⟩
  · simp [isMoonInSky]
  · simp [isMoonInSky]
  · simp [isMoonInSky]

/-! ### Claims on the adjustment loops and the initial bounds -/

/-- C11 (as stated, fails): for `vMin = -2e9 <= vMax = 2e9` the sums `vMin - 1`
and `vMax + 1` round to the samples themselves, the initial state has the
bounds `-2000000000` and `2000000005`, and the test of the first loop subtracts
them on `int`: the difference does not fit, so the run of the first loop is
undefined whatever the fuel, and the second loop is never reached. -/
theorem stepLoop_undefined_for_wide_span :
    (-2000000000 : ℚ) ≤ 2000000000 ∧
      (∀ fl : ℚ → ℚ, fl ((-2000000000 : ℚ) - 1) = -2000000000 →
        fl ((2000000000 : ℚ) + 1) = 2000000000 →
        axisInit fl (-2000000000) 2000000000 5 = some ⟨5, -2000000000, 2000000005⟩) ∧
      ∀ (fl : ℚ → ℚ) (fuel : Nat),
        stepLoop fl (-2000000000) 2000000000 5 fuel ⟨5, -2000000000, 2000000005⟩
          = Run.undefined := by
  have htc : (⟨5, -2000000000, 2000000005⟩ : AxisState).tickCount = none := by decide
  refine ⟨by norm_num, ?_, fun fl fuel => stepLoop_of_tickCount_none fl _ _ 5 fuel _ htc⟩
  intro fl h1 h2
  have ha : staticCastInt (fl ((-2000000000 : ℚ) - 1)) = some (-2000000000) := by
    rw [h1]
    have h := staticCastInt_intCast (-2000000000)
    rw [toInt_of_range (by norm_num) (by norm_num)] at h
    exact_mod_cast h
  have hb : staticCastInt (fl ((2000000000 : ℚ) + 1)) = some 2000000000 := by
    rw [h2]
    have h := staticCastInt_intCast 2000000000
    rw [toInt_of_range (by norm_num) (by norm_num)] at h
    exact_mod_cast h
  simp only [axisInit, lowerBoundFor_eq fl _ 5 _ ha (by norm_num) (by norm_num),
    upperBoundFor_eq fl _ 5 _ hb (by norm_num) (by norm_num) (by norm_num),
    Option.some_bind]
  rfl

/-- C11 (amended): for every `vMin <= vMax` between `-16777215` and `16777215`
(`2^24 - 1`) the initial bounds with step 5 are defined, the first adjustment loop, started from
them, ends in a state `s1`, and the second loop, started from `s1`, ends in a
state `s2`, for every fuel from some `N` on. -/
theorem yAxis_loops_terminate (fl : ℚ → ℚ) (hfl : RoundsLikeFloat fl) (vMin vMax : ℚ)
    (hlo : -16777215 ≤ vMin) (hle : vMin ≤ vMax) (hhi : vMax ≤ 16777215) :
    ∃ (N : Nat) (s0 s1 s2 : AxisState), axisInit fl vMin vMax 5 = some s0 ∧ ∀ k,
      stepLoop fl vMin vMax 5 (N + k) s0 = Run.done s1 ∧
      widenLoop fl vMin vMax 5 (N + k) s1 = Run.done s2 := by
  obtain ⟨a, b, ha, hb, ha1, hab, hb1, -, -⟩ := castExtremes fl hfl vMin vMax hlo hle hhi
  obtain ⟨N, s0, s1, s2, hinit, hrun1, hrun2, -⟩ := yAxis_run fl vMin vMax ha hb hab ha1 hb1
  exact ⟨N, s0, s1, s2, hinit, fun k => ⟨hrun1 k, hrun2 k⟩⟩

/-- Witness for C11 (amended) at `vMin = -2`, `vMax = 31` with exact rounding. -/
theorem yAxis_loops_terminate_witness :
    RoundsLikeFloat (fun x => x) ∧ (-16777215 : ℚ) ≤ -2 ∧ (-2 : ℚ) ≤ 31 ∧
      (31 : ℚ) ≤ 16777215 ∧
      ∃ (N : Nat) (s0 s1 s2 : AxisState), axisInit (fun x => x) (-2) 31 5 = some s0 ∧ ∀ k,
        stepLoop (fun x => x) (-2) 31 5 (N + k) s0 = Run.done s1 ∧
        widenLoop (fun x => x) (-2) 31 5 (N + k) s1 = Run.done s2 :=
  ⟨⟨fun _ _ h => h, fun _ _ _ => rfl⟩, by norm_num, by norm_num, by norm_num,
    yAxis_loops_terminate (fun x => x) ⟨fun _ _ h => h, fun _ _ _ => rfl⟩ (-2) 31
      (by norm_num) (by norm_num) (by norm_num)⟩

/-- C12 (as stated, fails): with `vMin = 0 <= vMax = 4` and step 5, for every
rounding that is exact on the small integers, `int(vMax + 1) = 5` is itself a
multiple of 5, yet the initial upper bound is 10: it is not the least multiple
of 5 that is `>= int(vMax + 1)`. -/
theorem axisInit_upper_not_least_ge :
    (0 : ℚ) ≤ 4 ∧ (0 : Int) < 5 ∧
      ∀ fl : ℚ → ℚ, RoundsLikeFloat fl →
        staticCastInt (fl ((4 : ℚ) + 1)) = some 5 ∧
        axisInit fl 0 4 5 = some ⟨5, -5, 10⟩ ∧
        ¬ ((5 : Int) ∣ 10 ∧ (5 : Int) ≤ 10 ∧ ∀ m : Int, 5 ∣ m → 5 ≤ m → 10 ≤ m) := by
  refine ⟨by norm_num, by norm_num, ?_⟩
  intro fl hfl
  have hb : staticCastInt (fl ((4 : ℚ) + 1)) = some 5 := by
    have h4 : ((4 : ℚ) + 1) = ((5 : Int) : ℚ) := by norm_num
    rw [h4, hfl.2 5 (by norm_num) (by norm_num), staticCastInt_intCast]
    rfl
  have ha : staticCastInt (fl ((0 : ℚ) - 1)) = some (-1) := by
    have h0 : ((0 : ℚ) - 1) = ((-1 : Int) : ℚ) := by norm_num
    rw [h0, hfl.2 (-1) (by norm_num) (by norm_num), staticCastInt_intCast]
    rfl
  refine ⟨hb, ?_, ?_⟩
  · simp only [axisInit, lowerBoundFor_eq fl _ 5 _ ha (by norm_num) (by norm_num),
      upperBoundFor_eq fl _ 5 _ hb (by norm_num) (by norm_num) (by norm_num),
      Option.some_bind]
    rfl
  · rintro ⟨-, -, h⟩
    have := h 5 (dvd_refl 5) (le_refl 5)
    omega

/-- C12 (amended): for every tick step `s > 0`, when the conversions
`a = int(vMin - 1)` and `b = int(vMax + 1)` of the rounded `float` values are
defined and `a - s` and `b + s` still fit `int`, the initial bounds are defined,
the lower bound is the greatest multiple of `s` that is `<= a`, and the upper
bound is the least multiple of `s` that is strictly greater than `b`. -/
theorem axisInit_bounds_are_multiples (fl : ℚ → ℚ) (vMin vMax : ℚ) (s a b : Int)
    (hs : 0 < s) (hs2 : s ≤ 2147483647)
    (ha : staticCastInt (fl (vMin - 1)) = some a)
    (hb : staticCastInt (fl (vMax + 1)) = some b)
    (hlow : -2147483648 ≤ a - s) (hhigh : b + s ≤ 2147483647) :
    ∃ st : AxisState, axisInit fl vMin vMax s = some st ∧ st.tickStep = s ∧
      (s ∣ st.boundMin ∧ st.boundMin ≤ a ∧ ∀ m : Int, s ∣ m → m ≤ a → m ≤ st.boundMin) ∧
      (s ∣ st.boundMax ∧ b < st.boundMax ∧ ∀ m : Int, s ∣ m → b < m → st.boundMax ≤ m) := by
  have h1 := modulo_nonneg a s hs
  have h2 := modulo_lt a s hs
  have h3 := modulo_nonneg b s hs
  have h4 := modulo_lt b s hs
  refine ⟨⟨s, a - modulo a s, b + (s - modulo b s)⟩, ?_, rfl,
    ⟨dvd_sub_modulo a s, by show a - modulo a s ≤ a; omega, ?_⟩,
    ⟨dvd_add_step_sub_modulo b s, by show b < b + (s - modulo b s); omega, ?_⟩⟩
  · simp only [axisInit, lowerBoundFor_eq fl vMin s a ha hs hlow,
      upperBoundFor_eq fl vMax s b hb hs hs2 hhigh, Option.some_bind]
  · intro m hm hle
    show m ≤ a - modulo a s
    by_contra hcon
    have hgap := multiple_gap s _ m (dvd_sub_modulo a s) hm (by omega)
    omega
  · intro m hm hlt
    show b + (s - modulo b s) ≤ m
    by_contra hcon
    have hgap := multiple_gap s m _ hm (dvd_add_step_sub_modulo b s) (by omega)
    omega

/-- Witness for C12 (amended) at `vMin = 0`, `vMax = 4`, step 5, exact rounding. -/
theorem axisInit_bounds_are_multiples_witness :
    (0 : Int) < 5 ∧ (5 : Int) ≤ 2147483647 ∧
      staticCastInt ((fun x : ℚ => x) ((0 : ℚ) - 1)) = some (-1) ∧
      staticCastInt ((fun x : ℚ => x) ((4 : ℚ) + 1)) = some 5 ∧
      (-2147483648 : Int) ≤ -1 - 5 ∧ (5 : Int) + 5 ≤ 2147483647 ∧
      ∃ st : AxisState, axisInit (fun x => x) 0 4 5 = some st ∧ st.tickStep = 5 ∧
        ((5 : Int) ∣ st.boundMin ∧ st.boundMin ≤ -1 ∧
          ∀ m : Int, 5 ∣ m → m ≤ -1 → m ≤ st.boundMin) ∧
        ((5 : Int) ∣ st.boundMax ∧ 5 < st.boundMax ∧
          ∀ m : Int, 5 ∣ m → 5 < m → st.boundMax ≤ m) :=
  ⟨by norm_num, by norm_num, by decide!, by decide!, by norm_num, by norm_num,
    axisInit_bounds_are_multiples (fun x => x) 0 4 5 (-1) 5 (by norm_num) (by norm_num)
      (by decide!) (by decide!) (by norm_num) (by norm_num)⟩

/-! ### Claims on the precipitation scale and the first-day search -/

/-- C13 (fails on the code): for a series of 24 samples whose precipitation
probabilities are all zero, the divisor `precipBoundMax` is 0 at each of the 24
executions of `yPxPerUnit = (yPos1 - yPos0) / precipBoundMax`. -/
theorem precipDivisors_all_zero :
    precipDivisors 0 (List.replicate 23 0) = List.replicate 24 0 := by
  have hmax : ∀ n : Nat, seriesMax 0 (List.replicate n 0) = 0 := by
    intro n
    induction n with
    | zero => rfl
    | succ k ih => simpa [seriesMax, List.replicate_succ] using ih
  unfold precipDivisors
  rw [hmax 23]
  simp [precipBoundMax, List.replicate_succ]

theorem firstDayLoop_spec (value : Nat → Int) :
    ∀ (n i : Nat) (firstday : Int), ∃ k : Nat, i ≤ k ∧ k < i + (n + 1) ∧
      firstDayLoop value (n + 1) i firstday = (k : Int) ∧
      (value k = 0 ∨ k = i + n) ∧ ∀ j, i ≤ j → j < k → value j ≠ 0 := by
  intro n
  induction n with
  | zero =>
    intro i fd
    refine ⟨i, le_rfl, by omega, ?_, Or.inr rfl, fun j h1 h2 => by omega⟩
    simp [firstDayLoop]
  | succ m ih =>
    intro i fd
    by_cases h0 : value i = 0
    · refine ⟨i, le_rfl, by omega, ?_, Or.inl h0, fun j h1 h2 => by omega⟩
      rw [firstDayLoop, if_pos h0]
    · obtain ⟨k, hk1, hk2, hrun, hstop, hbefore⟩ := ih (i + 1) (i : Int)
      refine ⟨k, by omega, by omega, ?_, ?_, ?_⟩
      · rw [firstDayLoop, if_neg h0]
        exact hrun
      · rcases hstop with h | h
        · exact Or.inl h
        · exact Or.inr (by omega)
      · intro j h1 h2
        rcases Nat.eq_or_lt_of_le h1 with h | h
        · exact h ▸ h0
        · exact hbefore j h h2

/-- C19: for every graph array and window size the first-day search stops at
the smallest index `i` with `1 <= i <= 33` whose value is 0, at 33 when there is
none, and `firstday` is `i - DAILY_GRAPH_MAX`; with entries 1..29 non-zero,
entries 30..34 zero and window size 35 the search stops at 30 and
`firstday = -5`. -/
theorem firstDay_stops_at_first_zero (value : Nat → Int) (dailyGraphMax : Int) :
    (∃ i : Nat, 1 ≤ i ∧ i ≤ 33 ∧ firstDayIndex value = (i : Int) ∧
        (value i = 0 ∨ i = 33) ∧ (∀ j, 1 ≤ j → j < i → value j ≠ 0) ∧
        firstDay value dailyGraphMax = (i : Int) - dailyGraphMax) ∧
      firstDayIndex (fun i => if i < 30 then 12 else 0) = 30 ∧
      firstDay (fun i => if i < 30 then 12 else 0) 35 = -5 := by
  refine ⟨?_, by decide, by decide⟩
  obtain ⟨k, hk1, hk2, hrun, hstop, hbefore⟩ := firstDayLoop_spec value 32 1 0
  refine ⟨k, hk1, by omega, hrun, ?_, hbefore, ?_⟩
  · rcases hstop with h | h
    · exact Or.inl h
    · exact Or.inr (by omega)
  · simp only [firstDay, firstDayIndex, hrun]

/-! ### The mappers: loops of deserialize_Meteo_API -/

theorem writeAt_of_lt {α : Type} (capacity : Nat) (arr : Nat → α) (i : Nat) (f : α → α)
    (h : i < capacity) :
    writeAt capacity arr i f = some (Function.update arr i (f (arr i))) := by
  simp [writeAt, h]

/-- One pass of the daily loop for a counter `1 <= i <= 7`: the write to
`daily[i-1]` is inside the array, then the loop stops at `i = 7` or goes on. -/
theorem meteoDailyLoop_cons (doc : MeteoDoc) (v : Int) (rest : List Int) (i : Nat)
    (r : requested_data) (h1 : 1 ≤ i) (h7 : i ≤ 7) :
    ∃ r1, meteoDailyLoop doc (v :: rest) i r
        = (if i = 7 then some r1 else meteoDailyLoop doc rest (i + 1) r1) ∧
      r1.current = r.current ∧ r1.hourly = r.hourly ∧ r1.data = r.data ∧
      r1.graph = r.graph ∧ r1.memo = r.memo ∧
      r1.daily = Function.update r.daily (i - 1) (meteoDay doc v i (r.daily (i - 1))) := by
  have hi0 : i ≠ 0 := by omega
  have hw := writeAt_of_lt METEO_NUM_DAILY r.daily (i - 1) (meteoDay doc v i)
    (by simp only [METEO_NUM_DAILY]; omega)
  refine ⟨{ r with
    daily := Function.update r.daily (i - 1) (meteoDay doc v i (r.daily (i - 1))) },
    ?_, rfl, rfl, rfl, rfl, rfl, rfl⟩
  simp only [METEO_NUM_DAILY] at hw
  simp only [meteoDailyLoop, if_neg hi0, METEO_NUM_DAILY, hw, Option.map_some']

/-- The daily loop from a counter `1 <= i <= 7`: it succeeds, touches only
`daily`, and slot `j` receives element `j + 1 - i` of the remaining list when
`i <= j + 1 <= 7` and that element exists. -/
theorem meteoDailyLoop_spec (doc : MeteoDoc) :
    ∀ (times : List Int) (i : Nat) (r : requested_data), 1 ≤ i → i ≤ 7 →
      ∃ r', meteoDailyLoop doc times i r = some r' ∧ r'.current = r.current ∧
        r'.hourly = r.hourly ∧ r'.data = r.data ∧ r'.graph = r.graph ∧ r'.memo = r.memo ∧
        ∀ j, r'.daily j =
          if i ≤ j + 1 ∧ j + 1 ≤ 7 then
            match times[j + 1 - i]? with
            | some v => meteoDay doc v (j + 1) (r.daily j)
            | none => r.daily j
          else r.daily j := by
  intro times
  induction times with
  | nil =>
    intro i r _ _
    exact ⟨r, rfl, rfl, rfl, rfl, rfl, rfl, fun j => by simp⟩
  | cons v rest ih =>
    intro i r h1 h7
    obtain ⟨r1, hstep, hc1, hh1, hd1, hg1, hm1, hdaily1⟩ :=
      meteoDailyLoop_cons doc v rest i r h1 h7
    by_cases hlast : i = 7
    · refine ⟨r1, by rw [hstep, if_pos hlast], hc1, hh1, hd1, hg1, hm1, ?_⟩
      intro j
      rw [hdaily1]
      subst hlast
      by_cases hj : j = 6
      · subst hj
        simp
      · have : ¬ (7 ≤ j + 1 ∧ j + 1 ≤ 7) := by omega
        simp only [this, if_false]
        exact Function.update_noteq (by omega) _ _
    · obtain ⟨r', hrun, hc, hh, hd, hg, hm, hdaily⟩ := ih (i + 1) r1 (by omega) (by omega)
      refine ⟨r', by rw [hstep, if_neg hlast]; exact hrun, hc.trans hc1, hh.trans hh1,
        hd.trans hd1, hg.trans hg1, hm.trans hm1, ?_⟩
      intro j
      rw [hdaily j, hdaily1]
      by_cases hj : j = i - 1
      · have hji : j + 1 = i := by omega
        have hc1 : ¬ (i + 1 ≤ j + 1 ∧ j + 1 ≤ 7) := by omega
        have hc2 : i ≤ j + 1 ∧ j + 1 ≤ 7 := by omega
        simp only [hc1, if_false, hc2, and_self, if_true]
        rw [hji, Nat.sub_self]
        simp only [List.getElem?_cons_zero]
        rw [← hji, hj]
        simp
      · have hupd : Function.update r.daily (i - 1) (meteoDay doc v i (r.daily (i - 1))) j
            = r.daily j := Function.update_noteq hj _ _
        simp only [hupd]
        by_cases hc : i + 1 ≤ j + 1 ∧ j + 1 ≤ 7
        · have hc2 : i ≤ j + 1 ∧ j + 1 ≤ 7 := by omega
          have hidx : j + 1 - i = (j + 1 - (i + 1)) + 1 := by omega
          simp only [hc, and_self, if_true, hc2]
          rw [hidx, List.getElem?_cons_succ]
        · have hc2 : ¬ (i ≤ j + 1 ∧ j + 1 ≤ 7) := by omega
          simp only [hc, if_false, hc2]

/-- The hourly loop stays inside `hourly[0..23]` when it ends before index 24,
and touches only `hourly`. -/
theorem fakeHourlyLoop_spec (rand : Nat → Int) :
    ∀ (n i : Nat) (r : requested_data), i + n ≤ 24 →
      ∃ r', fakeHourlyLoop rand n i r = some r' ∧ r'.current = r.current ∧
        r'.daily = r.daily ∧ r'.data = r.data ∧ r'.graph = r.graph ∧ r'.memo = r.memo := by
  intro n
  induction n with
  | zero =>
    intro i r _
    exact ⟨r, rfl, rfl, rfl, rfl, rfl, rfl⟩
  | succ m ih =>
    intro i r h
    have hi : i < METEO_NUM_HOURLY := by simp only [METEO_NUM_HOURLY]; omega
    simp only [fakeHourlyLoop, writeAt, hi, if_true]
    obtain ⟨r', hrun, hc, hd, hdata, hg, hm⟩ := ih (i + 1)
      ⟨r.current, Function.update r.hourly i ((fun h : meteo_hourly =>
          { h with
            temp := (rand (2 * (i - 1)) : ℚ)
            pop := (rand (2 * (i - 1) + 1) : ℚ)
            dt := r.current.dt + (i : Int) * 3600 }) (r.hourly i)),
        r.daily, r.data, r.graph, r.memo⟩ (by omega)
    exact ⟨r', hrun, hc, hd, hdata, hg, hm⟩

/-- A successful run of deserialize_Meteo_API, when the hourly loop stays
inside `hourly`: `data`, `graph` and `memo` are untouched, `current` is written
from element 0 of the daily arrays, and `daily[j]` is written from element
`j + 1` for `j + 1 <= 7`. -/
theorem deserialize_Meteo_API_ok (doc : MeteoDoc) (hourlyGraphMax : Nat) (rand : Nat → Int)
    (r : requested_data) (hH : hourlyGraphMax ≤ 24) :
    ∃ r', deserialize_Meteo_API DeserializationError.Ok doc hourlyGraphMax rand r
        = some (DeserializationError.Ok, r') ∧
      r'.data = r.data ∧ r'.graph = r.graph ∧ r'.memo = r.memo ∧
      (∀ v rest, doc.daily_time = v :: rest →
        r'.current = (meteoToday doc v 0 (meteoCurrent doc r)).current) ∧
      ∀ j, r'.daily j =
        if j + 1 ≤ 7 then
          match doc.daily_time[j + 1]? with
          | some v => meteoDay doc v (j + 1) (r.daily j)
          | none => r.daily j
        else r.daily j := by
  have hloop : ∃ r1, meteoDailyLoop doc doc.daily_time 0 (meteoCurrent doc r) = some r1 ∧
      r1.data = r.data ∧ r1.graph = r.graph ∧ r1.memo = r.memo ∧
      (∀ v rest, doc.daily_time = v :: rest →
        r1.current = (meteoToday doc v 0 (meteoCurrent doc r)).current) ∧
      ∀ j, r1.daily j =
        if j + 1 ≤ 7 then
          match doc.daily_time[j + 1]? with
          | some v => meteoDay doc v (j + 1) (r.daily j)
          | none => r.daily j
        else r.daily j := by
    cases htimes : doc.daily_time with
    | nil =>
      exact ⟨meteoCurrent doc r, rfl, rfl, rfl, rfl, fun v rest h => by simp at h,
        fun j => by simp [meteoCurrent]⟩
    | cons v rest =>
      obtain ⟨r1, hrun, hc, -, hd, hg, hm, hdaily⟩ :=
        meteoDailyLoop_spec doc rest 1 (meteoToday doc v 0 (meteoCurrent doc r))
          (by omega) (by omega)
      refine ⟨r1, ?_, hd, hg, hm, ?_, ?_⟩
      · simp only [meteoDailyLoop, if_true, METEO_NUM_DAILY]
        exact hrun
      · intro v' rest' h
        simp only [List.cons.injEq] at h
        rw [hc, h.1]
      · intro j
        rw [hdaily j]
        by_cases hj : j + 1 ≤ 7
        · have h1 : 1 ≤ j + 1 ∧ j + 1 ≤ 7 := by omega
          rw [if_pos h1, if_pos hj]
          simp only [List.getElem?_cons_succ, Nat.add_sub_cancel]
          rfl
        · have h1 : ¬ (1 ≤ j + 1 ∧ j + 1 ≤ 7) := by omega
          rw [if_neg h1, if_neg hj]
          rfl
  obtain ⟨r1, hrun1, hd1, hg1, hm1, hcur1, hdaily1⟩ := hloop
  obtain ⟨r2, hrun2, hc2, hdaily2, hd2, hg2, hm2⟩ :=
    fakeHourlyLoop_spec rand (hourlyGraphMax - 1) 1 r1 (by omega)
  refine ⟨r2, ?_, hd2.trans hd1, hg2.trans hg1, hm2.trans hm1, ?_, ?_⟩
  · simp [deserialize_Meteo_API, hrun1, hrun2]
  · intro v rest h
    rw [hc2]
    exact hcur1 v rest h
  · intro j
    rw [hdaily2]
    exact hdaily1 j

/-! ### Claims on deserialize_Meteo_API -/

/-- C14: for every forecast document whose daily sequence has at least two
elements (and `HOURLY_GRAPH_MAX <= 24`), deserialize_Meteo_API succeeds, the
timestamp, temp_min, temp_max, wind speed, precipitation probability, condition
code and UV index of `current` are those of element 0, and `daily[0]` holds the
timestamp, temp_min, temp_max and condition code of element 1. -/
theorem deserialize_Meteo_API_today_and_next (doc : MeteoDoc) (hourlyGraphMax : Nat)
    (rand : Nat → Int) (r : requested_data) (hH : hourlyGraphMax ≤ 24)
    (hlen : 2 ≤ doc.daily_time.length) :
    ∃ r', deserialize_Meteo_API DeserializationError.Ok doc hourlyGraphMax rand r
        = some (DeserializationError.Ok, r') ∧
      (r'.current.dt = doc.daily_time.getD 0 0 ∧
        r'.current.temp_min = doc.temperature_2m_min.getD 0 0 ∧
        r'.current.temp_max = doc.temperature_2m_max.getD 0 0 ∧
        r'.current.wind_speed = doc.wind_speed_10m_max.getD 0 0 ∧
        r'.current.pop = doc.precipitation_probability_max.getD 0 0 ∧
        r'.current.weather_code = doc.weather_code.getD 0 0 ∧
        r'.current.uvi = doc.uv_index_max.getD 0 0) ∧
      ((r'.daily 0).dt = doc.daily_time.getD 1 0 ∧
        (r'.daily 0).temp_min = doc.temperature_2m_min.getD 1 0 ∧
        (r'.daily 0).temp_max = doc.temperature_2m_max.getD 1 0 ∧
        (r'.daily 0).weather_code = doc.weather_code.getD 1 0) := by
  obtain ⟨r', hrun, -, -, -, hcur, hdaily⟩ :=
    deserialize_Meteo_API_ok doc hourlyGraphMax rand r hH
  obtain ⟨t0, t1, rest, htimes⟩ : ∃ t0 t1 rest, doc.daily_time = t0 :: t1 :: rest := by
    cases h : doc.daily_time with
    | nil => simp [h] at hlen
    | cons a l =>
      cases l with
      | nil => simp [h] at hlen
      | cons b l' => exact ⟨a, b, l', rfl⟩
  have hc := hcur t0 (t1 :: rest) htimes
  have hd := hdaily 0
  rw [htimes] at hd
  simp only [Nat.zero_add, Nat.one_le_ofNat, if_true, List.getElem?_cons_succ,
    List.getElem?_cons_zero] at hd
  refine ⟨r', hrun, ?_, ?_⟩
  · rw [hc, htimes]
    exact ⟨rfl, rfl, rfl, rfl, rfl, rfl, rfl⟩
  · rw [hd, htimes]
    exact ⟨rfl, rfl, rfl, rfl⟩

/-- Witness for C14: minima 10, 5, 8 and maxima 20, 15, 18 give `current`
10 / 20 and `daily[0]` 5 / 15. -/
theorem deserialize_Meteo_API_today_and_next_witness :
    (24 : Nat) ≤ 24 ∧ 2 ≤ threeDayDoc.daily_time.length ∧
      ∃ r', deserialize_Meteo_API DeserializationError.Ok threeDayDoc 24 (fun _ => 10) zeroRecord
          = some (DeserializationError.Ok, r') ∧
        r'.current.temp_min = 10 ∧ r'.current.temp_max = 20 ∧
        (r'.daily 0).temp_min = 5 ∧ (r'.daily 0).temp_max = 15 := by
  refine ⟨le_refl 24, by decide, ?_⟩
  obtain ⟨r', hrun, ⟨-, hmin, hmax, -⟩, ⟨-, hmin1, hmax1, -⟩⟩ :=
    deserialize_Meteo_API_today_and_next threeDayDoc 24 (fun _ => 10) zeroRecord
      (le_refl 24) (by decide)
  exact ⟨r', hrun, hmin, hmax, hmin1, hmax1⟩

/-- C15 (as stated, fails): with nine daily elements, element 8 (timestamp 108)
is not stored in `daily[7]`: starting from the zero record, `daily[7].dt` is
still 0 after a successful run. -/
theorem deserialize_Meteo_API_element_8_not_stored :
    ∃ r', deserialize_Meteo_API DeserializationError.Ok nineDayDoc 24 (fun _ => 10) zeroRecord
        = some (DeserializationError.Ok, r') ∧
      nineDayDoc.daily_time.getD 8 0 = 108 ∧ (r'.daily 7).dt = 0 := by
  obtain ⟨r', hrun, -, -, -, -, hdaily⟩ :=
    deserialize_Meteo_API_ok nineDayDoc 24 (fun _ => 10) zeroRecord (le_refl 24)
  refine ⟨r', hrun, rfl, ?_⟩
  rw [hdaily 7]
  rfl

/-- C15 (amended): for a daily sequence of any length (and
`HOURLY_GRAPH_MAX <= 24`) deserialize_Meteo_API succeeds with every write inside
its array, stores element `k` in `daily[k-1]` for every `k` with `1 <= k <= 7`
that the sequence has, and leaves `daily[j]` untouched for every `j >= 7`. -/
theorem deserialize_Meteo_API_daily_slots (doc : MeteoDoc) (hourlyGraphMax : Nat)
    (rand : Nat → Int) (r : requested_data) (hH : hourlyGraphMax ≤ 24) :
    ∃ r', deserialize_Meteo_API DeserializationError.Ok doc hourlyGraphMax rand r
        = some (DeserializationError.Ok, r') ∧
      (∀ k v, 1 ≤ k → k ≤ 7 → doc.daily_time[k]? = some v →
        (r'.daily (k - 1)).dt = v ∧
        (r'.daily (k - 1)).temp_min = doc.temperature_2m_min.getD k 0 ∧
        (r'.daily (k - 1)).temp_max = doc.temperature_2m_max.getD k 0 ∧
        (r'.daily (k - 1)).weather_code = doc.weather_code.getD k 0) ∧
      ∀ j, 7 ≤ j → r'.daily j = r.daily j := by
  obtain ⟨r', hrun, -, -, -, -, hdaily⟩ :=
    deserialize_Meteo_API_ok doc hourlyGraphMax rand r hH
  refine ⟨r', hrun, ?_, ?_⟩
  · intro k v h1 h7 hk
    have hd := hdaily (k - 1)
    have hk1 : k - 1 + 1 = k := by omega
    rw [hk1, if_pos h7, hk] at hd
    rw [hd]
    exact ⟨rfl, rfl, rfl, rfl⟩
  · intro j hj
    rw [hdaily j, if_neg (by omega)]

/-- Witness for C15 (amended): the nine-day document from the zero record. -/
theorem deserialize_Meteo_API_daily_slots_witness :
    (24 : Nat) ≤ 24 ∧
      ∃ r', deserialize_Meteo_API DeserializationError.Ok nineDayDoc 24 (fun _ => 10) zeroRecord
          = some (DeserializationError.Ok, r') ∧
        (∀ k v, 1 ≤ k → k ≤ 7 → nineDayDoc.daily_time[k]? = some v →
          (r'.daily (k - 1)).dt = v ∧
          (r'.daily (k - 1)).temp_min = nineDayDoc.temperature_2m_min.getD k 0 ∧
          (r'.daily (k - 1)).temp_max = nineDayDoc.temperature_2m_max.getD k 0 ∧
          (r'.daily (k - 1)).weather_code = nineDayDoc.weather_code.getD k 0) ∧
        ∀ j, 7 ≤ j → r'.daily j = zeroRecord.daily j :=
  ⟨le_refl 24,
    deserialize_Meteo_API_daily_slots nineDayDoc 24 (fun _ => 10) zeroRecord (le_refl 24)⟩

/-! ### The mappers: loops of deserialize_Domoticz_API_GRAPH -/

theorem staticCastInt_of_isSome (x : ℚ) (h : (staticCastInt x).isSome = true) :
    staticCastInt x = some (castInt x) := by
  unfold staticCastInt toInt at h ⊢
  split_ifs at h ⊢ with hc
  · rfl
  · simp at h

theorem cstrAt_of_hasDay (v : GraphSample) (h : v.hasDay = true) :
    ∃ s, v.d = some s ∧ 9 ≤ s.length ∧ cstrAt v.d 8 = some (charAt s 8) ∧
      cstrAt v.d 9 = some (charAt s 9) := by
  unfold GraphSample.hasDay at h
  cases hd : v.d with
  | none => simp [hd, cstrAt] at h
  | some s =>
    have hlen : 9 ≤ s.length := by
      by_contra hcon
      simp [hd, cstrAt, hcon] at h
    have hlen8 : 8 ≤ s.length := by omega
    exact ⟨s, rfl, hlen, by simp only [cstrAt, if_pos hlen8], by simp only [cstrAt, if_pos hlen]⟩

theorem graphValue_of_readable (fl : ℚ → ℚ) (v : GraphSample) (h1 : v.hasDay = true)
    (h2 : v.sumFits fl = true) (g : domoticz_graph_t) :
    graphValue fl v g = some { g with
      dt0 := charAt (v.d.getD []) 8, dt1 := charAt (v.d.getD []) 9,
      value := castInt (fl (v.v1 + v.v2)) } := by
  obtain ⟨s, hd, -, h8, h9⟩ := cstrAt_of_hasDay v h1
  have hsum := staticCastInt_of_isSome _ h2
  simp only [graphValue, h8, h9, hsum, Option.some_bind]
  rw [hd]
  rfl

theorem graphPrevValue_of_sumFits (fl : ℚ → ℚ) (v : GraphSample) (h2 : v.sumFits fl = true)
    (g : domoticz_graph_t) :
    graphPrevValue fl v g = some { g with prev_value := castInt (fl (v.v1 + v.v2)) } := by
  have hsum := staticCastInt_of_isSome _ h2
  simp only [graphPrevValue, hsum, Option.some_bind]

/-- The graph loop from a counter `i <= 32`, when the assignment `f` is defined
on every sample that the loop reads and agrees there with `g`: the loop
succeeds, touches only `graph`, and slot `j` with `i <= j <= 32` receives
element `j - i` of the remaining list when that element exists. -/
theorem graphLoop_spec (f : GraphSample → domoticz_graph_t → Option domoticz_graph_t)
    (g : GraphSample → domoticz_graph_t → domoticz_graph_t) :
    ∀ (samples : List GraphSample) (i : Nat) (r : requested_data), i ≤ 32 →
      (∀ k v, i + k ≤ 32 → samples[k]? = some v → ∀ x, f v x = some (g v x)) →
      ∃ r', graphLoop f samples i r = some r' ∧ r'.current = r.current ∧
        r'.hourly = r.hourly ∧ r'.daily = r.daily ∧ r'.data = r.data ∧ r'.memo = r.memo ∧
        ∀ j, r'.graph j =
          if i ≤ j ∧ j ≤ 32 then
            match samples[j - i]? with
            | some v => g v (r.graph j)
            | none => r.graph j
          else r.graph j := by
  intro samples
  induction samples with
  | nil =>
    intro i r _ _
    exact ⟨r, rfl, rfl, rfl, rfl, rfl, rfl, fun j => by simp⟩
  | cons v rest ih =>
    intro i r hi hf
    have hcap : i < GRAPH_CAPACITY := by simp only [GRAPH_CAPACITY]; omega
    have hv : f v (r.graph i) = some (g v (r.graph i)) :=
      hf 0 v (by omega) (by simp) (r.graph i)
    have hrest : ∀ k w, i + 1 + k ≤ 32 → rest[k]? = some w → ∀ x, f w x = some (g w x) := by
      intro k w hk hw
      exact hf (k + 1) w (by omega) (by simpa using hw)
    by_cases hlast : i + 1 > 32
    · refine ⟨⟨r.current, r.hourly, r.daily, r.data,
        Function.update r.graph i (g v (r.graph i)), r.memo⟩, ?_, rfl, rfl, rfl, rfl, rfl, ?_⟩
      · simp only [graphLoop, hv, Option.some_bind, writeAt, hcap, if_true, hlast]
      · intro j
        show Function.update r.graph i (g v (r.graph i)) j = _
        by_cases hj : j = i
        · subst hj
          have hc : j ≤ j ∧ j ≤ 32 := by omega
          simp [hc]
        · have hc : ¬ (i ≤ j ∧ j ≤ 32) := by omega
          rw [if_neg hc]
          exact Function.update_noteq hj _ _
    · obtain ⟨r', hrun, hc, hh, hd, hdata, hm, hgraph⟩ := ih (i + 1)
        ⟨r.current, r.hourly, r.daily, r.data,
          Function.update r.graph i (g v (r.graph i)), r.memo⟩ (by omega) hrest
      refine ⟨r', ?_, hc, hh, hd, hdata, hm, ?_⟩
      · simp only [graphLoop, hv, Option.some_bind, writeAt, hcap, if_true, hlast, if_false]
        exact hrun
      · intro j
        rw [hgraph j]
        show (if i + 1 ≤ j ∧ j ≤ 32 then
            match rest[j - (i + 1)]? with
            | some w => g w (Function.update r.graph i (g v (r.graph i)) j)
            | none => Function.update r.graph i (g v (r.graph i)) j
          else Function.update r.graph i (g v (r.graph i)) j) = _
        by_cases hj : j = i
        · subst hj
          have hc1 : ¬ (j + 1 ≤ j ∧ j ≤ 32) := by omega
          have hc2 : j ≤ j ∧ j ≤ 32 := by omega
          rw [if_neg hc1, if_pos hc2]
          simp
        · have hupd : Function.update r.graph i (g v (r.graph i)) j = r.graph j :=
            Function.update_noteq hj _ _
          rw [hupd]
          by_cases hc : i + 1 ≤ j ∧ j ≤ 32
          · have hc2 : i ≤ j ∧ j ≤ 32 := by omega
            have hidx : j - i = (j - (i + 1)) + 1 := by omega
            rw [if_pos hc, if_pos hc2, hidx, List.getElem?_cons_succ]
          · have hc2 : ¬ (i ≤ j ∧ j ≤ 32) := by omega
            rw [if_neg hc, if_neg hc2]

/-- A run of deserialize_Domoticz_API_GRAPH on series whose first 33 samples can
be read: it succeeds; slot `k < 33` holds the day characters and the converted
sum of element `k` of the current series and the converted sum of element `k`
of the previous series, when these exist; every slot from 33 on is untouched. -/
theorem deserialize_Domoticz_API_GRAPH_ok (fl : ℚ → ℚ) (result resultprev : List GraphSample)
    (r : requested_data)
    (hres : ∀ k v, k < 33 → result[k]? = some v → v.hasDay = true ∧ v.sumFits fl = true)
    (hprev : ∀ k w, k < 33 → resultprev[k]? = some w → w.sumFits fl = true) :
    ∃ r', deserialize_Domoticz_API_GRAPH fl DeserializationError.Ok result resultprev r
        = some (DeserializationError.Ok, r') ∧
      (∀ k v, k < 33 → result[k]? = some v →
        cstrAt v.d 8 = some (r'.graph k).dt0 ∧ cstrAt v.d 9 = some (r'.graph k).dt1 ∧
        staticCastInt (fl (v.v1 + v.v2)) = some (r'.graph k).value) ∧
      (∀ k w, k < 33 → resultprev[k]? = some w →
        staticCastInt (fl (w.v1 + w.v2)) = some (r'.graph k).prev_value) ∧
      ∀ j, 33 ≤ j → r'.graph j = r.graph j := by
  obtain ⟨r1, hrun1, -, -, -, -, -, hgraph1⟩ := graphLoop_spec (graphValue fl)
    (fun v x => { x with
      dt0 := charAt (v.d.getD []) 8, dt1 := charAt (v.d.getD []) 9,
      value := castInt (fl (v.v1 + v.v2)) }) result 0 r (by omega)
    (fun k v hk hv x => graphValue_of_readable fl v (hres k v (by omega) hv).1
      (hres k v (by omega) hv).2 x)
  obtain ⟨r2, hrun2, -, -, -, -, -, hgraph2⟩ := graphLoop_spec (graphPrevValue fl)
    (fun v x => { x with prev_value := castInt (fl (v.v1 + v.v2)) }) resultprev 0 r1
    (by omega) (fun k w hk hw x => graphPrevValue_of_sumFits fl w (hprev k w (by omega) hw) x)
  refine ⟨r2, by simp [deserialize_Domoticz_API_GRAPH, hrun1, hrun2], ?_, ?_, ?_⟩
  · intro k v hk hv
    obtain ⟨hday, hsum⟩ := hres k v hk hv
    obtain ⟨s, hd, -, h8, h9⟩ := cstrAt_of_hasDay v hday
    have hsum2 := staticCastInt_of_isSome _ hsum
    have hc : 0 ≤ k ∧ k ≤ 32 := by omega
    rw [hgraph2 k, hgraph1 k, if_pos hc, if_pos hc]
    simp only [Nat.sub_zero, hv]
    rw [h8, h9, hsum2]
    cases resultprev[k]? with
    | none => simp [hd]
    | some w => simp [hd]
  · intro k w hk hw
    have hsum2 := staticCastInt_of_isSome _ (hprev k w hk hw)
    have hc : 0 ≤ k ∧ k ≤ 32 := by omega
    rw [hgraph2 k, if_pos hc]
    simp only [Nat.sub_zero, hw]
    rw [hsum2]
  · intro j hj
    have hc : ¬ (0 ≤ j ∧ j ≤ 32) := by omega
    rw [hgraph2 j, hgraph1 j, if_neg hc, if_neg hc]

theorem thirtyFourSamples_getElem? (k : Nat) (v : GraphSample)
    (h : thirtyFourSamples[k]? = some v) :
    v = { d := some "2024-01-15".toList, v1 := 3, v2 := 4 } := by
  have hmem : v ∈ thirtyFourSamples := List.getElem?_mem h
  exact List.eq_of_mem_replicate hmem

theorem thirtyFourSamples_readable (fl : ℚ → ℚ) (hfl : RoundsLikeFloat fl) (k : Nat)
    (v : GraphSample) (h : thirtyFourSamples[k]? = some v) :
    v.hasDay = true ∧ v.sumFits fl = true ∧ staticCastInt (fl (v.v1 + v.v2)) = some 7 := by
  rw [thirtyFourSamples_getElem? k v h]
  have h7 : fl ((3 : ℚ) + 4) = 7 := by
    have e : ((3 : ℚ) + 4) = ((7 : Int) : ℚ) := by norm_num
    rw [e, hfl.2 7 (by norm_num) (by norm_num)]
    norm_num
  have hc : staticCastInt (fl ((3 : ℚ) + 4)) = some 7 := by
    rw [h7]
    exact_mod_cast staticCastInt_intCast 7
  refine ⟨by decide, ?_, hc⟩
  simp only [GraphSample.sumFits, hc, Option.isSome_some]

/-! ### Claims on deserialize_Domoticz_API_GRAPH -/

/-- C18 (as stated, fails): with 34 samples in both series, for every rounding
that is exact on the small integers, sample 33 exists and its sum converts to
7, yet starting from the zero record `graph[33]` still has `value = 0` and
`prev_value = 0` after a successful run. -/
theorem deserialize_Domoticz_API_GRAPH_sample_33_not_stored :
    thirtyFourSamples.length = 34 ∧
      ∀ fl : ℚ → ℚ, RoundsLikeFloat fl →
        ∃ r', deserialize_Domoticz_API_GRAPH fl DeserializationError.Ok thirtyFourSamples
              thirtyFourSamples zeroRecord = some (DeserializationError.Ok, r') ∧
          (∃ v, thirtyFourSamples[33]? = some v ∧
            staticCastInt (fl (v.v1 + v.v2)) = some 7) ∧
          (r'.graph 33).value = 0 ∧ (r'.graph 33).prev_value = 0 := by
  refine ⟨by decide, ?_⟩
  intro fl hfl
  obtain ⟨r', hrun, -, -, hhigh⟩ :=
    deserialize_Domoticz_API_GRAPH_ok fl thirtyFourSamples thirtyFourSamples zeroRecord
      (fun k v _ hv => ⟨(thirtyFourSamples_readable fl hfl k v hv).1,
        (thirtyFourSamples_readable fl hfl k v hv).2.1⟩)
      (fun k v _ hv => (thirtyFourSamples_readable fl hfl k v hv).2.1)
  have h33 : thirtyFourSamples[33]?
      = some { d := some "2024-01-15".toList, v1 := 3, v2 := 4 } := by
    simp [thirtyFourSamples]
  refine ⟨r', hrun, ⟨_, h33, (thirtyFourSamples_readable fl hfl 33 _ h33).2.2⟩, ?_, ?_⟩
  · rw [hhigh 33 (le_refl 33)]
    rfl
  · rw [hhigh 33 (le_refl 33)]
    rfl

/-- C18 (amended): for result arrays of any length whose first 33 samples can
be read (a date string of at least nine characters in the current series, a
sum that fits `int` in both series) deserialize_Domoticz_API_GRAPH succeeds
with every write inside `graph`, stores sample `k` of the current series (day
characters and converted sum) and of the previous series in `graph[k]` for
every `k < 33` that the series has, and leaves `graph[j]` untouched for every
`j >= 33`. -/
theorem deserialize_Domoticz_API_GRAPH_slots (fl : ℚ → ℚ)
    (result resultprev : List GraphSample) (r : requested_data)
    (hres : ∀ k v, k < 33 → result[k]? = some v → v.hasDay = true ∧ v.sumFits fl = true)
    (hprev : ∀ k w, k < 33 → resultprev[k]? = some w → w.sumFits fl = true) :
    ∃ r', deserialize_Domoticz_API_GRAPH fl DeserializationError.Ok result resultprev r
        = some (DeserializationError.Ok, r') ∧
      (∀ k v, k < 33 → result[k]? = some v →
        staticCastInt (fl (v.v1 + v.v2)) = some (r'.graph k).value ∧
        cstrAt v.d 8 = some (r'.graph k).dt0 ∧ cstrAt v.d 9 = some (r'.graph k).dt1) ∧
      (∀ k w, k < 33 → resultprev[k]? = some w →
        staticCastInt (fl (w.v1 + w.v2)) = some (r'.graph k).prev_value) ∧
      ∀ j, 33 ≤ j → r'.graph j = r.graph j := by
  obtain ⟨r', hrun, hcur, hprv, hhigh⟩ :=
    deserialize_Domoticz_API_GRAPH_ok fl result resultprev r hres hprev
  refine ⟨r', hrun, ?_, hprv, hhigh⟩
  intro k v hk hv
  obtain ⟨h8, h9, hsum⟩ := hcur k v hk hv
  exact ⟨hsum, h8, h9⟩

/-- Witness for C18 (amended): the 34 samples dated 2024-01-15, exact rounding. -/
theorem deserialize_Domoticz_API_GRAPH_slots_witness :
    (∀ k v, k < 33 → thirtyFourSamples[k]? = some v →
        v.hasDay = true ∧ v.sumFits (fun x => x) = true) ∧
      (∀ k w, k < 33 → thirtyFourSamples[k]? = some w → w.sumFits (fun x => x) = true) ∧
      ∃ r', deserialize_Domoticz_API_GRAPH (fun x => x) DeserializationError.Ok
            thirtyFourSamples thirtyFourSamples zeroRecord
          = some (DeserializationError.Ok, r') ∧
        (∀ k v, k < 33 → thirtyFourSamples[k]? = some v →
          staticCastInt ((fun x : ℚ => x) (v.v1 + v.v2)) = some (r'.graph k).value ∧
          cstrAt v.d 8 = some (r'.graph k).dt0 ∧ cstrAt v.d 9 = some (r'.graph k).dt1) ∧
        (∀ k w, k < 33 → thirtyFourSamples[k]? = some w →
          staticCastInt ((fun x : ℚ => x) (w.v1 + w.v2)) = some (r'.graph k).prev_value) ∧
        ∀ j, 33 ≤ j → r'.graph j = zeroRecord.graph j :=
  ⟨fun k v _ hv =>
      ⟨(thirtyFourSamples_readable _ ⟨fun _ _ h => h, fun _ _ _ => rfl⟩ k v hv).1,
        (thirtyFourSamples_readable _ ⟨fun _ _ h => h, fun _ _ _ => rfl⟩ k v hv).2.1⟩,
    fun k v _ hv => (thirtyFourSamples_readable _ ⟨fun _ _ h => h, fun _ _ _ => rfl⟩ k v hv).2.1,
    deserialize_Domoticz_API_GRAPH_slots (fun x => x) thirtyFourSamples thirtyFourSamples
      zeroRecord
      (fun k v _ hv =>
        ⟨(thirtyFourSamples_readable _ ⟨fun _ _ h => h, fun _ _ _ => rfl⟩ k v hv).1,
          (thirtyFourSamples_readable _ ⟨fun _ _ h => h, fun _ _ _ => rfl⟩ k v hv).2.1⟩)
      (fun k v _ hv =>
        (thirtyFourSamples_readable _ ⟨fun _ _ h => h, fun _ _ _ => rfl⟩ k v hv).2.1)⟩

/-! ### The mappers: loop of deserialize_Domoticz_API_IDX -/

theorem nonMemoEntries_cons_memo (v : DomoticzEntry) (rest : List DomoticzEntry)
    (h : v.idx = 125) : nonMemoEntries (v :: rest) = nonMemoEntries rest := by
  simp [nonMemoEntries, h]

theorem nonMemoEntries_cons_other (v : DomoticzEntry) (rest : List DomoticzEntry)
    (h : ¬ v.idx = 125) : nonMemoEntries (v :: rest) = v :: nonMemoEntries rest := by
  simp [nonMemoEntries, h]

/-- The sensor loop from a counter `i <= 5`: it succeeds with every write
inside `data`, ends with the counter `min (i + n) 5` for `n` non-memo entries,
leaves the slots below `i` and above the final counter untouched, and puts the
non-memo entries, in feed order, in the slots from `i` up to the final counter. -/
theorem idxLoop_spec :
    ∀ (feed : List DomoticzEntry) (i : Nat) (r : requested_data), i ≤ 5 →
      ∃ r', idxLoop feed i r = some (min (i + (nonMemoEntries feed).length) 5, r') ∧
        r'.current = r.current ∧ r'.hourly = r.hourly ∧ r'.daily = r.daily ∧
        r'.graph = r.graph ∧ r'.memo = lastMemo r.memo (entriesRead feed i) ∧
        (∀ j, j < i → r'.data j = r.data j) ∧
        (∀ j, i ≤ j → j < min (i + (nonMemoEntries feed).length) 5 →
          (nonMemoEntries feed)[j - i]?.map (fun v => classifyEntry v (entrySlot v))
            = some (r'.data j)) ∧
        ∀ j, min (i + (nonMemoEntries feed).length) 5 < j → r'.data j = r.data j := by
  intro feed
  induction feed with
  | nil =>
    intro i r hi
    refine ⟨r, ?_, rfl, rfl, rfl, rfl, rfl, fun j _ => rfl, ?_, fun j _ => rfl⟩
    · simp only [idxLoop, nonMemoEntries, List.filter_nil, List.length_nil, Nat.add_zero]
      rw [Nat.min_eq_left hi]
    · intro j h1 h2
      simp only [nonMemoEntries, List.filter_nil, List.length_nil, Nat.add_zero] at h2
      omega
  | cons v rest ih =>
    intro i r hi
    have hcap : i < DATA_CAPACITY := by simp only [DATA_CAPACITY]; omega
    by_cases hmemo : v.idx = 125
    · obtain ⟨r', hrun, hc, hh, hd, hg, hm, hlow, hmid, hhigh⟩ := ih i
        ⟨r.current, r.hourly, r.daily, Function.update r.data i (entrySlot v), r.graph, v.data⟩ hi
      rw [nonMemoEntries_cons_memo v rest hmemo]
      refine ⟨r', ?_, hc, hh, hd, hg, ?_, ?_, hmid, ?_⟩
      · simp only [idxLoop, writeAt, hcap, if_true, hmemo]
        exact hrun
      · rw [hm]
        simp only [entriesRead, hmemo, if_true, lastMemo]
      · intro j hj
        rw [hlow j hj]
        exact Function.update_noteq (by omega) _ _
      · intro j hj
        rw [hhigh j hj]
        exact Function.update_noteq (by omega) _ _
    · rw [nonMemoEntries_cons_other v rest hmemo]
      by_cases hstop : i > 4
      · have hi5 : i = 5 := by omega
        refine ⟨⟨r.current, r.hourly, r.daily,
          Function.update (Function.update r.data i (entrySlot v)) i
            (classifyEntry v (Function.update r.data i (entrySlot v) i)), r.graph, r.memo⟩,
          ?_, rfl, rfl, rfl, rfl, ?_, ?_, ?_, ?_⟩
        · simp only [idxLoop, writeAt, hcap, if_true, hmemo, if_false, hstop]
          subst hi5
          simp
        · simp only [entriesRead, hmemo, if_false, hstop, if_true, lastMemo]
        · intro j hj
          show Function.update (Function.update r.data i (entrySlot v)) i _ j = _
          rw [Function.update_noteq (by omega), Function.update_noteq (by omega)]
        · intro j h1 h2
          simp only [List.length_cons] at h2
          omega
        · intro j hj
          simp only [List.length_cons] at hj
          show Function.update (Function.update r.data i (entrySlot v)) i _ j = _
          rw [Function.update_noteq (by omega), Function.update_noteq (by omega)]
      · obtain ⟨r', hrun, hc, hh, hd, hg, hm, hlow, hmid, hhigh⟩ := ih (i + 1)
          ⟨r.current, r.hourly, r.daily,
            Function.update (Function.update r.data i (entrySlot v)) i
              (classifyEntry v (Function.update r.data i (entrySlot v) i)), r.graph, r.memo⟩
          (by omega)
        have hlen : i + (v :: nonMemoEntries rest).length
            = i + 1 + (nonMemoEntries rest).length := by
          simp only [List.length_cons]
          omega
        rw [hlen]
        refine ⟨r', ?_, hc, hh, hd, hg, ?_, ?_, ?_, ?_⟩
        · simp only [idxLoop, writeAt, hcap, if_true, hmemo, if_false, hstop]
          exact hrun
        · rw [hm]
          simp only [entriesRead, hmemo, if_false, hstop, lastMemo]
        · intro j hj
          rw [hlow j (by omega)]
          show Function.update (Function.update r.data i (entrySlot v)) i _ j = _
          rw [Function.update_noteq (by omega), Function.update_noteq (by omega)]
        · intro j h1 h2
          by_cases hj : j = i
          · subst hj
            rw [hlow j (by omega)]
            simp
          · have hidx : j - i = (j - (i + 1)) + 1 := by omega
            rw [hidx, List.getElem?_cons_succ]
            exact hmid j (by omega) h2
        · intro j hj
          rw [hhigh j hj]
          show Function.update (Function.update r.data i (entrySlot v)) i _ j = _
          rw [Function.update_noteq (by omega), Function.update_noteq (by omega)]

/-- A successful run of deserialize_Domoticz_API_IDX for a feed with `n`
non-memo entries: the memory entry is in slot `min n 5`, the slots below hold
the non-memo entries in feed order, the slots above are untouched, and `memo`
is the `Data` of the last memo entry read. -/
theorem deserialize_Domoticz_API_IDX_ok (feed : List DomoticzEntry) (heapText : Str)
    (r : requested_data) :
    ∃ r', deserialize_Domoticz_API_IDX DeserializationError.Ok feed heapText r
        = some (DeserializationError.Ok, r') ∧
      r'.memo = lastMemo r.memo (entriesRead feed 0) ∧
      r'.data (min (nonMemoEntries feed).length 5)
        = { icon := 5, description := memoireWord, value := heapText } ∧
      (∀ j, j < min (nonMemoEntries feed).length 5 →
        (nonMemoEntries feed)[j]?.map (fun v => classifyEntry v (entrySlot v))
          = some (r'.data j)) ∧
      ∀ j, min (nonMemoEntries feed).length 5 < j → r'.data j = r.data j := by
  obtain ⟨r1, hrun, -, -, -, -, hm, -, hmid, hhigh⟩ := idxLoop_spec feed 0 r (by omega)
  simp only [Nat.zero_add] at hrun hmid hhigh
  have hcap : min (nonMemoEntries feed).length 5 < DATA_CAPACITY := by
    simp only [DATA_CAPACITY]
    omega
  refine ⟨⟨r1.current, r1.hourly, r1.daily,
    Function.update r1.data (min (nonMemoEntries feed).length 5)
      { icon := 5, description := memoireWord, value := heapText }, r1.graph, r1.memo⟩,
    ?_, hm, ?_, ?_, ?_⟩
  · simp [deserialize_Domoticz_API_IDX, hrun, writeAt, hcap]
  · show Function.update r1.data _ _ _ = _
    rw [Function.update_same]
  · intro j hj
    show _ = some (Function.update r1.data _ _ j)
    rw [Function.update_noteq (by omega)]
    exact hmid j (by omega) hj
  · intro j hj
    show Function.update r1.data _ _ j = _
    rw [Function.update_noteq (by omega)]
    exact hhigh j hj

theorem classifyEntry_description (v : DomoticzEntry) (d : domoticz_t) :
    (classifyEntry v d).description = d.description := by
  unfold classifyEntry
  split_ifs <;> rfl

/-! ### Claims on deserialize_Domoticz_API_IDX -/

/-- C16: for a sensor feed of any length deserialize_Domoticz_API_IDX succeeds
with every write inside `data[0..6]`: the memory entry (icon 5, description
"Memoire") is in slot `i = min n 5 <= 6` for `n` non-memo entries, right after
the retained feed entries, which fill the slots below `i`; every slot above `i`
is untouched. -/
theorem deserialize_Domoticz_API_IDX_memory_entry (feed : List DomoticzEntry) (heapText : Str)
    (r : requested_data) :
    ∃ (r' : requested_data) (i : Nat),
      deserialize_Domoticz_API_IDX DeserializationError.Ok feed heapText r
        = some (DeserializationError.Ok, r') ∧
      i = min (nonMemoEntries feed).length 5 ∧ i ≤ 6 ∧
      (r'.data i).icon = 5 ∧ (r'.data i).description = memoireWord ∧
      (r'.data i).value = heapText ∧
      (∀ j, j < i → ∃ v, (nonMemoEntries feed)[j]? = some v ∧
        r'.data j = classifyEntry v (entrySlot v)) ∧
      ∀ j, i < j → r'.data j = r.data j := by
  obtain ⟨r', hrun, -, hmem, hmid, hhigh⟩ := deserialize_Domoticz_API_IDX_ok feed heapText r
  refine ⟨r', _, hrun, rfl, by omega, ?_, ?_, ?_, ?_, hhigh⟩
  · rw [hmem]
  · rw [hmem]
  · rw [hmem]
  · intro j hj
    have h := hmid j hj
    cases hv : (nonMemoEntries feed)[j]? with
    | none => simp [hv] at h
    | some v =>
      simp only [hv, Option.map_some', Option.some.injEq] at h
      exact ⟨v, rfl, h.symm⟩

/-- C17 (as stated, fails): in the feed of six sensors followed by the memo
entry with `Data = "note"`, the memo entry does not set `memo`: starting from
the zero record `memo` is still empty after a successful run. -/
theorem deserialize_Domoticz_API_IDX_late_memo_ignored :
    ∃ r', deserialize_Domoticz_API_IDX DeserializationError.Ok sixSensorsThenMemo [] zeroRecord
        = some (DeserializationError.Ok, r') ∧
      (∃ v, v ∈ sixSensorsThenMemo ∧ v.idx = 125 ∧ v.data = ['n', 'o', 't', 'e']) ∧
      r'.memo = [] := by
  obtain ⟨r', hrun, hmemo, -⟩ :=
    deserialize_Domoticz_API_IDX_ok sixSensorsThenMemo [] zeroRecord
  refine ⟨r', hrun, ⟨⟨125, [], ['m'], ['n', 'o', 't', 'e']⟩, by decide, rfl, rfl⟩, ?_⟩
  rw [hmemo]
  decide

/-- C17 (amended): for every sensor feed, after deserialize_Domoticz_API_IDX
the memo field holds the `Data` of the last memo entry (idx 125) among the
entries that the loop reads, or its former content when there is none, and the
memo entries occupy no slot: slot `j` below the memory entry holds the `j`-th
non-memo entry of the feed, in feed order, with its `Name` as description. -/
theorem deserialize_Domoticz_API_IDX_memo_and_slots (feed : List DomoticzEntry)
    (heapText : Str) (r : requested_data) :
    ∃ r', deserialize_Domoticz_API_IDX DeserializationError.Ok feed heapText r
        = some (DeserializationError.Ok, r') ∧
      r'.memo = lastMemo r.memo (entriesRead feed 0) ∧
      (r'.data (min (nonMemoEntries feed).length 5)).description = memoireWord ∧
      ∀ j, j < min (nonMemoEntries feed).length 5 →
        ∃ v, (nonMemoEntries feed)[j]? = some v ∧
          r'.data j = classifyEntry v (entrySlot v) ∧ (r'.data j).description = v.name := by
  obtain ⟨r', hrun, hmemo, hmem, hmid, -⟩ := deserialize_Domoticz_API_IDX_ok feed heapText r
  refine ⟨r', hrun, hmemo, by rw [hmem], ?_⟩
  intro j hj
  have h := hmid j hj
  cases hv : (nonMemoEntries feed)[j]? with
  | none => simp [hv] at h
  | some v =>
    simp only [hv, Option.map_some', Option.some.injEq] at h
    exact ⟨v, rfl, h.symm, by rw [← h, classifyEntry_description]; rfl⟩

/-! ### Claim on the error path of the three mappers -/

/-- C20: when JSON deserialization reports an error, each of the three mappers
returns that error and the destination record is unchanged. -/
theorem mappers_return_error_unchanged (error : DeserializationError)
    (herr : error ≠ DeserializationError.Ok) (r : requested_data)
    (doc : MeteoDoc) (hourlyGraphMax : Nat) (rand : Nat → Int)
    (result resultprev : List GraphSample) (feed : List DomoticzEntry) (heapText : Str)
    (fl : ℚ → ℚ) :
    deserialize_Meteo_API error doc hourlyGraphMax rand r = some (error, r) ∧
      deserialize_Domoticz_API_IDX error feed heapText r = some (error, r) ∧
      deserialize_Domoticz_API_GRAPH fl error result resultprev r = some (error, r) := by
  refine ⟨?_, ?_, ?_⟩
  · rw [deserialize_Meteo_API, if_pos herr]
  · rw [deserialize_Domoticz_API_IDX, if_pos herr]
  · rw [deserialize_Domoticz_API_GRAPH, if_pos herr]

/-- Witness for C20 with the error `InvalidInput`. -/
theorem mappers_return_error_unchanged_witness :
    DeserializationError.InvalidInput ≠ DeserializationError.Ok ∧
      (deserialize_Meteo_API DeserializationError.InvalidInput threeDayDoc 24 (fun _ => 10)
          zeroRecord = some (DeserializationError.InvalidInput, zeroRecord) ∧
        deserialize_Domoticz_API_IDX DeserializationError.InvalidInput sixSensorsThenMemo []
          zeroRecord = some (DeserializationError.InvalidInput, zeroRecord) ∧
        deserialize_Domoticz_API_GRAPH (fun x => x) DeserializationError.InvalidInput
          thirtyFourSamples thirtyFourSamples zeroRecord
            = some (DeserializationError.InvalidInput, zeroRecord)) :=
  ⟨by decide,
    mappers_return_error_unchanged DeserializationError.InvalidInput (by decide) zeroRecord
      threeDayDoc 24 (fun _ => 10) thirtyFourSamples thirtyFourSamples sixSensorsThenMemo []
      (fun x => x)⟩

/-! ### Claims on the WiFi descriptor and the error panel -/

/-- C22: getWiFidesc returns no-connection for `rssi = 0`, otherwise Excellent
for `rssi >= -50`, Good for `-60 <= rssi <= -51`, Fair for `-70 <= rssi <= -61`
and Weak for `rssi < -70`; getWiFiBitmap16 picks its icon from the same five
bands; `rssi = -55` gives Good and the 3-bar icon. -/
theorem wifi_bands (rssi : Int) :
    (rssi = 0 → getWiFidesc rssi = WiFiText.TXT_WIFI_NO_CONNECTION ∧
        getWiFiBitmap16 rssi = WiFiBitmap.wifi_x_16x16) ∧
      (rssi ≠ 0 → -50 ≤ rssi → getWiFidesc rssi = WiFiText.TXT_WIFI_EXCELLENT ∧
        getWiFiBitmap16 rssi = WiFiBitmap.wifi_16x16) ∧
      (-60 ≤ rssi → rssi ≤ -51 → getWiFidesc rssi = WiFiText.TXT_WIFI_GOOD ∧
        getWiFiBitmap16 rssi = WiFiBitmap.wifi_3_bar_16x16) ∧
      (-70 ≤ rssi → rssi ≤ -61 → getWiFidesc rssi = WiFiText.TXT_WIFI_FAIR ∧
        getWiFiBitmap16 rssi = WiFiBitmap.wifi_2_bar_16x16) ∧
      (rssi < -70 → getWiFidesc rssi = WiFiText.TXT_WIFI_WEAK ∧
        getWiFiBitmap16 rssi = WiFiBitmap.wifi_1_bar_16x16) ∧
      getWiFidesc (-55) = WiFiText.TXT_WIFI_GOOD ∧
      getWiFiBitmap16 (-55) = WiFiBitmap.wifi_3_bar_16x16 := by
  refine ⟨?_, ?_, ?_, ?_, ?_, by decide, by decide⟩
  · intro h
    simp [getWiFidesc, getWiFiBitmap16, h]
  · intro h0 h
    simp [getWiFidesc, getWiFiBitmap16, h0, h]
  · intro h1 h2
    have h0 : rssi ≠ 0 := by omega
    have h50 : ¬ (-50 ≤ rssi) := by omega
    simp [getWiFidesc, getWiFiBitmap16, h0, h50, h1]
  · intro h1 h2
    have h0 : rssi ≠ 0 := by omega
    have h50 : ¬ (-50 ≤ rssi) := by omega
    have h60 : ¬ (-60 ≤ rssi) := by omega
    simp [getWiFidesc, getWiFiBitmap16, h0, h50, h60, h1]
  · intro h1
    have h0 : rssi ≠ 0 := by omega
    have h50 : ¬ (-50 ≤ rssi) := by omega
    have h60 : ¬ (-60 ≤ rssi) := by omega
    have h70 : ¬ (-70 ≤ rssi) := by omega
    simp [getWiFidesc, getWiFiBitmap16, h0, h50, h60, h70]

/-- C23 (as stated, fails): with an empty line 1 and the line 2 "x" (not both
lines non-empty) drawError still draws the two lines with drawString and does
not call drawMultiLnString. -/
theorem drawError_two_lines_with_empty_first :
    drawError 800 480 [] ['x'] =
      [ DrawCall.drawString 400 359 [] alignment_t.CENTER,
        DrawCall.drawString 400 414 ['x'] alignment_t.CENTER,
        DrawCall.drawInvertedBitmap 302 21 196 196 ] := by
  decide

/-- C23 (amended): drawError uses the two-line mode (line 1 and line 2 each
drawn once with drawString, centred, 55 pixels apart) exactly when line 2 is
non-empty, whatever line 1; when line 2 is empty, line 1 is passed to
drawMultiLnString with width `USABLE_WIDTH - 200` and a budget of 2 lines. -/
theorem drawError_modes (usableWidth usableHeight : Int) (errMsgLn1 errMsgLn2 : Str) :
    (errMsgLn2 ≠ [] →
        drawError usableWidth usableHeight errMsgLn1 errMsgLn2 =
          [ DrawCall.drawString (Int.tdiv usableWidth 2)
              (Int.tdiv usableHeight 2 + 98 + 21) errMsgLn1 alignment_t.CENTER,
            DrawCall.drawString (Int.tdiv usableWidth 2)
              (Int.tdiv usableHeight 2 + 98 + 21 + 55) errMsgLn2 alignment_t.CENTER,
            DrawCall.drawInvertedBitmap (Int.tdiv usableWidth 2 - 98)
              (Int.tdiv usableHeight 2 - 98 - 21 - 100) 196 196 ]) ∧
      (errMsgLn2 = [] →
        drawError usableWidth usableHeight errMsgLn1 errMsgLn2 =
          [ DrawCall.drawMultiLnString (Int.tdiv usableWidth 2)
              (Int.tdiv usableHeight 2 + 98 + 21) errMsgLn1 alignment_t.CENTER
              (toUInt16 (usableWidth - 200)) 2 55,
            DrawCall.drawInvertedBitmap (Int.tdiv usableWidth 2 - 98)
              (Int.tdiv usableHeight 2 - 98 - 21 - 100) 196 196 ]) := by
  have h98 : Int.tdiv 196 2 = 98 := by decide
  constructor
  · intro h
    simp [drawError, h, h98]
  · intro h
    simp [drawError, h, h98]

/-! ### Claims on the results of the mappers -/

/-- C21 (as stated, fails): for a syntactically valid document (JSON
deserialization reports `Ok`) without the member `daily`, resp. without the
member `result`, each mapper returns `Ok`, not an error. -/
theorem mappers_accept_missing_structure :
    (∃ r', deserialize_Meteo_API DeserializationError.Ok noDailyDoc 24 (fun _ => 10) zeroRecord
        = some (DeserializationError.Ok, r')) ∧
      (∃ r', deserialize_Domoticz_API_IDX DeserializationError.Ok [] [] zeroRecord
        = some (DeserializationError.Ok, r')) ∧
      (∀ fl : ℚ → ℚ, ∃ r', deserialize_Domoticz_API_GRAPH fl DeserializationError.Ok [] []
          zeroRecord = some (DeserializationError.Ok, r')) := by
  obtain ⟨r1, h1, -⟩ :=
    deserialize_Meteo_API_ok noDailyDoc 24 (fun _ => 10) zeroRecord (le_refl 24)
  obtain ⟨r2, h2, -⟩ := deserialize_Domoticz_API_IDX_ok [] [] zeroRecord
  exact ⟨⟨r1, h1⟩, ⟨r2, h2⟩, fun fl => ⟨zeroRecord, rfl⟩⟩

/-- C21 (amended): a syntactically valid document whose top-level structure is
missing is accepted. When the forecast document has no `daily` object (and
`HOURLY_GRAPH_MAX <= 24`), when the sensor-list document has no `result` array,
and when the graph document has neither `result` nor `resultprev`, the loops of
the mapper run zero times and the mapper returns the result of JSON
deserialization: `Ok` for a valid document, the error otherwise. -/
theorem mappers_return_deserialization_result (error : DeserializationError)
    (doc : MeteoDoc) (hourlyGraphMax : Nat) (rand : Nat → Int) (heapText : Str)
    (fl : ℚ → ℚ) (r : requested_data) (hH : hourlyGraphMax ≤ 24)
    (hdaily : doc.daily_time = []) :
    (∃ r', deserialize_Meteo_API error doc hourlyGraphMax rand r = some (error, r') ∧
        ∀ j, r'.daily j = r.daily j) ∧
      (∃ r', deserialize_Domoticz_API_IDX error [] heapText r = some (error, r') ∧
        r'.memo = r.memo) ∧
      deserialize_Domoticz_API_GRAPH fl error [] [] r = some (error, r) := by
  by_cases herr : error = DeserializationError.Ok
  · subst herr
    obtain ⟨r1, h1, -, -, -, -, hd1⟩ := deserialize_Meteo_API_ok doc hourlyGraphMax rand r hH
    obtain ⟨r2, h2, hm2, -⟩ := deserialize_Domoticz_API_IDX_ok [] heapText r
    refine ⟨⟨r1, h1, ?_⟩, ⟨r2, h2, hm2⟩, rfl⟩
    intro j
    rw [hd1 j, hdaily]
    simp
  · refine ⟨⟨r, ?_, fun j => rfl⟩, ⟨r, ?_, rfl⟩, ?_⟩
    · rw [deserialize_Meteo_API, if_pos herr]
    · rw [deserialize_Domoticz_API_IDX, if_pos herr]
    · rw [deserialize_Domoticz_API_GRAPH, if_pos herr]

/-- Witness for C21 (amended): the document without `daily` and empty feeds. -/
theorem mappers_return_deserialization_result_witness :
    (24 : Nat) ≤ 24 ∧ noDailyDoc.daily_time = [] ∧
      ((∃ r', deserialize_Meteo_API DeserializationError.Ok noDailyDoc 24 (fun _ => 10)
          zeroRecord = some (DeserializationError.Ok, r') ∧
          ∀ j, r'.daily j = zeroRecord.daily j) ∧
        (∃ r', deserialize_Domoticz_API_IDX DeserializationError.Ok [] [] zeroRecord
          = some (DeserializationError.Ok, r') ∧ r'.memo = zeroRecord.memo) ∧
        deserialize_Domoticz_API_GRAPH (fun x => x) DeserializationError.Ok [] []
          zeroRecord = some (DeserializationError.Ok, zeroRecord)) :=
  ⟨le_refl 24, rfl,
    mappers_return_deserialization_result DeserializationError.Ok noDailyDoc 24 (fun _ => 10)
      [] (fun x => x) zeroRecord (le_refl 24) rfl⟩

/-- The icon that the `else if` chain leaves in a slot filled from an entry. -/
theorem classifyEntry_icon (v : DomoticzEntry) :
    (classifyEntry v (entrySlot v)).icon =
      if v.type = humidityWord then 3
      else if v.type = tempWord then 4
      else if v.idx = 124 then 2
      else if v.idx = 35 then 1
      else 9 := by
  unfold classifyEntry
  split_ifs <;> rfl

/-- C28 (as stated, fails): in the feed of six temperature sensors and a memo,
the sixth sensor, named `f`, is a non-memo entry of Type "Temp", yet after the
run no slot holds it: slot 5 has the icon 5 of the memory entry, and no slot
has the description `f`. -/
theorem deserialize_Domoticz_API_IDX_sixth_entry_not_classified :
    ∃ r', deserialize_Domoticz_API_IDX DeserializationError.Ok sixSensorsThenMemo []
          zeroRecord = some (DeserializationError.Ok, r') ∧
      (∃ v, (nonMemoEntries sixSensorsThenMemo)[5]? = some v ∧ v.type = tempWord ∧
        v.name = ['f']) ∧
      (r'.data 5).icon = 5 ∧ ∀ j, (r'.data j).description ≠ ['f'] := by
  obtain ⟨r', hrun, -, hmem, hmid, hhigh⟩ :=
    deserialize_Domoticz_API_IDX_ok sixSensorsThenMemo [] zeroRecord
  have hn : min (nonMemoEntries sixSensorsThenMemo).length 5 = 5 := by decide
  rw [hn] at hmem hmid hhigh
  refine ⟨r', hrun, ⟨⟨6, tempWord, ['f'], ['6']⟩, by decide, rfl, rfl⟩, by rw [hmem], ?_⟩
  intro j
  rcases Nat.lt_trichotomy j 5 with hj | hj | hj
  · have h := hmid j hj
    have hall : ∀ i, i < 5 → ∀ d : domoticz_t,
        (nonMemoEntries sixSensorsThenMemo)[i]?.map (fun v => classifyEntry v (entrySlot v))
          = some d → d.description ≠ ['f'] := by
      intro i hi d hd
      interval_cases i <;>
        · simp only [nonMemoEntries, sixSensorsThenMemo] at hd
          simp at hd
          rw [← hd]
          decide
    exact hall j hj _ h
  · rw [hj, hmem]
    decide
  · rw [hhigh j hj]
    show ([] : Str) ≠ ['f']
    decide

/-- C28 (amended): in every slot that deserialize_Domoticz_API_IDX keeps from a
non-memo feed entry (the first five of them, in slots 0..4) the icon is 3 when
Type is exactly "Humidity", else 4 when Type is exactly "Temp", else 2 when
idx = 124, else 1 when idx = 35, else 9; the types "humidity" and "Temperature"
fall through to the idx tests. -/
theorem deserialize_Domoticz_API_IDX_icons (feed : List DomoticzEntry) (heapText : Str)
    (r : requested_data) :
    (∃ r', deserialize_Domoticz_API_IDX DeserializationError.Ok feed heapText r
          = some (DeserializationError.Ok, r') ∧
        ∀ j, j < min (nonMemoEntries feed).length 5 →
          ∃ v, (nonMemoEntries feed)[j]? = some v ∧
            (r'.data j).icon =
              if v.type = humidityWord then 3
              else if v.type = tempWord then 4
              else if v.idx = 124 then 2
              else if v.idx = 35 then 1
              else 9) ∧
      (classifyEntry ⟨124, "humidity".toList, [], []⟩
          (entrySlot ⟨124, "humidity".toList, [], []⟩)).icon = 2 ∧
      (classifyEntry ⟨35, "Temperature".toList, [], []⟩
          (entrySlot ⟨35, "Temperature".toList, [], []⟩)).icon = 1 ∧
      (classifyEntry ⟨7, "Temperature".toList, [], []⟩
          (entrySlot ⟨7, "Temperature".toList, [], []⟩)).icon = 9 := by
  refine ⟨?_, by decide, by decide, by decide⟩
  obtain ⟨r', hrun, -, -, hmid, -⟩ := deserialize_Domoticz_API_IDX_ok feed heapText r
  refine ⟨r', hrun, ?_⟩
  intro j hj
  have h := hmid j hj
  cases hv : (nonMemoEntries feed)[j]? with
  | none => simp [hv] at h
  | some v =>
    simp only [hv, Option.map_some', Option.some.injEq] at h
    exact ⟨v, rfl, by rw [← h, classifyEntry_icon]⟩

/-- C29 (as stated, fails): a sample whose date string is `2024` has no
character at offset 8: the read `day[8]` is past the terminator, and the run of
the mapper is undefined, whatever the rounding and the destination record. -/
theorem deserialize_Domoticz_API_GRAPH_short_date_undefined :
    cstrAt (some "2024".toList) 8 = none ∧
      ∀ (fl : ℚ → ℚ) (r : requested_data),
        deserialize_Domoticz_API_GRAPH fl DeserializationError.Ok
          [{ d := some "2024".toList, v1 := 1, v2 := 2 }] [] r = none := by
  have h8 : cstrAt (some "2024".toList) 8 = none := by decide
  refine ⟨h8, ?_⟩
  intro fl r
  have hne : ¬ DeserializationError.Ok ≠ DeserializationError.Ok := by simp
  simp only [deserialize_Domoticz_API_GRAPH, if_neg hne, graphLoop, graphValue, h8,
    Option.none_bind]

/-- C29 (amended): when the first 33 samples of the series can be read (a date
string of at least nine characters in the current series, a sum that fits `int`
in both series), the mapper succeeds, and for every `k < 33`
`graph[k].value` is the `float` sum `v1 + v2` of `result[k]` converted to `int`,
`graph[k].dt` holds the characters at offsets 8 and 9 of its date string, and
`graph[k].prev_value` is the `float` sum `v1 + v2` of `resultprev[k]` converted
to `int`; the date "2024-01-15" gives the label "15". -/
theorem deserialize_Domoticz_API_GRAPH_values (fl : ℚ → ℚ)
    (result resultprev : List GraphSample) (r : requested_data)
    (hres : ∀ k v, k < 33 → result[k]? = some v → v.hasDay = true ∧ v.sumFits fl = true)
    (hprev : ∀ k w, k < 33 → resultprev[k]? = some w → w.sumFits fl = true) :
    (∃ r', deserialize_Domoticz_API_GRAPH fl DeserializationError.Ok result resultprev r
          = some (DeserializationError.Ok, r') ∧
        ∀ k, k < 33 →
          (∀ v, result[k]? = some v →
            (r'.graph k).value = castInt (fl (v.v1 + v.v2)) ∧
            -2147483648 ≤ (r'.graph k).value ∧ (r'.graph k).value ≤ 2147483647 ∧
            ∃ s, v.d = some s ∧ 9 ≤ s.length ∧
              (r'.graph k).dt0 = charAt s 8 ∧ (r'.graph k).dt1 = charAt s 9) ∧
          (∀ w, resultprev[k]? = some w →
            (r'.graph k).prev_value = castInt (fl (w.v1 + w.v2)) ∧
            -2147483648 ≤ (r'.graph k).prev_value ∧
            (r'.graph k).prev_value ≤ 2147483647)) ∧
      charAt "2024-01-15".toList 8 = '1' ∧ charAt "2024-01-15".toList 9 = '5' := by
  refine ⟨?_, by decide, by decide⟩
  obtain ⟨r', hrun, hcur, hprv, -⟩ :=
    deserialize_Domoticz_API_GRAPH_ok fl result resultprev r hres hprev
  refine ⟨r', hrun, ?_⟩
  intro k hk
  constructor
  · intro v hv
    obtain ⟨h8, h9, hsum⟩ := hcur k v hk hv
    obtain ⟨s, hd, hlen, h8s, h9s⟩ := cstrAt_of_hasDay v (hres k v hk hv).1
    obtain ⟨hval, hr1, hr2⟩ := toInt_eq_some hsum
    rw [h8s] at h8
    rw [h9s] at h9
    simp only [Option.some.injEq] at h8 h9
    exact ⟨hval, by rw [hval]; exact hr1, by rw [hval]; exact hr2, s, hd, hlen, h8.symm,
      h9.symm⟩
  · intro w hw
    obtain ⟨hval, hr1, hr2⟩ := toInt_eq_some (hprv k w hk hw)
    exact ⟨hval, by rw [hval]; exact hr1, by rw [hval]; exact hr2⟩

/-- Witness for C29 (amended): the 34 samples dated 2024-01-15, exact rounding. -/
theorem deserialize_Domoticz_API_GRAPH_values_witness :
    (∀ k v, k < 33 → thirtyFourSamples[k]? = some v →
        v.hasDay = true ∧ v.sumFits (fun x => x) = true) ∧
      (∀ k w, k < 33 → thirtyFourSamples[k]? = some w → w.sumFits (fun x => x) = true) ∧
      (∃ r', deserialize_Domoticz_API_GRAPH (fun x => x) DeserializationError.Ok
            thirtyFourSamples thirtyFourSamples zeroRecord
          = some (DeserializationError.Ok, r') ∧
        ∀ k, k < 33 →
          (∀ v, thirtyFourSamples[k]? = some v →
            (r'.graph k).value = castInt ((fun x : ℚ => x) (v.v1 + v.v2)) ∧
            -2147483648 ≤ (r'.graph k).value ∧ (r'.graph k).value ≤ 2147483647 ∧
            ∃ s, v.d = some s ∧ 9 ≤ s.length ∧
              (r'.graph k).dt0 = charAt s 8 ∧ (r'.graph k).dt1 = charAt s 9) ∧
          (∀ w, thirtyFourSamples[k]? = some w →
            (r'.graph k).prev_value = castInt ((fun x : ℚ => x) (w.v1 + w.v2)) ∧
            -2147483648 ≤ (r'.graph k).prev_value ∧
            (r'.graph k).prev_value ≤ 2147483647)) ∧
      charAt "2024-01-15".toList 8 = '1' ∧ charAt "2024-01-15".toList 9 = '5' :=
  ⟨fun k v _ hv =>
      ⟨(thirtyFourSamples_readable _ ⟨fun _ _ h => h, fun _ _ _ => rfl⟩ k v hv).1,
        (thirtyFourSamples_readable _ ⟨fun _ _ h => h, fun _ _ _ => rfl⟩ k v hv).2.1⟩,
    fun k v _ hv => (thirtyFourSamples_readable _ ⟨fun _ _ h => h, fun _ _ _ => rfl⟩ k v hv).2.1,
    deserialize_Domoticz_API_GRAPH_values (fun x => x) thirtyFourSamples thirtyFourSamples
      zeroRecord
      (fun k v _ hv =>
        ⟨(thirtyFourSamples_readable _ ⟨fun _ _ h => h, fun _ _ _ => rfl⟩ k v hv).1,
          (thirtyFourSamples_readable _ ⟨fun _ _ h => h, fun _ _ _ => rfl⟩ k v hv).2.1⟩)
      (fun k v _ hv =>
        (thirtyFourSamples_readable _ ⟨fun _ _ h => h, fun _ _ _ => rfl⟩ k v hv).2.1)⟩

/-! ### Claim on the indices read by drawConsumptionGraph -/

/-- C30: for every graph array and window size `W >= 1`, with `z` the index at
which the first-day search stops, `firstday = z - W` is negative exactly when
`z < W`, the indices read are `i + firstday` unclamped, and all of them lie in
`0..34` if and only if `z >= W`. -/
theorem consumption_indices_in_bounds_iff (value : Nat → Int) (dailyGraphMax : Nat)
    (hW : 1 ≤ dailyGraphMax) :
    (firstDay value (dailyGraphMax : Int) < 0 ↔ firstDayIndex value < (dailyGraphMax : Int)) ∧
      consumptionReadIndices value dailyGraphMax =
        (List.range dailyGraphMax).map
          (fun i : Nat => (i : Int) + (firstDayIndex value - (dailyGraphMax : Int))) ∧
      ((∀ idx ∈ consumptionReadIndices value dailyGraphMax, 0 ≤ idx ∧ idx ≤ 34) ↔
        (dailyGraphMax : Int) ≤ firstDayIndex value) := by
  obtain ⟨z, hz1, hz2, hrun, -, -⟩ := firstDayLoop_spec value 32 1 0
  have hidx : firstDayIndex value = (z : Int) := hrun
  have hfd : firstDay value (dailyGraphMax : Int) = (z : Int) - (dailyGraphMax : Int) := by
    simp only [firstDay, hidx]
  refine ⟨?_, ?_, ?_⟩
  · rw [hfd, hidx]
    omega
  · simp only [consumptionReadIndices, firstDay]
  · constructor
    · intro h
      have hmem : ((0 : Nat) : Int) + firstDay value (dailyGraphMax : Int)
          ∈ consumptionReadIndices value dailyGraphMax := by
        unfold consumptionReadIndices
        have h0 : 0 ∈ List.range dailyGraphMax := List.mem_range.mpr (by omega)
        exact List.mem_map_of_mem (fun i : Nat => (i : Int) + firstDay value (dailyGraphMax : Int)) h0
      have h0 := h _ hmem
      rw [hfd] at h0
      rw [hidx]
      omega
    · intro h idx hmem
      unfold consumptionReadIndices at hmem
      obtain ⟨i, hi, rfl⟩ := List.exists_of_mem_map hmem
      have hi' : i < dailyGraphMax := List.mem_range.mp hi
      rw [hfd]
      rw [hidx] at h
      omega

/-- Witness for C30: window size 35 and the array with entries 1..29 non-zero. -/
theorem consumption_indices_in_bounds_iff_witness :
    1 ≤ 35 ∧
      ((firstDay (fun i => if i < 30 then 12 else 0) ((35 : Nat) : Int) < 0 ↔
          firstDayIndex (fun i => if i < 30 then 12 else 0) < ((35 : Nat) : Int)) ∧
        consumptionReadIndices (fun i => if i < 30 then 12 else 0) 35 =
          (List.range 35).map
            (fun i : Nat => (i : Int)
              + (firstDayIndex (fun i => if i < 30 then 12 else 0) - ((35 : Nat) : Int))) ∧
        ((∀ idx ∈ consumptionReadIndices (fun i => if i < 30 then 12 else 0) 35,
            0 ≤ idx ∧ idx ≤ 34) ↔
          ((35 : Nat) : Int) ≤ firstDayIndex (fun i => if i < 30 then 12 else 0))) :=
  ⟨by decide, consumption_indices_in_bounds_iff (fun i => if i < 30 then 12 else 0) 35 (by decide)⟩

/-! ### Claim on the hourly placeholder data -/

theorem meteoDailyLoop_hourly (doc : MeteoDoc) :
    ∀ (times : List Int) (i : Nat) (r r' : requested_data),
      meteoDailyLoop doc times i r = some r' → r'.hourly = r.hourly := by
  intro times
  induction times with
  | nil =>
    intro i r r' h
    simp only [meteoDailyLoop, Option.some.injEq] at h
    rw [← h]
  | cons v rest ih =>
    intro i r r' h
    unfold meteoDailyLoop at h
    by_cases hi : i = 0
    · simp only [hi, if_true] at h
      split at h
      · simp only [Option.some.injEq] at h
        rw [← h]
        rfl
      · exact (ih _ _ _ h).trans rfl
    · simp only [hi, if_false, writeAt] at h
      by_cases hcap : i - 1 < METEO_NUM_DAILY
      · simp only [hcap, if_true, Option.map_some'] at h
        split at h
        · simp only [Option.some.injEq] at h
          rw [← h]
        · exact (ih _ _ _ h).trans rfl
      · simp [hcap] at h

theorem fakeHourlyLoop_below (rand : Nat → Int) :
    ∀ (n i : Nat) (r r' : requested_data), fakeHourlyLoop rand n i r = some r' →
      ∀ j, j < i → r'.hourly j = r.hourly j := by
  intro n
  induction n with
  | zero =>
    intro i r r' h j _
    simp only [fakeHourlyLoop, Option.some.injEq] at h
    rw [← h]
  | succ m ih =>
    intro i r r' h j hj
    unfold fakeHourlyLoop at h
    by_cases hcap : i < METEO_NUM_HOURLY
    · simp only [writeAt, hcap, if_true] at h
      rw [ih (i + 1) _ r' h j (by omega)]
      exact Function.update_noteq (by omega) _ _
    · simp [writeAt, hcap] at h

/-- Slot 0 of `hourly` is never written by deserialize_Meteo_API. -/
theorem deserialize_Meteo_API_hourly_zero (error : DeserializationError) (doc : MeteoDoc)
    (hourlyGraphMax : Nat) (rand : Nat → Int) (r r' : requested_data)
    (e : DeserializationError)
    (h : deserialize_Meteo_API error doc hourlyGraphMax rand r = some (e, r')) :
    r'.hourly 0 = r.hourly 0 := by
  unfold deserialize_Meteo_API at h
  split at h
  · simp only [Option.some.injEq, Prod.mk.injEq] at h
    rw [← h.2]
  · split at h
    · simp at h
    · rename_i r1 hloop
      split at h
      · simp at h
      · rename_i r2 hfake
        simp only [Option.some.injEq, Prod.mk.injEq] at h
        rw [← h.2, fakeHourlyLoop_below rand _ 1 r1 r2 hfake 0 (by omega),
          meteoDailyLoop_hourly doc _ 0 _ r1 hloop]
        rfl

/-- C27 (fails on the code): after a successful run on the nine-day document
(first timestamp 100) from the zero record with `HOURLY_GRAPH_MAX = 24`,
`current.dt` is 100 but `hourly[0]` is not populated: its timestamp, temperature
and precipitation probability are still 0. -/
theorem deserialize_Meteo_API_hourly_zero_unpopulated :
    ∃ r', deserialize_Meteo_API DeserializationError.Ok nineDayDoc 24 (fun _ => 10) zeroRecord
        = some (DeserializationError.Ok, r') ∧
      r'.current.dt = 100 ∧ (r'.hourly 0).dt = 0 ∧ (r'.hourly 0).temp = 0 ∧
      (r'.hourly 0).pop = 0 := by
  obtain ⟨r', hrun, -, -, -, hcur, -⟩ :=
    deserialize_Meteo_API_ok nineDayDoc 24 (fun _ => 10) zeroRecord (le_refl 24)
  have h0 := deserialize_Meteo_API_hourly_zero _ _ _ _ _ _ _ hrun
  refine ⟨r', hrun, ?_, ?_, ?_, ?_⟩
  · rw [hcur 100 [101, 102, 103, 104, 105, 106, 107, 108] rfl]
    rfl
  · rw [h0]; rfl
  · rw [h0]; rfl
  · rw [h0]; rfl

/-! ### Claim on the battery percentage -/

theorem batPercentOf_le (y : ℚ) : batPercentOf y ≤ 100 := by
  unfold batPercentOf
  simp only
  split <;> omega

/-- C26 (fails on the code): calcBatPercent is at most 100, but it drops the
fraction instead of rounding to the nearest integer. With `v = 6125`,
`minv = 0`, `maxv = 13792` the argument of `pow` is `49/64`, whose power 5.5 is
`(7/8)^11`; the sigmoid value lies between 19.5 and 20 and the result is 19. -/
theorem calcBatPercent_drops_fraction :
    (∀ (pow : ℚ → ℚ → ℚ) (v minv maxv : Nat), calcBatPercent pow v minv maxv ≤ 100) ∧
      (∀ pow : ℚ → ℚ → ℚ,
        calcBatPercent pow 6125 0 13792 = batPercentOf (pow (49 / 64) (11 / 2))) ∧
      (((7 : ℚ) / 8) ^ 11) ^ 2 = ((49 : ℚ) / 64) ^ 11 ∧
      batPercentOf (((7 : ℚ) / 8) ^ 11) = 19 ∧
      (19 : ℚ) + 1 / 2 < 105 - 105 / (1 + ((7 : ℚ) / 8) ^ 11) ∧
      105 - 105 / (1 + ((7 : ℚ) / 8) ^ 11) < (20 : ℚ) := by
  have hratio : batRatio 6125 0 13792 = 49 / 64 := by
    decide!
  refine ⟨fun pow v minv maxv => batPercentOf_le _, ?_, by norm_num, ?_, by norm_num,
    by norm_num⟩
  · intro pow
    simp only [calcBatPercent, hratio]
    norm_num
  · decide!

/-! ### Claims on the alert text -/

theorem charAt_append_length (pre : Str) (a : Char) (rest : Str) :
    charAt (pre ++ a :: rest) pre.length = a := by
  induction pre with
  | nil => rfl
  | cons x xs ih => simpa [charAt] using ih

theorem charAt_append_length_succ (pre : Str) (a b : Char) (rest : Str) :
    charAt (pre ++ a :: b :: rest) (pre.length + 1) = b := by
  induction pre with
  | nil => rfl
  | cons x xs ih => simpa [charAt] using ih

theorem setCharAt_append_length_succ (pre : Str) (a b x : Char) (rest : Str) :
    setCharAt (pre ++ a :: b :: rest) (pre.length + 1) x = pre ++ a :: x :: rest := by
  have hlt : pre.length + 1 < (pre ++ a :: b :: rest).length := by
    simp only [List.length_append, List.length_cons]
    omega
  simp only [setCharAt, hlt, if_true]
  induction pre with
  | nil => rfl
  | cons y ys ih => simp

/-- The loop of toTitleCase, started after the characters `pre ++ [p]`, rewrites
the rest of the text as `titleCaseFrom p`. -/
theorem titleCaseLoop_eq :
    ∀ (todo pre : Str) (p : Char),
      titleCaseLoop todo.length (pre.length + 1) (pre ++ p :: todo)
        = pre ++ p :: titleCaseFrom p todo := by
  intro todo
  induction todo with
  | nil =>
    intro pre p
    rfl
  | cons c cs ih =>
    intro pre p
    have hprev : charAt (pre ++ p :: c :: cs) (pre.length + 1 - 1) = p := by
      rw [Nat.add_sub_cancel]
      exact charAt_append_length pre p (c :: cs)
    have hcur : charAt (pre ++ p :: c :: cs) (pre.length + 1) = c :=
      charAt_append_length_succ pre p c cs
    have hnext := ih (pre ++ [p]) (if startsWord p then c.toUpper else c.toLower)
    simp only [List.length_append, List.length_singleton, List.append_assoc,
      List.singleton_append] at hnext
    simp only [List.length_cons, titleCaseLoop, hprev, hcur, titleCaseFrom]
    cases hp : startsWord p with
    | true =>
      simp only [hp, if_true] at hnext ⊢
      rw [setCharAt_append_length_succ]
      exact hnext
    | false =>
      simp only [hp, Bool.false_eq_true, if_false] at hnext ⊢
      rw [setCharAt_append_length_succ]
      exact hnext

theorem toTitleCase_cons (c : Char) (cs : Str) :
    toTitleCase (c :: cs) = c.toUpper :: titleCaseFrom c.toUpper cs := by
  have h := titleCaseLoop_eq cs [] c.toUpper
  simpa [toTitleCase, setCharAt, charAt] using h

theorem startsWord_ofNat_upper :
    ∀ n : Nat, 97 ≤ n → n ≤ 122 → startsWord (Char.ofNat (n - 32)) = false := by
  intro n h1 h2
  interval_cases n <;> rfl

theorem startsWord_ofNat_lower :
    ∀ n : Nat, 65 ≤ n → n ≤ 90 → startsWord (Char.ofNat (n + 32)) = false := by
  intro n h1 h2
  interval_cases n <;> rfl

theorem startsWord_eq_true (c : Char) (h : startsWord c = true) :
    c.toNat = 32 ∨ c.toNat = 45 ∨ c.toNat = 40 := by
  simp only [startsWord, Bool.or_eq_true, beq_iff_eq] at h
  rcases h with (h | h) | h <;> subst h <;> decide

/-- Changing the case of a character does not change the test of toTitleCase. -/
theorem startsWord_toUpper (c : Char) : startsWord c.toUpper = startsWord c := by
  unfold Char.toUpper
  simp only
  split
  · rename_i hr
    rw [startsWord_ofNat_upper _ hr.1 hr.2]
    cases hc : startsWord c with
    | false => rfl
    | true =>
      have := startsWord_eq_true c hc
      omega
  · rfl

theorem startsWord_toLower (c : Char) : startsWord c.toLower = startsWord c := by
  unfold Char.toLower
  simp only
  split
  · rename_i hr
    rw [startsWord_ofNat_lower _ hr.1 hr.2]
    cases hc : startsWord c with
    | false => rfl
    | true =>
      have := startsWord_eq_true c hc
      omega
  · rfl

theorem titleCaseFrom_length (cs : Str) : ∀ p : Char, (titleCaseFrom p cs).length = cs.length := by
  induction cs with
  | nil => intro p; rfl
  | cons c cs ih => intro p; simp [titleCaseFrom, ih]

/-- Character `i` of `titleCaseFrom p cs`, in terms of the characters of the
input: the test is made on the input character just before it. -/
theorem titleCaseFrom_getElem? :
    ∀ (cs : Str) (p q : Char) (i : Nat), startsWord p = startsWord q → i < cs.length →
      (titleCaseFrom p cs)[i]? =
        some (if startsWord (charAt (q :: cs) i) then (charAt cs i).toUpper
          else (charAt cs i).toLower) := by
  intro cs
  induction cs with
  | nil =>
    intro p q i _ hi
    simp at hi
  | cons c cs ih =>
    intro p q i hpq hi
    cases i with
    | zero =>
      simp [titleCaseFrom, charAt, hpq]
    | succ k =>
      have hk : k < cs.length := by
        simp only [List.length_cons] at hi
        omega
      have hcase : startsWord (if startsWord p then c.toUpper else c.toLower) = startsWord c := by
        split
        · exact startsWord_toUpper c
        · exact startsWord_toLower c
      have := ih (if startsWord p then c.toUpper else c.toLower) c k hcase hk
      simpa [titleCaseFrom, charAt] using this

set_option maxRecDepth 8000 in
/-- C24: for every string the output of toTitleCase has the same length, its
first character is the upper-cased first input character, and each later
character is upper-cased when the character before it is a space, a hyphen or
'(' and lower-cased otherwise; both spellings of "severe thunderstorm warning"
become "Severe Thunderstorm Warning". -/
theorem toTitleCase_spec (text : Str) :
    (toTitleCase text).length = text.length ∧
      (toTitleCase text).head? = text.head?.map Char.toUpper ∧
      (∀ i, 1 ≤ i → i < text.length →
        (toTitleCase text)[i]? =
          some (if charAt text (i - 1) = ' ' ∨ charAt text (i - 1) = '-'
              ∨ charAt text (i - 1) = '(' then (charAt text i).toUpper
            else (charAt text i).toLower)) ∧
      toTitleCase "severe thunderstorm warning".toList = "Severe Thunderstorm Warning".toList ∧
      toTitleCase "SEVERE THUNDERSTORM WARNING".toList = "Severe Thunderstorm Warning".toList := by
  refine ⟨?_, ?_, ?_, by decide, by decide⟩
  · cases text with
    | nil => rfl
    | cons c cs => simp [toTitleCase_cons, titleCaseFrom_length]
  · cases text with
    | nil => rfl
    | cons c cs => simp [toTitleCase_cons]
  · intro i h1 hi
    cases text with
    | nil => simp at hi
    | cons c cs =>
      obtain ⟨k, rfl⟩ : ∃ k, i = k + 1 := ⟨i - 1, by omega⟩
      have hk : k < cs.length := by
        simp only [List.length_cons] at hi
        omega
      have h := titleCaseFrom_getElem? cs c.toUpper c k (startsWord_toUpper c) hk
      rw [toTitleCase_cons, List.getElem?_cons_succ, h]
      simp [startsWord, charAt, or_assoc]

/-- C25 (fails on the code): truncateExtraAlertInfo never looks at the first
character: "(Test) Tornado Warning" is returned whole although '(' occurs at
index 0, and " , x" becomes " " with its space kept; the example of the doc
comment is cut as documented. -/
theorem truncateExtraAlertInfo_skips_first_char :
    truncateExtraAlertInfo "(Test) Tornado Warning".toList = "(Test) Tornado Warning".toList ∧
      truncateExtraAlertInfo " , x".toList = " ".toList ∧
      truncateExtraAlertInfo "Severe Thunderstorm Warning, (Starting At 10 Pm)".toList
        = "Severe Thunderstorm Warning".toList := by
  refine ⟨by decide, by decide, by decide⟩

/-! ### Claims on the line break marker and on a text that fits -/

/-- A pass of the outer loop on a text that fits: the inner loop is not entered,
the text is drawn whole and nothing remains. -/
theorem wrapLoop_fits (measure : Str → Nat) (maxWidth maxLines innerFuel fuel currentLine : Nat)
    (text : Str) (hne : text ≠ []) (hfit : measure text ≤ maxWidth)
    (hline : currentLine < maxLines) (hlen : text.length < 2147483647) :
    wrapLoop measure maxWidth maxLines innerFuel (fuel + 1) currentLine text
      = ⟨[⟨currentLine, text, false⟩], true⟩ := by
  have hinner : shrinkLoop measure maxWidth maxLines currentLine innerFuel
      (lineInit measure text) = some (lineInit measure text) := by
    have hw : ¬ ((lineInit measure text).w > maxWidth ∧ (lineInit measure text).splitAt ≠ -1) := by
      simp only [lineInit]
      omega
    cases innerFuel with
    | zero => simp only [shrinkLoop, if_neg hw]
    | succ n => simp only [shrinkLoop, if_neg hw]
  have hrest : substringFrom text
      (toUnsigned ((lineInit measure text).endIndex + 2 - (lineInit measure text).keepLastChar))
        = [] := by
    have hu : toUnsigned (((text.length : Nat) : Int) + 2 - 0) = text.length + 2 := by
      simp only [toUnsigned]
      omega
    simp only [lineInit, hu, substringFrom, substring]
    simp
  have hdone : ∀ n, wrapLoop measure maxWidth maxLines innerFuel n (currentLine + 1) []
      = ⟨[], true⟩ := by
    intro n
    cases n with
    | zero => simp [wrapLoop]
    | succ m => simp [wrapLoop]
  rw [wrapLoop, if_pos ⟨hline, hne⟩, hinner]
  simp only [hrest, hdone]
  rfl

/-- Claim C33, refuted on a text that fits. The marker is handled only inside
the loop that shortens a text wider than `maxWidth` (renderer.cpp:176); the text
`ab<br>cd`, eight characters wide, drawn with `maxWidth = 100` and
`maxLines = 2`, skips that loop, and the single line drawn is the whole text,
marker included. -/
theorem drawMultiLnString_br_printed_when_text_fits :
    ∀ fuel : Nat, drawMultiLnString (fuel + 1) List.length brText 100 2
      = ⟨[⟨0, brText, false⟩], true⟩ := by
  intro fuel
  exact wrapLoop_fits List.length 100 2 (fuel + 1) fuel 0 brText (by decide) (by decide)
    (by decide) (by decide)

/-- Claim C35. For every non-empty text whose measured width is at most
`maxWidth` (and whose length fits the `int` variable `endIndex`) and every
`maxLines >= 1`, drawMultiLnString returns after drawing exactly one line, on
line 0, equal to the text, without ellipsis. -/
theorem drawMultiLnString_fitting_text_single_line (fuel : Nat) (measure : Str → Nat)
    (text : Str) (maxWidth maxLines : Nat) (hne : text ≠ []) (hfit : measure text ≤ maxWidth)
    (hlines : 1 ≤ maxLines) (hlen : text.length < 2147483647) :
    drawMultiLnString (fuel + 1) measure text maxWidth maxLines
      = ⟨[⟨0, text, false⟩], true⟩ :=
  wrapLoop_fits measure maxWidth maxLines (fuel + 1) fuel 0 text hne hfit (by omega) hlen

theorem drawMultiLnString_fitting_text_single_line_witness :
    (['a', 'b'] : Str) ≠ [] ∧ List.length ['a', 'b'] ≤ 5 ∧ 1 ≤ 1 ∧
      List.length ['a', 'b'] < 2147483647 ∧
      drawMultiLnString (0 + 1) List.length ['a', 'b'] 5 1
        = ⟨[⟨0, ['a', 'b'], false⟩], true⟩ :=
  ⟨by decide, by decide, by decide, by decide,
    drawMultiLnString_fitting_text_single_line 0 List.length ['a', 'b'] 5 1 (by decide)
      (by decide) (by decide) (by decide)⟩

/-! ### Claim on the signals of the condition classifier -/

/-- Claim C34. For every condition code the pictogram returned by
getConditionsBitmap is the same for all combinations of the signals `day`,
`moon`, `cloudy` and `windy`: any two calls with the same code (and the same
bitmap size) return the same pictogram. -/
theorem getConditionsBitmap_ignores_signals {β : Type} (getBitmap : Icon → Nat → β)
    (bitmapSize : Nat) (id : Int) (day moon cloudy windy day2 moon2 cloudy2 windy2 : Bool) :
    getConditionsBitmap getBitmap bitmapSize id day moon cloudy windy
      = getConditionsBitmap getBitmap bitmapSize id day2 moon2 cloudy2 windy2 :=
  rfl

/-! ### Claim on the grid of the y-axis -/

/-- C36 (as stated, fails): for `vMin = vMax = -4e9` the difference `vMin - 1`
rounds to the `float` `-4e9`, whose conversion to `int` is undefined: the lower
bound is not a multiple of the step, it is not defined, and the computation
yields no state whatever the fuel. -/
theorem computeYAxis_no_grid_at_minus_4e9 :
    staticCastInt (-4000000000) = none ∧
      ∀ (fl : ℚ → ℚ) (fuel : Nat), fl ((-4000000000 : ℚ) - 1) = -4000000000 →
        lowerBoundFor fl (-4000000000) 5 = none ∧
        computeYAxis fl fuel (-4000000000) (-4000000000) = Run.undefined := by
  have hcast : staticCastInt (-4000000000) = none := by
    have h := staticCastInt_intCast (-4000000000)
    have hnone : toInt (-4000000000) = none := by decide
    rw [hnone] at h
    exact_mod_cast h
  refine ⟨hcast, ?_⟩
  intro fl fuel hfl
  have hlo : lowerBoundFor fl (-4000000000) 5 = none := by
    simp only [lowerBoundFor, hfl, hcast, Option.none_bind]
  refine ⟨hlo, computeYAxis_of_axisInit_none fl fuel _ _ ?_⟩
  simp only [axisInit, hlo, Option.none_bind]

/-- C36 (amended): the grid invariant (the step is a positive multiple of 5,
both bounds are multiples of the step) is kept by the body of each loop
whenever that body is defined; for `vMin <= vMax` between `-16777215` and
`16777215` (`2^24 - 1`) the initial state is defined and on the grid, and the computation ends, for
every fuel from some `N` on, in one state that is on the grid and has
`boundMax - boundMin = 5 * tickStep > 0`, so the divisor of the
pixels-per-unit computation is not zero. -/
theorem computeYAxis_grid (fl : ℚ → ℚ) (hfl : RoundsLikeFloat fl) (vMin vMax : ℚ)
    (hlo : -16777215 ≤ vMin) (hle : vMin ≤ vMax) (hhi : vMax ≤ 16777215) :
    (∀ s s', GridInv s → increaseStep fl vMin vMax s = some s' → GridInv s') ∧
    (∀ s s', GridInv s → widenStep fl vMin vMax s = some s' → GridInv s') ∧
    ∃ (N : Nat) (s0 s : AxisState), axisInit fl vMin vMax 5 = some s0 ∧ GridInv s0 ∧
      (∀ k, computeYAxis fl (N + k) vMin vMax = Run.done s) ∧
      GridInv s ∧ s.boundMax - s.boundMin = 5 * s.tickStep ∧ 0 < 5 * s.tickStep ∧
      ((s.boundMax - s.boundMin : Int) : ℚ) ≠ 0 := by
  refine ⟨fun s s' h hstep => gridInv_increaseStep fl vMin vMax h hstep,
    fun s s' h hstep => gridInv_widenStep fl vMin vMax h hstep, ?_⟩
  obtain ⟨a, b, ha, hb, ha1, hab, hb1, -, -⟩ := castExtremes fl hfl vMin vMax hlo hle hhi
  obtain ⟨N, s0, s1, s2, hinit, -, -, hrun, -, -, hfive, hg0, -, hg2⟩ :=
    yAxis_run fl vMin vMax ha hb hab ha1 hb1
  obtain ⟨hs, h5, hlo2, hhi2⟩ := hg2
  have hspan : s2.boundMax - s2.boundMin = 5 * s2.tickStep := by
    obtain ⟨q, hq⟩ := dvd_sub hhi2 hlo2
    simp only [AxisState.tickCount, Option.bind_eq_some] at hfive
    obtain ⟨d, hd, hquot⟩ := hfive
    obtain ⟨hd1, -, -⟩ := toInt_eq_some hd
    have hne : ¬ s2.tickStep = 0 := by omega
    rw [if_neg hne] at hquot
    obtain ⟨hq5, -, -⟩ := toInt_eq_some hquot
    rw [hd1, hq, Int.mul_tdiv_cancel_left q (by omega)] at hq5
    rw [hq, ← hq5]
    ring
  refine ⟨N, s0, s2, hinit, hg0, hrun, ⟨hs, h5, hlo2, hhi2⟩, hspan, by omega, ?_⟩
  have : s2.boundMax - s2.boundMin ≠ 0 := by omega
  exact_mod_cast this

/-- Witness for C36 (amended) at `vMin = vMax = 10` with exact rounding. -/
theorem computeYAxis_grid_witness :
    RoundsLikeFloat (fun x => x) ∧ (-16777215 : ℚ) ≤ 10 ∧ (10 : ℚ) ≤ 10 ∧
      (10 : ℚ) ≤ 16777215 ∧
    (∀ s s', GridInv s → increaseStep (fun x => x) 10 10 s = some s' → GridInv s') ∧
    (∀ s s', GridInv s → widenStep (fun x => x) 10 10 s = some s' → GridInv s') ∧
    ∃ (N : Nat) (s0 s : AxisState), axisInit (fun x => x) 10 10 5 = some s0 ∧ GridInv s0 ∧
      (∀ k, computeYAxis (fun x => x) (N + k) 10 10 = Run.done s) ∧
      GridInv s ∧ s.boundMax - s.boundMin = 5 * s.tickStep ∧ 0 < 5 * s.tickStep ∧
      ((s.boundMax - s.boundMin : Int) : ℚ) ≠ 0 :=
  ⟨⟨fun _ _ h => h, fun _ _ _ => rfl⟩, by norm_num, le_refl _, by norm_num,
    computeYAxis_grid (fun x => x) ⟨fun _ _ h => h, fun _ _ _ => rfl⟩ 10 10 (by norm_num)
      (le_refl _) (by norm_num)⟩

/-! ### Claims on a long sensor feed and on the rows of drawDomoticz -/

/-- Once the loop has met its sixth non-memo entry, the entries that follow are
not read: a feed with enough non-memo entries may be extended at will. -/
theorem idxLoop_append (extra : List DomoticzEntry) :
    ∀ (feed : List DomoticzEntry) (i : Nat) (r : requested_data), i ≤ 5 →
      6 ≤ i + (nonMemoEntries feed).length →
      idxLoop (feed ++ extra) i r = idxLoop feed i r := by
  intro feed
  induction feed with
  | nil =>
    intro i r hi h6
    simp only [nonMemoEntries, List.filter_nil, List.length_nil] at h6
    omega
  | cons v rest ih =>
    intro i r hi h6
    simp only [List.cons_append, idxLoop]
    cases h1 : writeAt DATA_CAPACITY r.data i (fun _ => entrySlot v) with
    | none => rfl
    | some data1 =>
      by_cases hm : v.idx = 125
      · simp only [if_pos hm]
        rw [nonMemoEntries_cons_memo v rest hm] at h6
        exact ih i _ hi h6
      · simp only [if_neg hm]
        cases h2 : writeAt DATA_CAPACITY data1 i (classifyEntry v) with
        | none => rfl
        | some data2 =>
          rw [nonMemoEntries_cons_other v rest hm, List.length_cons] at h6
          by_cases h4 : i > 4
          · simp only [if_pos h4]
          · simp only [if_neg h4]
            exact ih (i + 1) _ (by omega) (by omega)

/-- Claim C37. For every sensor feed with six or more non-memo entries,
deserialize_Domoticz_API_IDX succeeds; slots 0..4 hold the first five non-memo
entries, slot 5 holds the memory entry (not the sixth entry), slot 6 and every
slot above keep their former content, and whatever follows in the feed (a memo
entry included) does not change the result. -/
theorem deserialize_Domoticz_API_IDX_six_or_more (feed extra : List DomoticzEntry)
    (heapText : Str) (r : requested_data) (h6 : 6 ≤ (nonMemoEntries feed).length) :
    ∃ r', deserialize_Domoticz_API_IDX DeserializationError.Ok feed heapText r
        = some (DeserializationError.Ok, r') ∧
      (∀ j, j < 5 → ∃ v, (nonMemoEntries feed)[j]? = some v ∧
        r'.data j = classifyEntry v (entrySlot v)) ∧
      r'.data 5 = { icon := 5, description := memoireWord, value := heapText } ∧
      (∀ j, 6 ≤ j → r'.data j = r.data j) ∧
      deserialize_Domoticz_API_IDX DeserializationError.Ok (feed ++ extra) heapText r
        = deserialize_Domoticz_API_IDX DeserializationError.Ok feed heapText r := by
  obtain ⟨r', hrun, -, hmem, hmid, hhigh⟩ := deserialize_Domoticz_API_IDX_ok feed heapText r
  have hmin : min (nonMemoEntries feed).length 5 = 5 := by omega
  rw [hmin] at hmem hmid hhigh
  refine ⟨r', hrun, ?_, hmem, fun j hj => hhigh j (by omega), ?_⟩
  · intro j hj
    have h := hmid j hj
    cases hv : (nonMemoEntries feed)[j]? with
    | none => simp [hv] at h
    | some v =>
      simp only [hv, Option.map_some', Option.some.injEq] at h
      exact ⟨v, rfl, h.symm⟩
  · simp only [deserialize_Domoticz_API_IDX]
    rw [idxLoop_append extra feed 0 r (by omega) (by omega)]

theorem deserialize_Domoticz_API_IDX_six_or_more_witness :
    6 ≤ (nonMemoEntries sixSensorsThenMemo).length ∧
    ∃ r', deserialize_Domoticz_API_IDX DeserializationError.Ok sixSensorsThenMemo [] zeroRecord
        = some (DeserializationError.Ok, r') ∧
      (∀ j, j < 5 → ∃ v, (nonMemoEntries sixSensorsThenMemo)[j]? = some v ∧
        r'.data j = classifyEntry v (entrySlot v)) ∧
      r'.data 5 = { icon := 5, description := memoireWord, value := [] } ∧
      (∀ j, 6 ≤ j → r'.data j = zeroRecord.data j) ∧
      deserialize_Domoticz_API_IDX DeserializationError.Ok
          (sixSensorsThenMemo ++ sixSensorsThenMemo) [] zeroRecord
        = deserialize_Domoticz_API_IDX DeserializationError.Ok sixSensorsThenMemo []
            zeroRecord :=
  ⟨by decide, deserialize_Domoticz_API_IDX_six_or_more sixSensorsThenMemo sixSensorsThenMemo []
    zeroRecord (by decide)⟩

/-- The rows drawn by the loop of drawDomoticz when its two counters start
together at `y`: one row for each slot from `y` on, among the next `n`, whose
icon is positive. -/
theorem mem_drawDomoticzLoop (data : Nat → domoticz_t) :
    ∀ (n y : Nat) (row : DomoticzRow), row ∈ drawDomoticzLoop data n y y ↔
      ∃ i, y ≤ i ∧ i < y + n ∧ 0 < (data i).icon ∧ row = domoticzRow data i i := by
  intro n
  induction n with
  | zero =>
    intro y row
    simp only [drawDomoticzLoop, List.not_mem_nil, false_iff]
    rintro ⟨i, h1, h2, -⟩
    omega
  | succ n ih =>
    intro y row
    simp only [drawDomoticzLoop, List.mem_append, ih]
    constructor
    · rintro (h | ⟨i, h1, h2, h3, h4⟩)
      · by_cases hicon : (data y).icon > 0
        · rw [if_pos hicon, List.mem_singleton] at h
          exact ⟨y, le_refl _, by omega, hicon, h⟩
        · rw [if_neg hicon] at h
          exact absurd h (List.not_mem_nil _)
      · exact ⟨i, by omega, by omega, h3, h4⟩
    · rintro ⟨i, h1, h2, h3, h4⟩
      by_cases hiy : i = y
      · left
        subst hiy
        rw [if_pos h3, List.mem_singleton]
        exact h4
      · right
        exact ⟨i, by omega, by omega, h3, h4⟩

/-- Claim C38. The device rows drawn by drawDomoticz are exactly the slots
`i < 5` whose icon is positive, each on row `i` with the content of its slot;
and for every sensor feed the memory entry written by
deserialize_Domoticz_API_IDX is among the rows drawn if and only if the feed has
fewer than five non-memo entries. -/
theorem drawDomoticz_rows_and_memory_entry (feed : List DomoticzEntry) (heapText : Str)
    (r : requested_data) :
    (∀ (data : Nat → domoticz_t) (row : DomoticzRow), row ∈ drawDomoticz data ↔
      ∃ i, i < 5 ∧ 0 < (data i).icon ∧ row = domoticzRow data i i) ∧
    ∃ r', deserialize_Domoticz_API_IDX DeserializationError.Ok feed heapText r
        = some (DeserializationError.Ok, r') ∧
      r'.data (min (nonMemoEntries feed).length 5)
        = { icon := 5, description := memoireWord, value := heapText } ∧
      ((∃ row, row ∈ drawDomoticz r'.data ∧ row.slot = min (nonMemoEntries feed).length 5 ∧
          row.icon = 5 ∧ row.description = memoireWord ∧ row.value = heapText)
        ↔ (nonMemoEntries feed).length < 5) := by
  have hrows : ∀ (data : Nat → domoticz_t) (row : DomoticzRow), row ∈ drawDomoticz data ↔
      ∃ i, i < 5 ∧ 0 < (data i).icon ∧ row = domoticzRow data i i := by
    intro data row
    rw [drawDomoticz, mem_drawDomoticzLoop]
    constructor
    · rintro ⟨i, -, h2, h3, h4⟩
      exact ⟨i, by omega, h3, h4⟩
    · rintro ⟨i, h2, h3, h4⟩
      exact ⟨i, Nat.zero_le _, by omega, h3, h4⟩
  refine ⟨hrows, ?_⟩
  obtain ⟨r', hrun, -, hmem, -, -⟩ := deserialize_Domoticz_API_IDX_ok feed heapText r
  refine ⟨r', hrun, hmem, ?_⟩
  constructor
  · rintro ⟨row, hin, hslot, -⟩
    obtain ⟨i, hi, -, hrow⟩ := (hrows r'.data row).1 hin
    rw [hrow] at hslot
    simp only [domoticzRow] at hslot
    omega
  · intro hlt
    refine ⟨domoticzRow r'.data (min (nonMemoEntries feed).length 5)
      (min (nonMemoEntries feed).length 5), ?_, rfl, ?_, ?_, ?_⟩
    · refine (hrows r'.data _).2 ⟨_, by omega, ?_, rfl⟩
      rw [hmem]
      show (0 : Int) < 5
      norm_num
    · simp only [domoticzRow, hmem]
    · simp only [domoticzRow, hmem]
    · simp only [domoticzRow, hmem]

/-! ### Claim on the x-axis ticks of drawOutlookGraph -/

theorem hourInterval_eq_ceil (n : Nat) : hourInterval n = ⌈(n : ℚ) / 8⌉ :=
  castInt_intCast _

theorem hourInterval_pos (n : Nat) (hn : 1 ≤ n) : 0 < hourInterval n := by
  rw [hourInterval_eq_ceil, Int.ceil_pos]
  have : (0 : ℚ) < (n : ℚ) := by exact_mod_cast hn
  positivity

/-- Claim C32, refuted for 17 samples: the stride is 3, the ticks of the loop
are at 0, 3, .., 15, the last sample index 16 is not a multiple of 3, and yet no
final tick is drawn. For 8 samples the stride is 1, the last index 7 is a
multiple of it, and the final tick is drawn. -/
theorem drawOutlookGraph_last_tick_not_on_last_index :
    hourInterval 17 = 3 ∧ xTickIndices 17 = [0, 3, 6, 9, 12, 15] ∧
      ¬ (hourInterval 17 ∣ ((17 : Int) - 1)) ∧ drawsLastTick 17 = false ∧
      hourInterval 8 = 1 ∧ hourInterval 8 ∣ ((8 : Int) - 1) ∧ drawsLastTick 8 = true := by
  have h17 : hourInterval 17 = 3 := by decide!
  have h8 : hourInterval 8 = 1 := by decide!
  refine ⟨h17, by decide!, ?_, by decide!, h8, ?_, by decide!⟩
  · rw [h17]; decide
  · rw [h8]; decide

/-- C32 (amended): with `N >= 1` plotted samples the stride is `ceil(N / 8)`, a
positive integer; the loop draws a tick at exactly the sample indices below `N`
that are multiples of the stride; and the final tick, placed one sample step
after the last sample, is drawn exactly when `N` itself is a multiple of the
stride. -/
theorem drawOutlookGraph_x_ticks (n : Nat) (hn : 1 ≤ n) :
    hourInterval n = ⌈(n : ℚ) / 8⌉ ∧ 0 < hourInterval n ∧
      (∀ i : Nat, i ∈ xTickIndices n ↔ i < n ∧ hourInterval n ∣ (i : Int)) ∧
      (drawsLastTick n = true ↔ hourInterval n ∣ (n : Int)) := by
  have hpos := hourInterval_pos n hn
  have hiff : ∀ a : Nat,
      Int.tmod (a : Int) (hourInterval n) = 0 ↔ hourInterval n ∣ (a : Int) :=
    fun a => ⟨Int.dvd_of_tmod_eq_zero, Int.tmod_eq_zero_of_dvd⟩
  refine ⟨hourInterval_eq_ceil n, hpos, ?_, ?_⟩
  · intro i
    simp only [xTickIndices, List.mem_filter, List.mem_range, decide_eq_true_eq, hiff]
  · simp only [drawsLastTick, decide_eq_true_eq, hiff]

theorem drawOutlookGraph_x_ticks_witness :
    1 ≤ 24 ∧ hourInterval 24 = ⌈((24 : Nat) : ℚ) / 8⌉ ∧ 0 < hourInterval 24 ∧
      (∀ i : Nat, i ∈ xTickIndices 24 ↔ i < 24 ∧ hourInterval 24 ∣ (i : Int)) ∧
      (drawsLastTick 24 = true ↔ hourInterval 24 ∣ ((24 : Nat) : Int)) :=
  ⟨by decide, drawOutlookGraph_x_ticks 24 (by decide)⟩

/-! ### Claim on a battery reading below the lower limit -/

/-- From a value 20 of `pow` on, the percentage is capped at 100. -/
theorem batPercentOf_full (y : ℚ) (hy : 20 ≤ y) : batPercentOf y = 100 := by
  have hden : (0 : ℚ) < 1 + y := by linarith
  have hfrac : (105 : ℚ) / (1 + y) ≤ 5 := by
    rw [div_le_iff₀ hden]
    linarith
  have hfrac0 : (0 : ℚ) < 105 / (1 + y) := by positivity
  have hlo := lt_castInt (105 - 105 / (1 + y))
  have hhi := castInt_lt (105 - 105 / (1 + y))
  have h1 : (99 : ℚ) < (castInt (105 - 105 / (1 + y)) : ℚ) := by linarith
  have h2 : (castInt (105 - 105 / (1 + y)) : ℚ) < 106 := by linarith
  have h1i : (99 : Int) < castInt (105 - 105 / (1 + y)) := by exact_mod_cast h1
  have h2i : castInt (105 - 105 / (1 + y)) < 106 := by exact_mod_cast h2
  have hp : 100 ≤ toUInt32 (castInt (105 - 105 / (1 + y))) := by
    simp only [toUInt32]
    omega
  simp only [batPercentOf]
  rw [if_pos hp]

/-- Claim C39. For limits `minv < maxv <= 10000` and a reading `v < minv`, the
difference `v - minv` on `uint32_t` is `2^32 - (minv - v)`, and calcBatPercent
returns 100, for every `pow` that does not decrease an argument from 1 on (as
the power 5.5 does). -/
theorem calcBatPercent_below_minimum_is_full (pow : ℚ → ℚ → ℚ) (v minv maxv : Nat)
    (hpow : ∀ x : ℚ, 1 ≤ x → x ≤ pow x (5.5 : ℚ)) (hv : v < minv) (hlim : minv < maxv)
    (hmax : maxv ≤ 10000) :
    toUInt32 ((v : Int) - (minv : Int)) = 4294967296 - (minv - v) ∧
      calcBatPercent pow v minv maxv = 100 := by
  have ha : toUInt32 ((v : Int) - (minv : Int)) = 4294967296 - (minv - v) := by
    simp only [toUInt32]
    omega
  have hb : toUInt32 ((maxv : Int) - (minv : Int)) = maxv - minv := by
    simp only [toUInt32]
    omega
  refine ⟨ha, ?_⟩
  have hbpos : (0 : ℚ) < ((maxv - minv : Nat) : ℚ) := by
    have : 0 < maxv - minv := by omega
    exact_mod_cast this
  have hble : ((maxv - minv : Nat) : ℚ) ≤ 10000 := by
    have : maxv - minv ≤ 10000 := by omega
    exact_mod_cast this
  have hage : (4294957296 : ℚ) ≤ ((4294967296 - (minv - v) : Nat) : ℚ) := by
    have : 4294957296 ≤ 4294967296 - (minv - v) := by omega
    exact_mod_cast this
  have hratio : (20 : ℚ) ≤ batRatio v minv maxv := by
    simp only [batRatio, ha, hb]
    rw [le_div_iff₀ hbpos]
    norm_num
    linarith
  have hy : (20 : ℚ) ≤ pow (batRatio v minv maxv) (5.5 : ℚ) :=
    le_trans hratio (hpow _ (by linarith))
  simp only [calcBatPercent]
  exact batPercentOf_full _ hy

theorem calcBatPercent_below_minimum_is_full_witness :
    (∀ x : ℚ, 1 ≤ x → x ≤ (fun (a _ : ℚ) => a) x (5.5 : ℚ)) ∧ 3000 < 3200 ∧ 3200 < 4200 ∧
      4200 ≤ 10000 ∧
      toUInt32 (((3000 : Nat) : Int) - ((3200 : Nat) : Int)) = 4294967296 - (3200 - 3000) ∧
      calcBatPercent (fun a _ => a) 3000 3200 4200 = 100 :=
  ⟨fun _ _ => le_refl _, by decide, by decide, by decide,
    calcBatPercent_below_minimum_is_full (fun a _ => a) 3000 3200 4200 (fun _ _ => le_refl _)
      (by decide) (by decide) (by decide)⟩

/-! ### Claim on the truncated alert text -/

/-- The result of the loop is the `lastChar` it starts with, or some `j + 1`
for an index `j` of the text that the loop has passed. -/
theorem truncateLoop_range (text : Str) :
    ∀ n i lastChar, truncateLoop text n i lastChar = lastChar ∨
      (i < truncateLoop text n i lastChar ∧ truncateLoop text n i lastChar ≤ text.length) := by
  intro n
  induction n with
  | zero => intro i lastChar; exact Or.inl rfl
  | succ n ih =>
    intro i lastChar
    by_cases hc : i < text.length ∧ charAt text i ≠ ',' ∧ charAt text i ≠ '.' ∧
        charAt text i ≠ '('
    · simp only [truncateLoop, if_pos hc]
      rcases ih (i + 1) (if charAt text i ≠ ' ' then i + 1 else lastChar) with h | ⟨h1, h2⟩
      · rw [h]
        by_cases hsp : charAt text i ≠ ' '
        · rw [if_pos hsp]
          exact Or.inr ⟨by omega, by omega⟩
        · rw [if_neg hsp]
          exact Or.inl rfl
      · exact Or.inr ⟨by omega, h2⟩
    · have hstop : truncateLoop text (n + 1) i lastChar = lastChar := by
        simp only [truncateLoop, if_neg hc]
      exact Or.inl hstop

/-- Passes beyond the length of the text change nothing. -/
theorem truncateLoop_more_fuel (text : Str) :
    ∀ n i lastChar k, text.length ≤ i + n →
      truncateLoop text (n + k) i lastChar = truncateLoop text n i lastChar := by
  intro n
  induction n with
  | zero =>
    intro i lastChar k hlen
    have hc : ¬ (i < text.length ∧ charAt text i ≠ ',' ∧ charAt text i ≠ '.' ∧
        charAt text i ≠ '(') := by omega
    cases k with
    | zero => rfl
    | succ k => simp only [Nat.zero_add, truncateLoop, if_neg hc]
  | succ n ih =>
    intro i lastChar k hlen
    have hk : n + 1 + k = (n + k) + 1 := by omega
    rw [hk]
    by_cases hc : i < text.length ∧ charAt text i ≠ ',' ∧ charAt text i ≠ '.' ∧
        charAt text i ≠ '('
    · simp only [truncateLoop, if_pos hc]
      exact ih _ _ k (by omega)
    · simp only [truncateLoop, if_neg hc]

theorem charAt_take (text : Str) (k i : Nat) (h : i < k) :
    charAt (text.take k) i = charAt text i := by
  simp only [charAt, List.getD_eq_getElem?_getD, List.getElem?_take, if_pos h]

/-- The loop run on the text cut at its own result returns that result. -/
theorem truncateLoop_take (text : Str) :
    ∀ n i lastChar, lastChar ≤ i →
      truncateLoop (text.take (truncateLoop text n i lastChar)) n i lastChar
        = truncateLoop text n i lastChar := by
  intro n
  induction n with
  | zero => intro i lastChar _; rfl
  | succ n ih =>
    intro i lastChar hle
    by_cases hc : i < text.length ∧ charAt text i ≠ ',' ∧ charAt text i ≠ '.' ∧
        charAt text i ≠ '('
    · have hstep : truncateLoop text (n + 1) i lastChar
          = truncateLoop text n (i + 1) (if charAt text i ≠ ' ' then i + 1 else lastChar) := by
        simp only [truncateLoop, if_pos hc]
      have hle2 : (if charAt text i ≠ ' ' then i + 1 else lastChar) ≤ i + 1 := by
        split_ifs <;> omega
      have hih := ih (i + 1) _ hle2
      have hrange := truncateLoop_range text n (i + 1)
        (if charAt text i ≠ ' ' then i + 1 else lastChar)
      rw [hstep]
      generalize truncateLoop text n (i + 1)
        (if charAt text i ≠ ' ' then i + 1 else lastChar) = L at hih hrange ⊢
      by_cases hiL : i < L
      · have hchar := charAt_take text L i hiL
        have hc2 : i < (text.take L).length ∧ charAt (text.take L) i ≠ ',' ∧
            charAt (text.take L) i ≠ '.' ∧ charAt (text.take L) i ≠ '(' := by
          rw [hchar, List.length_take]
          exact ⟨by omega, hc.2⟩
        simp only [truncateLoop, if_pos hc2]
        rw [hchar]
        exact hih
      · have hc2 : ¬ (i < (text.take L).length ∧ charAt (text.take L) i ≠ ',' ∧
            charAt (text.take L) i ≠ '.' ∧ charAt (text.take L) i ≠ '(') := by
          rw [List.length_take]
          omega
        simp only [truncateLoop, if_neg hc2]
        rcases hrange with h | ⟨h, -⟩
        · by_cases hsp : charAt text i ≠ ' '
          · rw [if_pos hsp] at h
            omega
          · rw [if_neg hsp] at h
            exact h.symm
        · omega
    · have hstop : truncateLoop text (n + 1) i lastChar = lastChar := by
        simp only [truncateLoop, if_neg hc]
      rw [hstop]
      have hc2 : ¬ (i < (text.take lastChar).length ∧ charAt (text.take lastChar) i ≠ ',' ∧
          charAt (text.take lastChar) i ≠ '.' ∧ charAt (text.take lastChar) i ≠ '(') := by
        rw [List.length_take]
        omega
      simp only [truncateLoop, if_neg hc2]

theorem substring_zero (s : Str) (k : Nat) (hne : s ≠ []) : substring s 0 k = s.take k := by
  have hlen : 0 < s.length := List.length_pos.mpr hne
  have h0 : ¬ (0 ≥ s.length) := by omega
  simp only [substring, Nat.not_lt_zero, if_false, if_neg h0, List.drop_zero, Nat.sub_zero]
  split_ifs with h
  · rw [List.take_of_length_le (le_refl _), List.take_of_length_le (by omega)]
  · rfl

/-- Claim C40. For every non-empty string `s`, truncateExtraAlertInfo returns a
non-empty prefix of `s`, and applying the function to its own result returns
that result unchanged. -/
theorem truncateExtraAlertInfo_prefix_idempotent (s : Str) (hne : s ≠ []) :
    truncateExtraAlertInfo s ≠ [] ∧ truncateExtraAlertInfo s <+: s ∧
      truncateExtraAlertInfo (truncateExtraAlertInfo s) = truncateExtraAlertInfo s := by
  have hlen : 0 < s.length := List.length_pos.mpr hne
  have hrange := truncateLoop_range s s.length 1 1
  have htake := truncateLoop_take s s.length 1 1 (le_refl _)
  have hres : truncateExtraAlertInfo s = s.take (truncateLoop s s.length 1 1) := by
    simp only [truncateExtraAlertInfo, if_neg hne]
    exact substring_zero s _ hne
  generalize truncateLoop s s.length 1 1 = L at hrange htake hres
  have hL1 : 1 ≤ L := by omega
  have hL2 : L ≤ s.length := by omega
  have hlenT : (s.take L).length = L := by
    rw [List.length_take]
    omega
  have hneT : s.take L ≠ [] := by
    intro h
    rw [h] at hlenT
    simp at hlenT
    omega
  rw [hres]
  refine ⟨hneT, List.take_prefix L s, ?_⟩
  have hfuel : truncateLoop (s.take L) L 1 1 = L := by
    have h := truncateLoop_more_fuel (s.take L) L 1 1 (s.length - L) (by omega)
    have hsum : L + (s.length - L) = s.length := by omega
    rw [hsum, htake] at h
    exact h.symm
  simp only [truncateExtraAlertInfo, if_neg hneT]
  rw [substring_zero _ _ hneT, hlenT, hfuel, List.take_take, Nat.min_self]

set_option maxRecDepth 8000 in
theorem truncateExtraAlertInfo_prefix_idempotent_witness :
    "Flood Watch (until 6 PM)".toList ≠ [] ∧
      truncateExtraAlertInfo "Flood Watch (until 6 PM)".toList ≠ [] ∧
      truncateExtraAlertInfo "Flood Watch (until 6 PM)".toList
        <+: "Flood Watch (until 6 PM)".toList ∧
      truncateExtraAlertInfo (truncateExtraAlertInfo "Flood Watch (until 6 PM)".toList)
        = truncateExtraAlertInfo "Flood Watch (until 6 PM)".toList :=
  ⟨by decide, truncateExtraAlertInfo_prefix_idempotent "Flood Watch (until 6 PM)".toList
    (by decide)⟩

/-! ### Claim on the samples plotted by drawConsumptionGraph -/

theorem spikeGraph_inside (w j : Nat) (h1 : 2 ≤ j) (h2 : j ≤ w) : spikeGraph w j = 10 := by
  have hj : ¬ j = 1 := by omega
  simp only [spikeGraph, if_neg hj, if_pos h2]

theorem firstDayIndex_spikeGraph (w : Nat) (h1 : 1 ≤ w) (h2 : w ≤ 32) :
    firstDayIndex (spikeGraph w) = ((w + 1 : Nat) : Int) := by
  obtain ⟨k, hk1, hk2, hrun, hstop, hbefore⟩ := firstDayLoop_spec (spikeGraph w) 32 1 0
  have hend : spikeGraph w (w + 1) = 0 := by
    have ha : ¬ w + 1 = 1 := by omega
    have hb : ¬ w + 1 ≤ w := by omega
    simp only [spikeGraph, if_neg ha, if_neg hb]
  have hle : k ≤ w + 1 := by
    by_contra hgt
    exact hbefore (w + 1) (by omega) (by omega) hend
  have hge : w + 1 ≤ k := by
    by_contra hlt
    have hk : k ≤ w := by omega
    have hne : spikeGraph w k ≠ 0 := by
      by_cases hone : k = 1
      · simp only [spikeGraph, if_pos hone]
        norm_num
      · rw [spikeGraph_inside w k (by omega) hk]
        norm_num
    rcases hstop with h | h
    · exact hne h
    · omega
  have hk : k = w + 1 := by omega
  rw [firstDayIndex, hrun, hk]

theorem consumptionScanLoop_spikeGraph (fl : ℚ → ℚ) (hfl : RoundsLikeFloat fl) (w : Nat)
    (h2 : w ≤ 32) :
    ∀ n i : Nat, 1 ≤ i → i + n ≤ w →
      consumptionScanLoop fl (spikeGraph w) 1 n (i : Int) (10, 10) = some (10, 10) := by
  have h10 : fl ((10 : Int) : ℚ) = 10 := by
    rw [hfl.2 10 (by norm_num) (by norm_num)]
    norm_num
  intro n
  induction n with
  | zero => intro i _ _; rfl
  | succ n ih =>
    intro i hi hin
    have hread : graphValueAt (spikeGraph w) ((i : Int) + 1) = some 10 := by
      have hin35 : 0 ≤ (i : Int) + 1 ∧ (i : Int) + 1 < (GRAPH_CAPACITY : Int) := by
        simp only [GRAPH_CAPACITY]
        omega
      have hnat : ((i : Int) + 1).toNat = i + 1 := by omega
      simp only [graphValueAt, if_pos hin35, hnat]
      rw [spikeGraph_inside w (i + 1) (by omega) (by omega)]
    have hnext := ih (i + 1) (by omega) (by omega)
    simp only [consumptionScanLoop, hread, h10]
    have hacc : ((min (10 : ℚ) 10, max (10 : ℚ) 10) : ℚ × ℚ) = (10, 10) := by
      norm_num
    rw [hacc]
    exact_mod_cast hnext

/-- The y-axis computation for the extremes 10 and 10: the initial bounds are 5
and 15, the first loop leaves them, and the second loop widens them to -5 and
20, for every rounding that is exact on the small integers. -/
theorem computeYAxis_ten (fl : ℚ → ℚ) (hfl : RoundsLikeFloat fl) :
    ∀ k, computeYAxis fl (3 + k) 10 10 = Run.done ⟨5, -5, 20⟩ := by
  have hint : ∀ (q : ℚ) (n : Int), q = (n : ℚ) → -16777216 ≤ n → n ≤ 16777216 → fl q = q := by
    intro q n hq h1 h2
    rw [hq]
    exact hfl.2 n h1 h2
  have h9 : fl ((10 : ℚ) - 1) = 9 := by
    rw [hint ((10 : ℚ) - 1) 9 (by norm_num) (by norm_num) (by norm_num)]
    norm_num
  have h11 : fl ((10 : ℚ) + 1) = 11 := by
    rw [hint ((10 : ℚ) + 1) 11 (by norm_num) (by norm_num) (by norm_num)]
    norm_num
  have ha : staticCastInt (fl ((10 : ℚ) - 1)) = some 9 := by
    rw [h9]
    exact_mod_cast staticCastInt_intCast 9
  have hb : staticCastInt (fl ((10 : ℚ) + 1)) = some 11 := by
    rw [h11]
    exact_mod_cast staticCastInt_intCast 11
  have hinit : axisInit fl 10 10 5 = some ⟨5, 5, 15⟩ := by
    simp only [axisInit, lowerBoundFor_eq fl _ 5 _ ha (by norm_num) (by norm_num),
      upperBoundFor_eq fl _ 5 _ hb (by norm_num) (by norm_num) (by norm_num),
      Option.some_bind]
    rfl
  have hs1 : stepLoop fl 10 10 5 3 ⟨5, 5, 15⟩ = Run.done ⟨5, 5, 15⟩ := by
    have htc : (⟨5, 5, 15⟩ : AxisState).tickCount = some 2 := by decide
    simp only [stepLoop, htc]
    rfl
  have hw1 : widenStep fl 10 10 ⟨5, 5, 15⟩ = some ⟨5, 0, 15⟩ := by
    have e1 : fl (((5 : Int) : ℚ)) = 5 := by
      rw [hfl.2 5 (by norm_num) (by norm_num)]; norm_num
    have e2 : fl (((15 : Int) : ℚ)) = 15 := by
      rw [hfl.2 15 (by norm_num) (by norm_num)]; norm_num
    have e3 : fl ((10 : ℚ) - 5) = 5 := by
      rw [hint ((10 : ℚ) - 5) 5 (by norm_num) (by norm_num) (by norm_num)]; norm_num
    have e4 : fl ((15 : ℚ) - 10) = 5 := by
      rw [hint ((15 : ℚ) - 10) 5 (by norm_num) (by norm_num) (by norm_num)]; norm_num
    simp only [widenStep, e1, e2, e3, e4, le_refl, if_true]
    rfl
  have hw2 : widenStep fl 10 10 ⟨5, 0, 15⟩ = some ⟨5, 0, 20⟩ := by
    have e1 : fl (((0 : Int) : ℚ)) = 0 := by
      rw [hfl.2 0 (by norm_num) (by norm_num)]; norm_num
    have e2 : fl (((15 : Int) : ℚ)) = 15 := by
      rw [hfl.2 15 (by norm_num) (by norm_num)]; norm_num
    have e3 : fl ((10 : ℚ) - 0) = 10 := by
      rw [hint ((10 : ℚ) - 0) 10 (by norm_num) (by norm_num) (by norm_num)]; norm_num
    have e4 : fl ((15 : ℚ) - 10) = 5 := by
      rw [hint ((15 : ℚ) - 10) 5 (by norm_num) (by norm_num) (by norm_num)]; norm_num
    have hcmp : ¬ ((10 : ℚ) ≤ 5) := by norm_num
    simp only [widenStep, e1, e2, e3, e4, if_neg hcmp]
    rfl
  have hw3 : widenStep fl 10 10 ⟨5, 0, 20⟩ = some ⟨5, -5, 20⟩ := by
    have e1 : fl (((0 : Int) : ℚ)) = 0 := by
      rw [hfl.2 0 (by norm_num) (by norm_num)]; norm_num
    have e2 : fl (((20 : Int) : ℚ)) = 20 := by
      rw [hfl.2 20 (by norm_num) (by norm_num)]; norm_num
    have e3 : fl ((10 : ℚ) - 0) = 10 := by
      rw [hint ((10 : ℚ) - 0) 10 (by norm_num) (by norm_num) (by norm_num)]; norm_num
    have e4 : fl ((20 : ℚ) - 10) = 10 := by
      rw [hint ((20 : ℚ) - 10) 10 (by norm_num) (by norm_num) (by norm_num)]; norm_num
    simp only [widenStep, e1, e2, e3, e4, le_refl, if_true]
    rfl
  have hs2 : widenLoop fl 10 10 5 3 ⟨5, 5, 15⟩ = Run.done ⟨5, -5, 20⟩ := by
    have t1 : (⟨5, 5, 15⟩ : AxisState).tickCount = some 2 := by decide
    have t2 : (⟨5, 0, 15⟩ : AxisState).tickCount = some 3 := by decide
    have t3 : (⟨5, 0, 20⟩ : AxisState).tickCount = some 4 := by decide
    have t4 : (⟨5, -5, 20⟩ : AxisState).tickCount = some 5 := by decide
    simp only [widenLoop, t1, t2, t3, t4, hw1, hw2, hw3]
    rfl
  intro k
  simp only [computeYAxis, hinit, stepLoop_more_fuel fl 10 10 5 3 _ _ hs1 k]
  exact widenLoop_more_fuel fl 10 10 5 3 _ _ hs2 k

/-- Claim C31, refuted for every window of `w` days, `1 <= w <= 32`, that lies
inside the array, and every rounding that is exact on the small integers. The
scan of lines 583-607 starts from `graph[0]` and then reads
`graph[i + firstday]` for `i >= 1` only, so with `firstday = 1` the first
plotted sample `graph[1]` is not scanned: for the series `spikeGraph w` the
extremes are 10 and 10, the bounds are -5 and 20 for every fuel from 3 on, the
sample plotted at `i = 0` is 500, above the upper bound, and its pixel row
before rounding lies above `yPos0`. -/
theorem drawConsumptionGraph_first_sample_outside_bounds (fl : ℚ → ℚ)
    (hfl : RoundsLikeFloat fl) (w : Nat) (h1 : 1 ≤ w) (h2 : w ≤ 32) :
    firstDay (spikeGraph w) (w : Int) = 1 ∧
      consumptionExtremes fl (spikeGraph w) w = some (10, 10) ∧
      (∀ k, consumptionAxis fl (3 + k) (spikeGraph w) w = Run.done ⟨5, -5, 20⟩) ∧
      consumptionPlotted (spikeGraph w) w 0 = some 500 ∧ ¬ ((500 : Int) ≤ 20) ∧
      ∀ yPos0 : Int, consumptionPlotY yPos0 (yPos0 + 110) ⟨5, -5, 20⟩ 500 < (yPos0 : ℚ) := by
  have hfirst : firstDay (spikeGraph w) (w : Int) = 1 := by
    rw [firstDay, firstDayIndex_spikeGraph w h1 h2]
    push_cast
    omega
  have hzero : spikeGraph w 0 = 10 := by
    simp only [spikeGraph]
    rw [if_neg (by omega), if_pos (Nat.zero_le w)]
  have h10 : fl ((10 : Int) : ℚ) = 10 := by
    rw [hfl.2 10 (by norm_num) (by norm_num)]
    norm_num
  have hext : consumptionExtremes fl (spikeGraph w) w = some (10, 10) := by
    simp only [consumptionExtremes, hfirst, hzero, h10]
    have h := consumptionScanLoop_spikeGraph fl hfl w h2 (w - 1) 1 (le_refl 1) (by omega)
    exact_mod_cast h
  refine ⟨hfirst, hext, ?_, ?_, by decide, ?_⟩
  · intro k
    simp only [consumptionAxis, hext]
    exact computeYAxis_ten fl hfl k
  · simp only [consumptionPlotted, hfirst]
    rfl
  · intro yPos0
    simp only [consumptionPlotY]
    push_cast
    norm_num
    linarith

theorem drawConsumptionGraph_first_sample_outside_bounds_witness :
    RoundsLikeFloat (fun x => x) ∧ 1 ≤ 7 ∧ 7 ≤ 32 ∧
      firstDay (spikeGraph 7) ((7 : Nat) : Int) = 1 ∧
      consumptionExtremes (fun x => x) (spikeGraph 7) 7 = some (10, 10) ∧
      (∀ k, consumptionAxis (fun x => x) (3 + k) (spikeGraph 7) 7 = Run.done ⟨5, -5, 20⟩) ∧
      consumptionPlotted (spikeGraph 7) 7 0 = some 500 ∧ ¬ ((500 : Int) ≤ 20) ∧
      ∀ yPos0 : Int, consumptionPlotY yPos0 (yPos0 + 110) ⟨5, -5, 20⟩ 500 < (yPos0 : ℚ) :=
  ⟨⟨fun _ _ h => h, fun _ _ _ => rfl⟩, by decide, by decide,
    drawConsumptionGraph_first_sample_outside_bounds (fun x => x)
      ⟨fun _ _ h => h, fun _ _ _ => rfl⟩ 7 (by decide) (by decide)⟩

end EpdDisplay
